import Mathlib

/-!
Verification development for the vyatta-vrrp translation core.

The Python sources under `vyatta/` are shallowly embedded as Lean
functions.  Text is represented as `List Char` (one entry per character)
and a file or block of config is a `List (List Char)` of lines: the real
file string is exactly the `"\n"`-intercalation of such a line list, and
every Python function involved consumes the result of `splitlines`, so
working at line granularity is a faithful embedding.

Python `dict` values flowing through the translators are heterogeneous;
they are embedded with the inductive `YVal` below, and a Python dict is
an association list `List (Str × YVal)` in insertion order (Python dict
equality ignores order; wherever order matters the source sorts the
keys, and the embedding mirrors that sort).

Functions of the missing module `vyatta.keepalived.util` (only its
callers are in the repository) are modelled from the specification; each
such definition carries a doc comment starting with `Modelled from the
spec:`.  Everything else is translated from the Python sources.
-/

/-- Characters of a piece of text, the embedding of a Python `str`. -/
abbrev Str := List Char

/-- Python `c.isspace()` on a single character. -/
def isWsC (c : Char) : Bool := c.isWhitespace

/-- Drop leading whitespace, Python `str.lstrip()`. -/
def trimStart (l : Str) : Str := l.dropWhile isWsC

/-- Drop trailing whitespace, Python `str.rstrip()`. -/
def trimEnd (l : Str) : Str := (l.reverse.dropWhile isWsC).reverse

/-- Python `str.strip()`. -/
def trimS (l : Str) : Str := trimEnd (trimStart l)

/-- Does `pat` occur as a contiguous substring of `l`?  Python `pat in l`. -/
def containsB (l pat : Str) : Bool := decide (pat <:+: l)

/-- The characters after the first occurrence of `pat` in `l`, or `none`
when `pat` does not occur. -/
def afterFirst (pat : Str) : Str → Option Str
  | [] => if pat = [] then some [] else none
  | c :: cs =>
    if pat <+: (c :: cs) then some ((c :: cs).drop pat.length)
    else afterFirst pat cs

/-- Accumulator loop of `splitWsToks`: `cur` is the reversed current
token. -/
def splitWsGo : Str → Str → List Str
  | cur, [] => if cur.isEmpty then [] else [cur.reverse]
  | cur, c :: cs =>
    if isWsC c then
      if cur.isEmpty then splitWsGo [] cs
      else cur.reverse :: splitWsGo [] cs
    else splitWsGo (c :: cur) cs

/-- Python `str.split()` with no argument: maximal runs of
non-whitespace characters, outer whitespace discarded. -/
def splitWsToks (l : Str) : List Str := splitWsGo [] l

/-- Python `sep.split` for a one-character separator: `l.split(sep)`,
empty pieces kept. -/
def splitOnC (sep : Char) (l : Str) : List Str := List.splitOn sep l

/-- Value of a decimal digit character. -/
def digitVal (c : Char) : Nat := c.toNat - 48

/-- Is `c` one of `'0'..'9'`?  (Python `str.isdigit` on one character,
restricted to ASCII as all the daemon formats are.) -/
def isDigitC (c : Char) : Bool := decide (48 ≤ c.toNat ∧ c.toNat ≤ 57)

/-- Python `str.isdigit()`: nonempty and all digits. -/
def isDigitS (l : Str) : Bool := !l.isEmpty && l.all isDigitC

/-- Numeric value of a digit string. -/
def digitsToNat (l : Str) : Nat := l.foldl (fun acc c => acc * 10 + digitVal c) 0

/-- The decimal digit character for `n < 10`. -/
def digitCh (n : Nat) : Char := Char.ofNat (48 + n)

/-- Fuel-indexed digit loop of `natRepr`; any fuel above the digit
count gives the full decimal rendering. -/
def natReprGo : Nat → Nat → Str
  | _, 0 => []
  | n, fuel + 1 =>
    if n < 10 then [digitCh n]
    else natReprGo (n / 10) fuel ++ [digitCh (n % 10)]

/-- Decimal rendering of a natural number, the embedding of Python
`str(n)` / `"{}".format(n)` for a nonnegative int. -/
def natRepr (n : Nat) : Str := natReprGo n (n + 1)

/-- Python `str(v)` for an int. -/
def intRepr (v : Int) : Str :=
  if v < 0 then '-' :: natRepr v.natAbs else natRepr v.natAbs

/-- Python `"{:+d}".format(v)`: an explicit sign in every case. -/
def intReprSigned (v : Int) : Str :=
  if v < 0 then '-' :: natRepr v.natAbs else '+' :: natRepr v.natAbs

/-- Python `int(s)`: optional sign and decimal digits after stripping
surrounding whitespace; anything else raises `ValueError`. -/
def parsePyInt (l : Str) : Option Int :=
  let t := trimS l
  match t with
  | '+' :: ds => if isDigitS ds then some (digitsToNat ds) else none
  | '-' :: ds => if isDigitS ds then some (-(digitsToNat ds : Int)) else none
  | ds => if isDigitS ds then some (digitsToNat ds) else none

/-- Python `str.casefold`/`str.lower` restricted to ASCII. -/
def lowerS (l : Str) : Str := l.map Char.toLower

/-- Python lexicographic string `<` by code point. -/
def strLtB : Str → Str → Bool
  | [], [] => false
  | [], _ :: _ => true
  | _ :: _, [] => false
  | a :: as, b :: bs =>
    if a.toNat < b.toNat then true
    else if b.toNat < a.toNat then false
    else strLtB as bs

/-- `a ≤ b` for the Python lexicographic string order. -/
def strLeB (a b : Str) : Bool := !strLtB b a


/-- Insert `a` before the first element `b` with `le a b` true.  For a
total preorder this is the stable placement, so `insSort` computes the
same list as Python's stable `sorted`. -/
def insertLe {α : Type} (le : α → α → Bool) (a : α) : List α → List α
  | [] => [a]
  | b :: bs => if le a b then a :: b :: bs else b :: insertLe le a bs

/-- Stable insertion sort, the embedding of Python `sorted`. -/
def insSort {α : Type} (le : α → α → Bool) : List α → List α
  | [] => []
  | a :: as => insertLe le a (insSort le as)

/-- Modelled from the spec: `util.get_config_indexes` (§4.1) returns
every line index whose content contains the sentinel substring, in
ascending order. -/
def getConfigIndexes (lines : List Str) (sent : Str) : List Nat :=
  (lines.enum.filter (fun p => containsB p.2 sent)).map (fun p => p.1)

/-- Modelled from the spec: `util.get_config_blocks` (§4.1) slices
`lines` into the ranges `[start_i, start_{i+1})`, the last block running
to the end of the input; each block's lines are whitespace-stripped (the
callers' exact-match `.index` lookups on lines such as
`"virtual_ipaddress \x7b"`, which appear indented in the file, require
the strip). -/
def getConfigBlocks (lines : List Str) : List Nat → List (List Str)
  | [] => []
  | [s] => ((lines.drop s).map trimS) :: []
  | s :: s2 :: rest =>
    (((lines.drop s).take (s2 - s)).map trimS) ::
      getConfigBlocks lines (s2 :: rest)

/-- Python `block.index(x, start)` (first exact match at or after
`start`, absolute index; `none` embeds the `ValueError`). -/
def indexFrom (block : List Str) (x : Str) (start : Nat) : Option Nat :=
  match (block.drop start).findIdx? (fun l => l == x) with
  | none => none
  | some k => some (start + k)

/-- Python `block[a:b]`. -/
def sliceFromTo (block : List Str) (a b : Nat) : List Str :=
  (block.take b).drop a

/-- Result of the field extractor: the Python pairs `(False, "NOTFOUND")`,
`(True, [None])` and `(True, value)`. -/
inductive FCV where
  | notFound
  | presence
  | scalar (v : Str)
deriving DecidableEq

/-- Modelled from the spec: `util.find_config_value` (§4.2).  Scans the
block for the first line containing `sent` as a substring; the trailing
content after the first occurrence of the sentinel, stripped, is the
scalar value; a matching line with nothing after the sentinel is a
presence-only match (the Python returns `(True, [None])`); no matching
line gives `(False, "NOTFOUND")`. -/
def findConfigValue (block : List Str) (sent : Str) : FCV :=
  match block with
  | [] => .notFound
  | ln :: rest =>
    match afterFirst sent ln with
    | some r => if trimS r = [] then .presence else .scalar (trimS r)
    | none => findConfigValue rest sent

/-- Embedding of the heterogeneous Python values carried by the
translators' dictionaries.  `pres` is the JSON-7951 presence value
`[None]`, `null` the Python `None`. -/
inductive YVal where
  | s (v : Str)
  | n (v : Nat)
  | b (v : Bool)
  | null
  | pres
  | arr (items : List YVal)
  | d (fields : List (Str × YVal))

instance : Inhabited YVal := ⟨YVal.null⟩

/-- A Python dict as an association list in insertion order. -/
abbrev YDict := List (Str × YVal)

/-- Python `d[k]` / `d.get(k)`. -/
def dictGet (d : YDict) (k : Str) : Option YVal :=
  match d with
  | [] => none
  | (k2, v) :: rest => if k2 = k then some v else dictGet rest k

/-- Python `d[k] = v`: overwrite in place when the key exists (keeping
its position), else append. -/
def dictSet (d : YDict) (k : Str) (v : YVal) : YDict :=
  match d with
  | [] => [(k, v)]
  | (k2, v2) :: rest =>
    if k2 = k then (k2, v) :: rest else (k2, v2) :: dictSet rest k v

/-- Python `k in d`. -/
def dictHas (d : YDict) (k : Str) : Bool := (dictGet d k).isSome

/-- Python `del d[k]`, tolerant of an absent key where the source guards
with `in`. -/
def dictDel (d : YDict) (k : Str) : YDict := d.filter (fun p => !(p.1 == k))

/-- Python `{key: d[key] for key in sorted(d.keys())}`. -/
def sortKeys (d : YDict) : YDict := insSort (fun a b => strLeB a.1 b.1) d

/-- Modelled from the spec: `util.what_ip_version` — 6 for an IPv6
literal, 4 for IPv4 (a colon occurs exactly in the IPv6 forms). -/
def whatIpVersion (addr : Str) : Nat :=
  if containsB addr (":".data) then 6 else 4

/-- Value of a hexadecimal digit character. -/
def hexDigitVal (c : Char) : Nat :=
  if 48 ≤ c.toNat ∧ c.toNat ≤ 57 then c.toNat - 48
  else if 97 ≤ c.toNat ∧ c.toNat ≤ 102 then c.toNat - 87
  else if 65 ≤ c.toNat ∧ c.toNat ≤ 70 then c.toNat - 55
  else 0

/-- Numeric value of a hexadecimal group. -/
def hexToNat (l : Str) : Nat := l.foldl (fun a c => a * 16 + hexDigitVal c) 0

/-- Expand the groups of a (possibly `::`-abbreviated) IPv6 address into
the full sequence of eight 16-bit values. -/
def expandV6Groups (gs : List Str) : List Nat :=
  match gs.findIdx? (fun g => g.isEmpty) with
  | none => gs.map hexToNat
  | some i =>
    let ne := gs.filter (fun g => !g.isEmpty)
    (gs.take i).map hexToNat ++ List.replicate (8 - ne.length) 0 ++
      ((gs.drop i).filter (fun g => !g.isEmpty)).map hexToNat

/-- The 128-bit numeric value of an IPv6 address given in CIDR
notation (the prefix length is not part of the key). -/
def ipv6Key (addr : Str) : Nat :=
  let a := (splitOnC '/' addr).headD []
  (expandV6Groups (splitOnC ':' a)).foldl (fun acc g => acc * 65536 + g) 0

/-- Modelled from the spec: `util.vrrp_ipv6_sort` orders IPv6 virtual
addresses by the numeric value of the full expanded address, not by
string comparison. -/
def vrrpIpv6Sort (vas : List Str) : List Str :=
  insSort (fun a b => decide (ipv6Key a ≤ ipv6Key b)) vas

/-- A tracked-object weight in the YANG config: direction and magnitude. -/
structure TrackWeightCfg where
  ty : Str
  value : Nat
deriving DecidableEq

/-- One tracked interface in the YANG config. -/
structure TrackIfCfg where
  name : Str
  weight : Option TrackWeightCfg
deriving DecidableEq

/-- One path-monitor policy in the YANG config. -/
structure PmonPolicyCfg where
  name : Str
  weight : Option TrackWeightCfg
deriving DecidableEq

/-- One path monitor (with its policies) in the YANG config. -/
structure PmonMonitorCfg where
  name : Str
  policy : List PmonPolicyCfg
deriving DecidableEq

/-- The `track` container of one VRRP group's YANG config. -/
structure TrackGroupCfg where
  interface : Option (List TrackIfCfg)
  pathmon : Option (List PmonMonitorCfg)
deriving DecidableEq

/-- The `authentication` container of one VRRP group's YANG config. -/
structure AuthCfg where
  password : Str
  ty : Str
deriving DecidableEq

/-- The `notify` container: which of the two notify targets are present. -/
structure NotifyCfg where
  ipsec : Bool
  bgp : Bool
deriving DecidableEq

/-- One VRRP group of the YANG configuration tree, restricted to the
keys the write-direction translator (`vrrp.py`) reads.  An `Option`
field embeds presence of the corresponding dictionary key. -/
structure GroupCfg where
  tagnode : Nat
  version : Nat
  accept : Bool
  preempt : Bool
  virtualAddress : List Str
  priority : Option Nat := none
  advertiseInterval : Option Nat := none
  fastAdvertiseInterval : Option Nat := none
  preemptDelay : Option Nat := none
  rfcCompat : Bool := false
  helloSource : Option Str := none
  auth : Option AuthCfg := none
  track : Option TrackGroupCfg := none
  trackInterface : Option (List TrackIfCfg) := none
  notify : Option NotifyCfg := none
  syncGroup : Option Str := none
  disable : Bool := false
deriving DecidableEq

/-- Lines 37-49 of `vrrp.py`: the `adv` value stored into the group
config.  `int(float(f) / 1000)` is truncated division by 1000, exact for
every value in the YANG millisecond range. -/
def computeAdv (g : GroupCfg) : Nat :=
  match g.advertiseInterval, g.fastAdvertiseInterval with
  | none, none => 1
  | some a, _ => a
  | none, some f => f / 1000

/-- Lines 60-67 of `vrrp.py`: the order in which the virtual addresses
are emitted — dispatch on the first address's IP family, `sorted` for
IPv4, `util.vrrp_ipv6_sort` otherwise. -/
def vipsOrdered (vas : List Str) : List Str :=
  match vas with
  | [] => []
  | a0 :: _ =>
    if whatIpVersion ((splitOnC '/' a0).headD []) = 4 then
      insSort strLeB vas
    else vrrpIpv6Sort vas

/-- Lines 139-152 of `vrrp.py`: fold the legacy `track-interface` list
into the `track` container.  The Python `list.append(*xs)` star-unpack
appends one element when `xs` has exactly one entry and raises
`TypeError` for any other length. -/
def mergeTrackInterface (g : GroupCfg) : Except Str (Option TrackGroupCfg) :=
  match g.trackInterface with
  | none => .ok g.track
  | some tis =>
    match g.track with
    | some t =>
      match t.interface with
      | some l =>
        match tis with
        | [ti] => .ok (some { t with interface := some (l ++ [ti]) })
        | _ => .error ("TypeError: append() takes exactly one argument".data)
      | none => .ok (some { t with interface := some tis })
    | none => .ok (some { interface := some tis, pathmon := none })

/-- One line of the emitted `track`/`interface` block (from
`VrrpGroup._generate_track_interfaces`). -/
def trackIfLine (ti : TrackIfCfg) : Str :=
  "            ".data ++ ti.name ++
    (match ti.weight with
     | none => []
     | some w =>
       let mult : Int := if w.ty = ("decrement".data) then -1 else 1
       "   weight  ".data ++ intReprSigned (mult * (w.value : Int)))

/-- One line of the emitted `track`/`pathmon` block (from
`VrrpGroup._generate_track_pathmon`). -/
def pmonPolicyLine (mname : Str) (p : PmonPolicyCfg) : Str :=
  "            monitor ".data ++ mname ++ "    policy ".data ++ p.name ++
    (match p.weight with
     | none => []
     | some w =>
       let mult : Int := if w.ty = ("decrement".data) then -1 else 1
       "      weight  ".data ++ intReprSigned (mult * (w.value : Int)))

/-- The lines of the emitted `track` block (from
`VrrpGroup._generate_track_string` and its two helpers). -/
def trackBlockLines (t : TrackGroupCfg) : List Str :=
  [ "    track \x7b".data ] ++
  (match t.interface with
   | none => []
   | some l =>
     [ "        interface \x7b".data ] ++ l.map trackIfLine ++
       [ "        \x7d".data ]) ++
  (match t.pathmon with
   | none => []
   | some ms =>
     [ "        pathmon \x7b".data ] ++
       (ms.map (fun m => m.policy.map (pmonPolicyLine m.name))).flatten ++
       [ "        \x7d".data ]) ++
  [ "    \x7d".data ]

/-- The lines of the emitted `notify` block (lines 157-167 of
`vrrp.py`); the ipsec script is emitted before the bgp one. -/
def notifyBlockLines (nf : NotifyCfg) : List Str :=
  [ "    notify \x7b".data ] ++
  (if nf.ipsec then [ "        /opt/vyatta/sbin/vyatta-ipsec-notify.sh".data ] else []) ++
  (if nf.bgp then [ "        /opt/vyatta/sbin/notify-bgp".data ] else []) ++
  [ "    \x7d".data ]

/-- The instance name generated at lines 170-172 of `vrrp.py`. -/
def instanceNameOf (name : Str) (tagnode : Nat) : Str :=
  "vyatta-".data ++ name ++ "-".data ++ natRepr tagnode

/-- Translation of `VrrpGroup.__init__` together with `__repr__`: the
lines of configuration text emitted for one VRRP group.  `name` is the
interface name, `delay` the interface's start-delay, `rfcNum` the
per-pass RFC interface counter (`-1` when unused, as in the Python
default).  The leading newline of the Python template is the separator
from the preceding block, so it contributes no line here. -/
def mkVrrpGroupLines (name : Str) (delay : Nat) (g : GroupCfg) (rfcNum : Int) :
    Except Str (List Str) :=
  match g.virtualAddress with
  | [] => .error ("IndexError: virtual-address is empty".data)
  | a0 :: _ =>
    match mergeTrackInterface g with
    | .error e => .error e
    | .ok trackC =>
      let ipVer := whatIpVersion ((splitOnC '/' a0).headD [])
      let vips := vipsOrdered g.virtualAddress
      let prio := match g.priority with | none => 100 | some p => p
      let adv := computeAdv g
      let vmac := name.take 3 ++ "vrrp".data ++ intRepr rfcNum
      .ok (
        [ "vrrp_instance ".data ++ instanceNameOf name g.tagnode ++ " \x7b".data,
          "    state BACKUP".data,
          "    interface ".data ++ name,
          "    virtual_router_id ".data ++ natRepr g.tagnode,
          "    version ".data ++ natRepr g.version,
          "    start_delay ".data ++ natRepr delay,
          "    priority ".data ++ natRepr prio,
          "    advert_int ".data ++ natRepr adv,
          "    virtual_ipaddress \x7b".data ] ++
        vips.map (fun v => "        ".data ++ v) ++
        [ "    \x7d".data ] ++
        (if ipVer = 6 then [ "    native_ipv6".data ] else []) ++
        (if g.accept then [ "    accept".data ] else []) ++
        (if !g.preempt then [ "    nopreempt".data ] else []) ++
        (if g.rfcCompat then
          (if 15 < vmac.length then []
           else [ "    use_vmac ".data ++ vmac, "    vmac_xmit_base".data ])
         else []) ++
        (match g.preemptDelay with
         | none => []
         | some pd => [ "    preempt_delay ".data ++ natRepr pd ]) ++
        (match g.helloSource with
         | none => []
         | some h => [ "    mcast_src_ip ".data ++ h ]) ++
        (match g.auth with
         | none => []
         | some au =>
           [ "    authentication \x7b".data,
             "        auth_type ".data ++
               (if au.ty = ("plaintext-password".data) then ("PASS".data)
                else ("AH".data)),
             "        auth_pass ".data ++ au.password,
             "    \x7d".data ]) ++
        (match trackC with
         | none => []
         | some t => trackBlockLines t) ++
        (match g.notify with
         | none => []
         | some nf => notifyBlockLines nf) ++
        [ "\x7d".data ])

/-- The guessed interface type (`util.intf_enum`). -/
inductive IntfType where
  | dataplane
  | bonding
  | switch
deriving DecidableEq

/-- Does `p` start `l`? -/
def startsWithS (l p : Str) : Bool := decide (p <+: l)

/-- Modelled from the spec: `util.intf_name_to_type` guesses the
interface-type YANG tag and enum from the physical interface's name
pattern (dataplane names start `dp`, bonding `bond`, switch `sw`);
anything else is a `ValueError`.  The dataplane literal appears in the
source docstrings; the others live in the missing `util` module and
nothing here depends on their exact spelling. -/
def intfNameToType (name : Str) : Except Str (Str × IntfType) :=
  if startsWithS name ("dp".data) then
    .ok (("vyatta-interfaces-dataplane-v1:dataplane".data), .dataplane)
  else if startsWithS name ("bond".data) then
    .ok (("vyatta-interfaces-bonding-v1:bonding".data), .bonding)
  else if startsWithS name ("sw".data) then
    .ok (("vyatta-interfaces-switch-v1:switch".data), .switch)
  else .error ("ValueError: unknown interface type".data)

/-- `util.INTERFACE_YANG_NAME` (literal taken from the source
docstrings). -/
def interfaceYangName : Str := "vyatta-interfaces-v1:interfaces".data

/-- `util.VRRP_YANG_NAME` (literal taken from the source docstrings). -/
def vrrpYangName : Str := "vyatta-vrrp-v1:vrrp".data

/-- Modelled from the spec: the type-specific YANG augment key under
which parsed path-monitor tracking is stored
(`util.PATHMON_DATAPLANE_YANG_NAME` and friends).  The exact literals
live in the missing `util` module; nothing below depends on them beyond
their distinctness per interface type. -/
def pathmonYangName (it : IntfType) : Str :=
  match it with
  | .dataplane => "vyatta-vrrp-path-monitor-dataplane-v1:path-monitor".data
  | .bonding => "vyatta-vrrp-path-monitor-bonding-v1:path-monitor".data
  | .switch => "vyatta-vrrp-path-monitor-switch-v1:path-monitor".data

/-- Modelled from the spec: the type-specific YANG augment key under
which parsed route tracking is stored (`util.ROUTE_DATAPLANE_YANG_NAME`
and friends, exact literals in the missing `util` module). -/
def routeYangName (it : IntfType) : Str :=
  match it with
  | .dataplane => "vyatta-vrrp-route-to-dataplane-v1:route-to".data
  | .bonding => "vyatta-vrrp-route-to-bonding-v1:route-to".data
  | .switch => "vyatta-vrrp-route-to-switch-v1:route-to".data

/-- The fixed YANG-key/config-key table of
`KeepalivedConfig._convert_keepalived_config_to_yang` (lines 438-449),
in the Python dict's insertion order. -/
def configKeyTable : List (Str × Str) :=
  [ (("accept".data), ("accept".data)),
    (("preempt".data), ("preempt".data)),
    (("priority".data), ("priority".data)),
    (("tagnode".data), ("virtual_router_id".data)),
    (("version".data), ("version".data)),
    (("hello-source-address".data), ("mcast_src_ip".data)),
    (("rfc-compatibility".data), ("vmac_xmit_base".data)),
    (("advertise-interval".data), ("advert_int".data)),
    (("preempt-delay".data), ("preempt_delay".data)),
    (("sync-group".data), ("sync_group".data)) ]

/-- Lines 452-474 of `config_file.py`: the value stored for one
single-line key — defaults for absent `accept`/`preempt`, the
`"NOTFOUND"` marker for the other absent keys, the raw presence value
for presence-only matches, and digit coercion for scalars. -/
def configFieldVal (block : List Str) (key term : Str) : YVal :=
  match findConfigValue block term with
  | .notFound =>
    if key = ("accept".data) then .b false
    else if key = ("preempt".data) then .b true
    else .s ("NOTFOUND".data)
  | .presence => .pres
  | .scalar v => if isDigitS v then .n (digitsToNat v) else .s v

/-- Lines 524-551 of `config_file.py`
(`KeepalivedConfig._convert_authentication_config`). -/
def convertAuthenticationConfig (block : List Str) (d : YDict) : YDict :=
  match indexFrom block ("authentication \x7b".data) 0 with
  | none => d
  | some _ =>
    match findConfigValue block ("auth_type".data),
          findConfigValue block ("auth_pass".data) with
    | .notFound, _ => d
    | _, .notFound => d
    | t, p =>
      let t2 : FCV :=
        match t with
        | .scalar v =>
          if v = ("PASS".data) then .scalar ("plaintext-password".data)
          else .scalar v
        | other => other
      match t2 with
      | .scalar tv =>
        let pv : YVal := match p with | .scalar w => .s w | _ => .pres
        dictSet d ("authentication".data)
          (.d [ (("password".data), pv), (("type".data), .s (lowerS tv)) ])
      | _ => d

/-- Lines 553-576 of `config_file.py`
(`KeepalivedConfig._convert_notify_proto_config`). -/
def convertNotifyProtoConfig (block : List Str) (d : YDict) : Except Str YDict :=
  match indexFrom block ("notify \x7b".data) 0 with
  | none => .ok d
  | some cs =>
    match indexFrom block ("\x7d".data) cs with
    | none => .error ("ValueError: end of notify block not in list".data)
    | some ce =>
      let nc := sliceFromTo block (cs + 1) ce
      let sub : YDict :=
        (if nc.contains ("/opt/vyatta/sbin/notify-bgp".data) then
          [ (("bgp".data), YVal.pres) ] else []) ++
        (if nc.contains ("/opt/vyatta/sbin/vyatta-ipsec-notify.sh".data) then
          [ (("ipsec".data), YVal.pres) ] else [])
      .ok (dictSet d ("notify".data) (.d sub))

/-- One line of a parsed `track`/`interface` block (the loop body of
`KeepalivedConfig._convert_interface_tracking_config`, lines 625-640). -/
def trackIfEntryOfLine (line : Str) : Except Str YDict :=
  if !containsB line ("weight".data) then .ok [ (("name".data), .s line) ]
  else
    let toks := splitWsToks line
    match toks.getLast? with
    | none => .error ("IndexError: tokens".data)
    | some lastTok =>
      match parsePyInt lastTok with
      | none => .error ("ValueError: invalid literal for int".data)
      | some w =>
        let wty := if w < 0 then ("decrement".data) else ("increment".data)
        .ok [ (("name".data), .s (toks.headD [])),
              (("weight".data),
               .d [ (("type".data), .s wty), (("value".data), .n w.natAbs) ]) ]

/-- Lines 605-641 of `config_file.py`
(`KeepalivedConfig._convert_interface_tracking_config`): `none` when the
`interface \x7b` marker is absent after `start`. -/
def convertInterfaceTracking (block : List Str) (start : Nat) :
    Except Str (Option (List YDict)) :=
  match indexFrom block ("interface \x7b".data) start with
  | none => .ok none
  | some cs =>
    match indexFrom block ("\x7d".data) cs with
    | none => .error ("ValueError: end of interface block not in list".data)
    | some ce => do
      let entries ← (sliceFromTo block (cs + 1) ce).mapM trackIfEntryOfLine
      return some entries

/-- Append a policy into the monitor bucket named `mn`, creating the
bucket at the end when it is new (the find-or-append of
`_convert_pathmon_tracking_config`, lines 665-691). -/
def appendPolicy (ms : List (Str × List YDict)) (mn : Str) (pd : YDict) :
    List (Str × List YDict) :=
  match ms with
  | [] => [ (mn, [pd]) ]
  | (n, ps) :: rest =>
    if n = mn then (n, ps ++ [pd]) :: rest
    else (n, ps) :: appendPolicy rest mn pd

/-- One line of a parsed `track`/`pathmon` block: monitor name is token
1, policy name token 3, optional trailing weight. -/
def pmonLineStep (ms : List (Str × List YDict)) (line : Str) :
    Except Str (List (Str × List YDict)) := do
  let toks := splitWsToks line
  match toks.get? 1, toks.get? 3 with
  | some mn, some pn =>
    if containsB line ("weight".data) then
      match toks.getLast? with
      | none => .error ("IndexError: tokens".data)
      | some lastTok =>
        match parsePyInt lastTok with
        | none => .error ("ValueError: invalid literal for int".data)
        | some w =>
          let wty := if w < 0 then ("decrement".data) else ("increment".data)
          return appendPolicy ms mn
            [ (("name".data), .s pn),
              (("weight".data),
               .d [ (("type".data), .s wty), (("value".data), .n w.natAbs) ]) ]
    else return appendPolicy ms mn [ (("name".data), .s pn) ]
  | _, _ => .error ("IndexError: tokens".data)

/-- Lines 643-700 of `config_file.py`
(`KeepalivedConfig._convert_pathmon_tracking_config`), as the list of
monitor buckets in first-seen order. -/
def convertPathmonTracking (block : List Str) (start : Nat) :
    Except Str (Option (List (Str × List YDict))) :=
  match indexFrom block ("pathmon \x7b".data) start with
  | none => .ok none
  | some cs =>
    match indexFrom block ("\x7d".data) cs with
    | none => .error ("ValueError: end of pathmon block not in list".data)
    | some ce => do
      let ms ← (sliceFromTo block (cs + 1) ce).foldlM pmonLineStep []
      return some ms

/-- One line of a parsed `track`/`route_to` block (the loop body of
`_convert_route_to_tracking_config`, lines 724-740); the key is
`route`, not `name`. -/
def trackRouteEntryOfLine (line : Str) : Except Str YDict :=
  if !containsB line ("weight".data) then .ok [ (("route".data), .s line) ]
  else
    let toks := splitWsToks line
    match toks.getLast? with
    | none => .error ("IndexError: tokens".data)
    | some lastTok =>
      match parsePyInt lastTok with
      | none => .error ("ValueError: invalid literal for int".data)
      | some w =>
        let wty := if w < 0 then ("decrement".data) else ("increment".data)
        .ok [ (("route".data), .s (toks.headD [])),
              (("weight".data),
               .d [ (("type".data), .s wty), (("value".data), .n w.natAbs) ]) ]

/-- Lines 702-749 of `config_file.py`
(`KeepalivedConfig._convert_route_to_tracking_config`). -/
def convertRouteTracking (block : List Str) (start : Nat) :
    Except Str (Option (List YDict)) :=
  match indexFrom block ("route_to \x7b".data) start with
  | none => .ok none
  | some cs =>
    match indexFrom block ("\x7d".data) cs with
    | none => .error ("ValueError: end of route_to block not in list".data)
    | some ce => do
      let entries ← (sliceFromTo block (cs + 1) ce).mapM trackRouteEntryOfLine
      return some entries

/-- Lines 578-603 of `config_file.py`
(`KeepalivedConfig._convert_tracking_config`): a `track` key (possibly
with an empty container) is added exactly when the `track \x7b` marker is
present; the interface name decides the pathmon/route augment keys. -/
def convertTrackingConfig (block : List Str) (d : YDict) (intfName : Str) :
    Except Str YDict :=
  match indexFrom block ("track \x7b".data) 0 with
  | none => .ok d
  | some cs => do
    let ifl ← convertInterfaceTracking block cs
    let ie ← intfNameToType intfName
    let pms ← convertPathmonTracking block cs
    let rts ← convertRouteTracking block cs
    let sub : YDict :=
      (match ifl with
       | none => []
       | some es => [ (("interface".data), YVal.arr (es.map YVal.d)) ]) ++
      (match pms with
       | none => []
       | some ms =>
         [ (pathmonYangName ie.2,
            YVal.d [ (("monitor".data),
                      YVal.arr (ms.map (fun m =>
                        YVal.d [ (("name".data), YVal.s m.1),
                                 (("policy".data),
                                  YVal.arr (m.2.map YVal.d)) ]))) ]) ]) ++
      (match rts with
       | none => []
       | some es => [ (routeYangName ie.2, YVal.arr (es.map YVal.d)) ])
    return dictSet d ("track".data) (.d sub)

/-- `int(float(v) * 1000)` for the value parsed from `advert_int`:
exact multiplication for ints, truncating decimal-fraction arithmetic
for numeric strings, `ValueError`/`TypeError` otherwise. -/
def advertToFast : YVal → Except Str Nat
  | .n a => .ok (a * 1000)
  | .s v =>
    (match splitOnC '.' v with
     | [ip] =>
       if isDigitS ip then .ok (digitsToNat ip * 1000)
       else .error ("ValueError: could not convert string to float".data)
     | [ip, fp] =>
       if isDigitS ip ∧ isDigitS fp then
         .ok (digitsToNat ip * 1000 + digitsToNat fp * 1000 / 10 ^ fp.length)
       else .error ("ValueError: could not convert string to float".data)
     | _ => .error ("ValueError: could not convert string to float".data))
  | _ => .error ("TypeError: float() argument".data)

/-- Is this value the Python string `"NOTFOUND"`? (the filter at line
517-518 of `config_file.py` compares every value against it). -/
def isNotFoundVal : YVal → Bool
  | .s v => v == ("NOTFOUND".data)
  | _ => false

/-- The single-line-key loop of
`_convert_keepalived_config_to_yang` (lines 438-474 of
`config_file.py`): every table key mapped to its parsed value. -/
def configDictInit (block : List Str) : YDict :=
  configKeyTable.map (fun p => (p.1, configFieldVal block p.1 p.2))

/-- Lines 477-481 of `config_file.py`: drop `advertise-interval` when it
parsed as the integer default 1. -/
def elideAdvertDefault (d : YDict) : YDict :=
  match dictGet d ("advertise-interval".data) with
  | some (.n 1) => dictDel d ("advertise-interval".data)
  | _ => d

/-- Lines 482-484 of `config_file.py`: drop `priority` when it parsed as
the integer default 100. -/
def elidePriorityDefault (d : YDict) : YDict :=
  match dictGet d ("priority".data) with
  | some (.n 100) => dictDel d ("priority".data)
  | _ => d

/-- Lines 491-501 of `config_file.py`: the version-specific step —
authentication parsing when the parsed version equals the integer 2,
otherwise the advert-interval to fast-advertise-interval conversion. -/
def versionBranch (block : List Str) (d : YDict) : Except Str YDict :=
  match dictGet d ("version".data) with
  | some (.n 2) => .ok (convertAuthenticationConfig block d)
  | _ =>
    match dictGet d ("advertise-interval".data) with
    | none => .ok d
    | some v => do
      let f ← advertToFast v
      return dictDel
        (dictSet d ("fast-advertise-interval".data) (.n f))
        ("advertise-interval".data)

/-- Translation of
`KeepalivedConfig._convert_keepalived_config_to_yang` (lines 418-522 of
`config_file.py`): one VRRP-instance block of daemon configuration text
to its YANG dictionary, with the top-level keys sorted. -/
def convertKeepalivedConfigToYang (block : List Str) : Except Str YDict :=
  if block = [] then .ok []
  else
    let d2 := elidePriorityDefault (elideAdvertDefault (configDictInit block))
    match indexFrom block ("virtual_ipaddress \x7b".data) 0 with
    | none => .error ("ValueError: virtual_ipaddress start not in list".data)
    | some vs =>
      match indexFrom block ("\x7d".data) vs with
      | none => .error ("ValueError: virtual_ipaddress end not in list".data)
      | some ve =>
        let d3 := dictSet d2 ("virtual-address".data)
          (.arr ((sliceFromTo block (vs + 1) ve).map YVal.s))
        match versionBranch block d3 with
        | .error e => .error e
        | .ok d4 =>
          match findConfigValue block ("interface".data) with
          | .scalar intfName => do
            let d5 ← convertTrackingConfig block d4 intfName
            let d6 ← convertNotifyProtoConfig block d5
            return sortKeys (d6.filter (fun p => !isNotFoundVal p.2))
          | _ => .ok []

/-- The `vrrp` container of one interface of the write-side tree. -/
structure VrrpIntfCfg where
  startDelay : Nat
  groups : List GroupCfg
deriving DecidableEq

/-- A virtual sub-interface nested under its parent's `vif` key. -/
structure SubIntfCfg where
  tagnode : Str
  vrrp : Option VrrpIntfCfg
deriving DecidableEq

/-- One interface entry of the write-side Interface Tree; `vrrp = none`
embeds an absent `vyatta-vrrp-v1:vrrp` key and `vif = none` an absent
`vif` key. -/
structure IntfCfg where
  tagnode : Str
  vrrp : Option VrrpIntfCfg
  vif : Option (List SubIntfCfg) := none
deriving DecidableEq

/-- The Interface Tree: interface-type buckets in dict insertion order. -/
abbrev InterfaceTree := List (Str × List IntfCfg)

/-- One constructed `VrrpGroup` object: its instance name and the lines
its `__repr__` contributes to the config file. -/
structure GroupOut where
  instName : Str
  lines : List Str
deriving DecidableEq

/-- The state `KeepalivedConfig.update` accumulates: the RFC interface
counter, the `vrrp_instances` list, the keys of `_vrrp_connections`
(with the address family passed to each connection), and the
`_sync_instances` map in first-seen order. -/
structure UpdateResult where
  rfcCount : Nat
  instances : List GroupOut
  connections : List (Str × Nat)
  syncs : List (Str × List Str)
deriving DecidableEq

/-- Append `member` to the sync bucket `sg`, creating it at the end when
new (lines 265-270 of `config_file.py`). -/
def syncAppend (syncs : List (Str × List Str)) (sg member : Str) :
    List (Str × List Str) :=
  match syncs with
  | [] => [ (sg, [member]) ]
  | (n, ms) :: rest =>
    if n = sg then (n, ms ++ [member]) :: rest
    else (n, ms) :: syncAppend rest sg member

/-- The body of the `for group in vrrp_conf["vrrp-group"]` loop of
`KeepalivedConfig.update` (lines 237-270): the first virtual address is
read before the `disable` check, a disabled group is skipped, an
RFC-compatible group bumps the counter passed to `VrrpGroup`. -/
def updateGroupStep (intfName : Str) (delay : Nat) (st : UpdateResult)
    (g : GroupCfg) : Except Str UpdateResult :=
  match g.virtualAddress with
  | [] => .error ("IndexError: virtual-address is empty".data)
  | a0 :: _ =>
    let firstVip := (splitOnC '/' a0).headD []
    if g.disable then .ok st
    else
      let rfcCount := if g.rfcCompat then st.rfcCount + 1 else st.rfcCount
      let rfcArg : Int := if g.rfcCompat then rfcCount else -1
      match mkVrrpGroupLines intfName delay g rfcArg with
      | .error e => .error e
      | .ok ls =>
        let afType := whatIpVersion firstVip
        let nm := instanceNameOf intfName g.tagnode
        let st2 : UpdateResult :=
          { st with
            rfcCount := rfcCount,
            instances := st.instances ++ [⟨nm, ls⟩],
            connections := st.connections ++ [(nm, afType)] }
        match g.syncGroup with
        | none => .ok st2
        | some sg => .ok { st2 with syncs := syncAppend st2.syncs sg nm }

/-- One interface of a bucket in `KeepalivedConfig.update`: a present
`vif` key is the structural `ValueError`, an absent `vrrp` container the
`KeyError` of `intf[util.VRRP_YANG_NAME]`, and an empty `vrrp-group`
list breaks out of the bucket (second component `false`). -/
def updateIntfStep (st : UpdateResult) (intf : IntfCfg) :
    Except Str (UpdateResult × Bool) :=
  if intf.vif.isSome then
    .error ("ValueError: VIF interfaces should not be present under another interface".data)
  else
    match intf.vrrp with
    | none => .error ("KeyError: vyatta-vrrp-v1:vrrp".data)
    | some vc =>
      if vc.groups = [] then .ok (st, false)
      else do
        let st2 ← vc.groups.foldlM (updateGroupStep intf.tagnode vc.startDelay) st
        return (st2, true)

/-- The `for intf in intf_types[intf_type]` loop with its `break`. -/
def updateBucket (st : UpdateResult) : List IntfCfg → Except Str UpdateResult
  | [] => .ok st
  | i :: rest => do
    let (st2, cont) ← updateIntfStep st i
    if cont then updateBucket st2 rest else return st2

/-- The freshly reset state at the top of `KeepalivedConfig.update`. -/
def emptyUpdateResult : UpdateResult := ⟨0, [], [], []⟩

/-- Translation of `KeepalivedConfig.update` (lines 198-270 of
`config_file.py`); the argument is `none` when the interfaces key is
absent from the incoming config. -/
def updateConfig (cfg : Option InterfaceTree) : Except Str UpdateResult :=
  match cfg with
  | none => .ok emptyUpdateResult
  | some tree =>
    tree.foldlM (fun st bucket => updateBucket st bucket.2) emptyUpdateResult

/-- The lines of the static preamble `KeepalivedConfig.config_string`
(lines 158-170 of `config_file.py`); the file text is their
newline-intercalation. -/
def preambleLines : List Str :=
  [ ("".data),
    ("#".data),
    ("# Autogenerated by /opt/vyatta/sbin/vyatta-vrrp".data),
    ("#".data),
    ("".data),
    ("".data),
    ("global_defs \x7b".data),
    ("        enable_traps".data),
    ("        enable_dbus".data),
    ("        snmp_socket tcp:localhost:705:1".data),
    ("        enable_snmp_keepalived".data),
    ("        enable_snmp_rfc".data),
    ("\x7d".data) ]

/-- The lines one sync group contributes in
`KeepalivedConfig.write_config` (lines 282-293); the trailing empty line
embeds the block's final newline. -/
def syncBlockLines (sg : Str × List Str) : List Str :=
  [ "vrrp_sync_group ".data ++ sg.1 ++ " \x7b".data,
    ("    group \x7b".data) ] ++
  sg.2.map (fun i => "        ".data ++ i) ++
  [ ("    \x7d".data), ("\x7d".data), ("".data) ]

/-- Translation of `KeepalivedConfig.write_config` (lines 272-298):
the full config-file text as lines — preamble, then the sync-group
blocks, then every group's block. -/
def writeConfigLines (st : UpdateResult) : List Str :=
  preambleLines ++ (st.syncs.map syncBlockLines).flatten ++
    (st.instances.map (fun i => i.lines)).flatten

/-- `update` followed by `write_config`: the text written for a tree. -/
def serializeTree (cfg : Option InterfaceTree) : Except Str (List Str) := do
  let st ← updateConfig cfg
  return writeConfigLines st

/-- A fresh interface entry of the read-side YANG representation. -/
def newIntfEntry (name : Str) : YDict :=
  [ (("tagnode".data), .s name),
    (vrrpYangName,
     .d [ (("start-delay".data), .n 0), (("vrrp-group".data), .arr []) ]) ]

/-- Python `int()` applied to a value of the read-side tree (used for
the start-delay comparison). -/
def pyIntOfYVal : YVal → Option Int
  | .n k => some (k : Int)
  | .b b => some (if b then 1 else 0)
  | .s v => parsePyInt v
  | _ => none

/-- Lines 388-397 of `config_file.py`: keep the larger start-delay.
The parsed delay is a string while a freshly created entry holds the int
0, so the comparison is `!=` on differently-typed values followed by
`int()` on both. -/
def updatedDelay (cur : YVal) (delayNew : Str) : Except Str YVal :=
  let equal : Bool := match cur with | .s v => v == delayNew | _ => false
  if equal then .ok cur
  else
    match pyIntOfYVal cur, parsePyInt delayNew with
    | some c, some n => .ok (if c < n then .s delayNew else cur)
    | _, _ => .error ("ValueError: invalid literal for int".data)

/-- Append a parsed group into an interface entry's `vrrp-group` list
and refresh its start-delay. -/
def insertGroupEntry (entry : YDict) (delayNew : Str) (gd : YDict) :
    Except Str YDict :=
  match dictGet entry vrrpYangName with
  | some (.d vd) =>
    match dictGet vd ("start-delay".data), dictGet vd ("vrrp-group".data) with
    | some cur, some (.arr gs) => do
      let d2 ← updatedDelay cur delayNew
      let vd2 := dictSet vd ("start-delay".data) d2
      let vd3 := dictSet vd2 ("vrrp-group".data) (.arr (gs ++ [.d gd]))
      return dictSet entry vrrpYangName (.d vd3)
    | _, _ => .error ("KeyError: start-delay".data)
  | _ => .error ("KeyError: vyatta-vrrp-v1:vrrp".data)

/-- The tagnode of a read-side interface entry. -/
def intfEntryTag (v : YVal) : Option Str :=
  match v with
  | .d fs =>
    match dictGet fs ("tagnode".data) with
    | some (.s t) => some t
    | _ => none
  | _ => none

/-- Find the entry keyed `name` in a read-side interface list and update
it, appending a fresh entry first when it is missing. -/
def updateEntryIn (lst : List YVal) (name : Str)
    (upd : YDict → Except Str YDict) : Except Str (List YVal) :=
  match lst with
  | [] => do
    let u ← upd (newIntfEntry name)
    return [YVal.d u]
  | e :: rest =>
    if intfEntryTag e = some name then
      match e with
      | .d fs => do
        let u ← upd fs
        return YVal.d u :: rest
      | _ => .error ("TypeError: interface entry".data)
    else do
      let rest2 ← updateEntryIn rest name upd
      return e :: rest2

/-- Modelled from the spec: `util.find_interface_in_yang_repr` locates
(creating as needed) the interface entry — nested under the physical
parent's `vif` list when a vif number is given — and the caller appends
the parsed group there, keeping the largest start-delay (§4.4 read
direction).  A fresh entry holds `start-delay 0` and an empty
`vrrp-group` list. -/
def insertIntoIntfList (lst : List YVal) (name vifNum : Str)
    (delayNew : Str) (gd : YDict) : Except Str (List YVal) :=
  if vifNum = [] then
    updateEntryIn lst name (fun e => insertGroupEntry e delayNew gd)
  else
    updateEntryIn lst name (fun parent => do
      let vifs :=
        match dictGet parent ("vif".data) with
        | some (.arr vs) => vs
        | _ => []
      let vifs2 ← updateEntryIn vifs vifNum
        (fun e => insertGroupEntry e delayNew gd)
      return dictSet parent ("vif".data) (.arr vifs2))

/-- The raw `[1]` component of a `find_config_value` call used without
checking the found flag (as at lines 356-359 of `config_file.py`):
`"NOTFOUND"` flows on as a string, while a presence `[None]` value in
string position is a type error downstream. -/
def fcvRawStr : FCV → Except Str Str
  | .notFound => .ok ("NOTFOUND".data)
  | .presence => .error ("TypeError: presence value in string position".data)
  | .scalar v => .ok v

/-- Translation of `KeepalivedConfig.convert_to_vci_format_dict`
(lines 307-401 of `config_file.py`), taking the config text as its
`splitlines` list. -/
def convertToVciFormatDict (configLines : List Str) : Except Str YDict :=
  let starts := getConfigIndexes configLines ("vrrp_instance".data)
  if starts = [] then .ok []
  else
    let syncStarts := getConfigIndexes configLines ("vrrp_sync_group".data)
    let syncMapE : Except Str (List (Str × Str)) :=
      if syncStarts = [] then .ok []
      else
        (getConfigBlocks (configLines.take (starts.headD 0)) syncStarts).foldlM
          (fun acc sgBlock =>
            match findConfigValue sgBlock ("vrrp_sync_group".data) with
            | .notFound => .ok acc
            | .presence => .error ("AttributeError: split".data)
            | .scalar v =>
              let gname := (splitWsToks v).headD []
              match indexFrom sgBlock ("group \x7b".data) 0 with
              | none => .error ("ValueError: group start not in list".data)
              | some istart =>
                match indexFrom sgBlock ("\x7d".data) istart with
                | none => .error ("ValueError: group end not in list".data)
                | some iend =>
                  .ok ((sliceFromTo sgBlock (istart + 1) iend).foldl
                    (fun m inst => (m.filter (fun p => !(p.1 == inst))) ++
                      [(inst, gname)]) acc))
          []
    match syncMapE with
    | .error e => .error e
    | .ok syncMap =>
      let blocks := getConfigBlocks configLines starts
      let folded : Except Str YDict :=
        blocks.foldlM
          (fun buckets group => do
            let intfRaw ← fcvRawStr (findConfigValue group ("interface".data))
            let vrid ← fcvRawStr (findConfigValue group ("virtual_router_id".data))
            let nm := "vyatta-".data ++ intfRaw ++ "-".data ++ vrid
            let group2 :=
              match syncMap.find? (fun p => p.1 == nm) with
              | some p => group ++ [ "sync_group ".data ++ p.2 ]
              | none => group
            let (intfName, vifNum) :=
              if containsB intfRaw (".".data) then
                let parts := splitOnC '.' intfRaw
                (parts.headD [], (parts.get? 1).getD [])
              else (intfRaw, [])
            let tyName ← intfNameToType intfName
            let delayNew ← fcvRawStr (findConfigValue group2 ("start_delay".data))
            let gd ← convertKeepalivedConfigToYang group2
            let lst :=
              match dictGet buckets tyName.1 with
              | some (.arr l) => l
              | _ => []
            let lst2 ← insertIntoIntfList lst intfName vifNum delayNew gd
            return dictSet buckets tyName.1 (.arr lst2))
          []
      match folded with
      | .error e => .error e
      | .ok buckets => .ok [ (interfaceYangName, .d buckets) ]

/-- Serialize a tree and parse the text back: the round-trip subject. -/
def parseSerialized (cfg : Option InterfaceTree) : Except Str YDict := do
  let ls ← serializeTree cfg
  convertToVciFormatDict ls

/-- One line of `_convert_track_block_to_yang` (lines 856-867 of
`show_vrrp_cmds.py`): the last whitespace token of the line is the value
(an empty line is the Python IndexError), dispatched on which sentinel
word the line contains. -/
def trackBlockLineStep (d : YDict) (line : Str) : Except Str YDict :=
  match (splitWsToks line).getLast? with
  | none => .error ("IndexError: split".data)
  | some v =>
    if containsB line ("Name".data) || containsB line ("Policy".data) ||
        containsB line ("Network".data) then
      .ok (dictSet d ("name".data) (.s v))
    else if containsB line ("is UP".data) || containsB line ("is Down".data) ||
        containsB line ("Status".data) then
      .ok (dictSet d ("state".data) (.s v))
    else if containsB line ("weight".data) || containsB line ("Weight".data) then
      .ok (dictSet d ("weight".data) (.s v))
    else if containsB line ("Prefix".data) && dictHas d ("name".data) then
      match dictGet d ("name".data) with
      | some (.s old) => .ok (dictSet d ("name".data) (.s (old ++ "/".data ++ v)))
      | _ => .error ("TypeError: name".data)
    else .ok d

/-- Translation of `_convert_track_block_to_yang`: fold the block's
lines into the tracked-object dictionary. -/
def convertTrackBlockToYang (block : List Str) : Except Str YDict :=
  block.foldlM trackBlockLineStep []

/-- The `while True` walk of `_get_end_of_tracking_config`, with fuel:
step to the next line; for an interface block stop one line after the
first line containing `Enabling`; otherwise stop after the first line
containing `Status`, one line further when the line after it contains
`Weight`.  Running off the end of the block is `none`. -/
def endOfTrackingGo (block : List Str) (isIntf : Bool) : Nat → Nat → Option Nat
  | _, 0 => none
  | i, fuel + 1 =>
    let i2 := i + 1
    match block.get? i2 with
    | none => none
    | some line =>
      if isIntf then
        if containsB line ("Enabling".data) then some (i2 + 1)
        else endOfTrackingGo block isIntf i2 fuel
      else
        if containsB line ("Status".data) then
          match block.get? (i2 + 1) with
          | none => none
          | some l2 =>
            if containsB l2 ("Weight".data) then some (i2 + 2) else some (i2 + 1)
        else endOfTrackingGo block isIntf i2 fuel

/-- Translation of `_get_end_of_tracking_config` (lines 735-832 of
`show_vrrp_cmds.py`); `lastIdx` is the start index of the last tracked
object of the current kind, and the result the index one past its last
line (`none` embeds the IndexError of walking past the block's end). -/
def getEndOfTrackingConfig (block : List Str) (lastIdx : Nat) (isIntf : Bool) :
    Option Nat :=
  endOfTrackingGo block isIntf lastIdx block.length

/-- Translation of `_convert_tracked_type_to_yang` (lines 869-956) for
the plain (non-monitor) call: each object's block runs from its start
index (plus `off`) to the next object's start index, the last one to
`endCfg`. -/
def convertTrackedTypePlain (block : List Str) (idxs : List Nat)
    (endCfg off : Nat) : Except Str (List YDict) :=
  idxs.foldlM
    (fun acc ti => do
      let tbe ←
        if idxs.getLast? = some ti then pure endCfg
        else
          match idxs.get? (idxs.indexOf ti + 1) with
          | some v => pure v
          | none => Except.error ("IndexError: block indexes".data)
      let obj ← convertTrackBlockToYang (sliceFromTo block (ti + off) tbe)
      return acc ++ [obj])
    []

/-- Append a parsed policy into the monitor bucket named `mn`; a miss
appends nowhere (the Python would append to a stale reference, but the
buckets are prepopulated from the very lines scanned here, so every
lookup hits). -/
def monAppend (ms : List (Str × List YDict)) (mn : Str) (obj : YDict) :
    List (Str × List YDict) :=
  match ms with
  | [] => []
  | (n, ps) :: rest =>
    if n = mn then (n, ps ++ [obj]) :: rest
    else (n, ps) :: monAppend rest mn obj

/-- Translation of `_convert_tracked_type_to_yang` when a prepopulated
monitor list is supplied: the converted object is appended into the
bucket of the monitor named on the sentinel line. -/
def convertTrackedTypeMon (block : List Str) (idxs : List Nat)
    (endCfg off : Nat) (monitors : List (Str × List YDict)) :
    Except Str (List (Str × List YDict)) :=
  idxs.foldlM
    (fun ms ti => do
      match block.get? ti with
      | none => Except.error ("IndexError: block".data)
      | some ln =>
        match (splitWsToks ln).getLast? with
        | none => Except.error ("IndexError: split".data)
        | some mn => do
          let tbe ←
            if idxs.getLast? = some ti then pure endCfg
            else
              match idxs.get? (idxs.indexOf ti + 1) with
              | some v => pure v
              | none => Except.error ("IndexError: block indexes".data)
          let obj ← convertTrackBlockToYang (sliceFromTo block (ti + off) tbe)
          return monAppend ms mn obj)
    monitors

/-- Translation of `_prepopulate_pmon_tracking_list` (lines 958-983):
one empty bucket per distinct monitor name, in first-seen order. -/
def prepopulatePmonTrackingList (block : List Str) (idxs : List Nat) :
    Except Str (List (Str × List YDict)) :=
  idxs.foldlM
    (fun ms ti =>
      match block.get? ti with
      | none => Except.error ("IndexError: block".data)
      | some ln =>
        match (splitWsToks ln).getLast? with
        | none => Except.error ("IndexError: split".data)
        | some mn =>
          .ok (if (ms.find? (fun p => p.1 == mn)).isSome then ms
               else ms ++ [(mn, [])]))
    []

/-- The fixed YANG-key/dump-sentinel table of
`_convert_keepalived_data_to_yang` (lines 1019-1038), in insertion
order; the `sync-group` slot holds the sync argument, not a sentinel. -/
def dataKeyTable : List (Str × Str) :=
  [ (("address-owner".data), ("Address owner".data)),
    (("last-transition".data), ("Last transition".data)),
    (("rfc-interface".data), ("Transmitting device".data)),
    (("state".data), ("State".data)),
    (("sync-group".data), ("".data)),
    (("version".data), ("VRRP Version".data)),
    (("src-ip".data), ("Using src_ip".data)),
    (("base-priority".data), ("Base priority".data)),
    (("effective-priority".data), ("Effective priority".data)),
    (("advert-interval".data), ("Advert interval".data)),
    (("accept".data), ("Accept".data)),
    (("preempt".data), ("Preempt".data)),
    (("preempt-delay".data), ("Preempt delay".data)),
    (("start-delay".data), ("Start delay".data)),
    (("auth-type".data), ("Authentication Type".data)),
    (("master-priority".data), ("Master priority".data)),
    (("master-router".data), ("Master router".data)) ]

/-- The value stored for one scalar key of the data dump (lines
1041-1077 of `show_vrrp_cmds.py`): token 1 of the matched line's
trailing text, unit suffixes for the interval/delay keys, the
rfc-interface blanked when it equals the owning interface, then
int/bool coercion; an absent key keeps the `"NOTFOUND"` marker
(`auth-type` becomes `None`), and a presence-only match leaves the
initial sentinel string in place. -/
def dataFieldVal (block : List Str) (verSoFar : Option YVal) (intf : Str)
    (key sent : Str) : Except Str YVal :=
  match findConfigValue block sent with
  | .notFound =>
    if key = ("auth-type".data) then .ok .null else .ok (.s ("NOTFOUND".data))
  | .presence => .ok (.s sent)
  | .scalar v =>
    if v = ("NOTFOUND".data) then
      if key = ("auth-type".data) then .ok .null else .ok (.s ("NOTFOUND".data))
    else
      match (splitWsToks v).get? 1 with
      | none => .error ("IndexError: split".data)
      | some value0 =>
        let verIs2 : Bool :=
          match verSoFar with
          | some (.n 2) => true
          | _ => false
        let value :=
          if key = ("advert-interval".data) then
            if verIs2 then value0 ++ (" sec".data)
            else value0 ++ (" milli-sec".data)
          else if key = ("start-delay".data) ∨ key = ("preempt-delay".data) then
            value0 ++ (" secs".data)
          else if key = ("rfc-interface".data) ∧ value0 = intf then []
          else value0
        if isDigitS value then .ok (.n (digitsToNat value))
        else if value = ("no".data) ∨ value = ("disabled".data) then .ok (.b false)
        else if value = ("yes".data) ∨ value = ("enabled".data) then .ok (.b true)
        else .ok (.s value)

/-- Translation of `_convert_keepalived_data_to_yang` (lines 985-1143 of
`show_vrrp_cmds.py`): one topology-dump instance block (plus the
sync-group name) to the `\x7binstance-state, tagnode\x7d` dictionary. -/
def convertKeepalivedDataToYang (block : List Str) (sync : Str) :
    Except Str YDict :=
  match block with
  | [] => .ok []
  | b0 :: _ =>
    let nameToks := splitOnC '-' b0
    match nameToks.get? 1, nameToks.get? 2 with
    | some intf, some vrid => do
      let fields ← dataKeyTable.foldlM
        (fun acc p =>
          if p.1 = ("sync-group".data) then pure (acc ++ [(p.1, YVal.s sync)])
          else do
            let v ← dataFieldVal block (dictGet acc ("version".data)) intf p.1 p.2
            return acc ++ [(p.1, v)])
        []
      let trackIntf : Except Str YDict :=
        match findConfigValue block ("Tracked interfaces =".data) with
        | .scalar v =>
          if v = ("NOTFOUND".data) then .ok []
          else
            let idxs := getConfigIndexes block ("------< NIC >------".data)
            match idxs.getLast? with
            | none => .error ("IndexError: tracked indexes".data)
            | some lastI =>
              match getEndOfTrackingConfig block lastI true with
              | none => .error ("IndexError: end of tracking".data)
              | some e => do
                let objs ← convertTrackedTypePlain block idxs e 1
                return [ (("interface".data), YVal.arr (objs.map YVal.d)) ]
        | _ => .ok []
      let trackPmon : Except Str YDict :=
        match findConfigValue block ("Tracked path-monitors =".data) with
        | .scalar v =>
          if v = ("NOTFOUND".data) then .ok []
          else
            let idxs := getConfigIndexes block ("Monitor".data)
            match idxs.getLast? with
            | none => .error ("IndexError: tracked indexes".data)
            | some lastI =>
              match getEndOfTrackingConfig block lastI false with
              | none => .error ("IndexError: end of tracking".data)
              | some e => do
                let ms0 ← prepopulatePmonTrackingList block idxs
                let ms ← convertTrackedTypeMon block idxs e 1 ms0
                pure
                  [ (("monitor".data),
                     YVal.arr (ms.map (fun m =>
                       YVal.d [ (("name".data), YVal.s m.1),
                                (("policies".data),
                                 YVal.arr (m.2.map YVal.d)) ]))) ]
        | _ => .ok []
      let trackRoute : Except Str YDict :=
        match findConfigValue block ("Tracked routes =".data) with
        | .scalar v =>
          if v = ("NOTFOUND".data) then .ok []
          else
            let idxs := getConfigIndexes block ("Network".data)
            match idxs.getLast? with
            | none => .error ("IndexError: tracked indexes".data)
            | some lastI =>
              match getEndOfTrackingConfig block lastI false with
              | none => .error ("IndexError: end of tracking".data)
              | some e => do
                let objs ← convertTrackedTypePlain block idxs e 0
                return [ (("route".data), YVal.arr (objs.map YVal.d)) ]
        | _ => .ok []
      let ti ← trackIntf
      let tp ← trackPmon
      let tr ← trackRoute
      let trackedDict : YDict := ti ++ tp ++ tr
      let fields2 :=
        if trackedDict.isEmpty then fields
        else fields ++ [ (("track".data), YVal.d trackedDict) ]
      let numVips ←
        match findConfigValue block ("Virtual IP =".data) with
        | .presence => pure (none : Option Int)
        | .notFound =>
          Except.error ("ValueError: invalid literal for int".data)
        | .scalar v =>
          match parsePyInt v with
          | none => Except.error ("ValueError: invalid literal for int".data)
          | some k => pure (some k)
      let fields3 ←
        match numVips with
        | none => pure fields2
        | some k =>
          match (getConfigIndexes block ("Virtual IP".data)).get? 0 with
          | none => Except.error ("IndexError: Virtual IP".data)
          | some vs => do
            let addrs ← (sliceFromTo block (vs + 1) (vs + 1 + k).toNat).mapM
              (fun a =>
                match (splitWsToks a).get? 0 with
                | none => Except.error ("IndexError: split".data)
                | some h => pure h)
            pure (fields2 ++
              [ (("virtual-ips".data), YVal.arr (addrs.map YVal.s)) ])
      let final := fields3.filter (fun p => !isNotFoundVal p.2)
      return [ (("instance-state".data), YVal.d final),
               (("tagnode".data), YVal.s vrid) ]
    | _, _ => .error ("IndexError: instance name".data)

/-- The virtual sub-interfaces of one interface, promoted to top-level
entries re-keyed `parent.vifnum` with no nested `vif` of their own. -/
def relocatedOf (i : IntfCfg) : List IntfCfg :=
  match i.vif with
  | none => []
  | some vs =>
    vs.map (fun sub =>
      { tagnode := i.tagnode ++ (".".data) ++ sub.tagnode,
        vrrp := sub.vrrp, vif := none })

/-- Remove the `vif` key from an interface entry. -/
def stripVif (i : IntfCfg) : IntfCfg := { i with vif := none }

/-- Is this interface kept by the sanitizer: a present VRRP container
with a nonempty group list? -/
def keepIntf (i : IntfCfg) : Bool :=
  match i.vrrp with
  | some vc => !vc.groups.isEmpty
  | none => false

/-- Append the relocated entries to the top-level `vif` bucket, creating
it at the end of the tree when absent. -/
def addToVifBucket : InterfaceTree → List IntfCfg → InterfaceTree
  | [], ls => [ (("vif".data), ls) ]
  | b :: rest, ls =>
    if b.1 = ("vif".data) then (b.1, b.2 ++ ls) :: rest
    else b :: addToVifBucket rest ls

/-- Modelled from the spec: the config sanitizer
(`_sanitize_vrrp_config`, §4.3 — the function itself is not under
`src/`, only its tests are).  Nested virtual sub-interfaces are
relocated into the dedicated top-level `vif` bucket re-keyed by their
qualified tagnode, interfaces (relocated ones included) without VRRP
groups are dropped, and interface-type buckets left empty are removed;
group contents are never consulted. -/
def sanitizeTree (t : InterfaceTree) : InterfaceTree :=
  let reloc := (t.map (fun b => (b.2.map relocatedOf).flatten)).flatten
  let t2 := t.map (fun b => (b.1, (b.2.map stripVif).filter keepIntf))
  let relocKept := reloc.filter keepIntf
  let t3 := if relocKept.isEmpty then t2 else addToVifBucket t2 relocKept
  t3.filter (fun b => !b.2.isEmpty)

theorem relocatedOf_strip (i : IntfCfg) : relocatedOf (stripVif i) = [] := by
  simp [relocatedOf, stripVif]

theorem stripVif_of_vif_none (i : IntfCfg) (h : i.vif = none) :
    stripVif i = i := by
  cases i with
  | mk t v vf => cases vf with
    | none => rfl
    | some l => simp at h

theorem keepIntf_relocated (i : IntfCfg) (j : IntfCfg)
    (hj : j ∈ relocatedOf i) : j.vif = none := by
  unfold relocatedOf at hj
  cases hvf : i.vif with
  | none => simp [hvf] at hj
  | some vs =>
    simp only [hvf, List.mem_map] at hj
    obtain ⟨sub, _, rfl⟩ := hj
    rfl

theorem mem_addToVifBucket (t : InterfaceTree) (ls : List IntfCfg)
    (b : Str × List IntfCfg) (hb : b ∈ addToVifBucket t ls) :
    (∃ b2 ∈ t, b.1 = b2.1 ∧ ∀ i ∈ b.2, i ∈ b2.2 ∨ i ∈ ls) ∨
    (b.1 = ("vif".data) ∧ ∀ i ∈ b.2, i ∈ ls) := by
  induction t with
  | nil =>
    simp only [addToVifBucket, List.mem_singleton] at hb
    right
    subst hb
    exact ⟨rfl, fun i hi => hi⟩
  | cons hd tl ih =>
    simp only [addToVifBucket] at hb
    by_cases hh : hd.1 = ("vif".data)
    · simp only [hh, if_pos rfl] at hb
      rcases List.mem_cons.1 hb with h1 | h2
      · subst h1
        left
        exact ⟨hd, List.mem_cons_self _ _, hh.symm,
          fun i hi => by simpa using List.mem_append.1 hi⟩
      · left
        exact ⟨b, List.mem_cons_of_mem _ h2, rfl, fun i hi => Or.inl hi⟩
    · rw [if_neg hh] at hb
      rcases List.mem_cons.1 hb with h1 | h2
      · left
        exact ⟨hd, List.mem_cons_self .., by rw [h1], by rw [h1]; exact fun i hi => Or.inl hi⟩
      · rcases ih h2 with ⟨b2, hb2, he, hi⟩ | ⟨he, hi⟩
        · exact Or.inl ⟨b2, List.mem_cons_of_mem _ hb2, he, hi⟩
        · exact Or.inr ⟨he, hi⟩

theorem sanitize_members (t : InterfaceTree) (b : Str × List IntfCfg)
    (hb : b ∈ sanitizeTree t) :
    (∀ i ∈ b.2, i.vif = none ∧ keepIntf i = true) ∧ b.2 ≠ [] := by
  unfold sanitizeTree at hb
  have hb2 := List.mem_filter.1 hb
  refine ⟨?_, by simpa [List.isEmpty_iff] using hb2.2⟩
  intro i hi
  have hmem : i ∈ b.2 := hi
  -- characterize membership through t3
  have base :
      ∀ c : Str × List IntfCfg,
        c ∈ t.map (fun b => (b.1, (b.2.map stripVif).filter keepIntf)) →
        ∀ j ∈ c.2, j.vif = none ∧ keepIntf j = true := by
    intro c hc j hj
    rcases List.mem_map.1 hc with ⟨b0, _, rfl⟩
    have hj2 := List.mem_filter.1 hj
    rcases List.mem_map.1 hj2.1 with ⟨j0, _, rfl⟩
    exact ⟨rfl, hj2.2⟩
  have relocProp :
      ∀ j ∈ (t.map (fun b => (b.2.map relocatedOf).flatten)).flatten.filter keepIntf,
        j.vif = none ∧ keepIntf j = true := by
    intro j hj
    have hj2 := List.mem_filter.1 hj
    refine ⟨?_, hj2.2⟩
    rcases List.mem_flatten.1 hj2.1 with ⟨l, hl, hjl⟩
    rcases List.mem_map.1 hl with ⟨b0, _, rfl⟩
    rcases List.mem_flatten.1 hjl with ⟨l2, hl2, hjl2⟩
    rcases List.mem_map.1 hl2 with ⟨i0, _, rfl⟩
    exact keepIntf_relocated i0 j hjl2
  by_cases hre :
      ((t.map (fun b => (b.2.map relocatedOf).flatten)).flatten.filter keepIntf).isEmpty
  · rw [if_pos hre] at hb2
    exact base b hb2.1 i hmem
  · rw [if_neg hre] at hb2
    rcases mem_addToVifBucket _ _ _ hb2.1 with ⟨b2, hb2m, _, hsub⟩ | ⟨_, hsub⟩
    · rcases hsub i hmem with h1 | h2
      · exact base b2 hb2m i h1
      · exact relocProp i h2
    · exact relocProp i (hsub i hmem)

theorem map_strip_filter_id (t : InterfaceTree)
    (h : ∀ b ∈ t, ∀ i ∈ b.2, i.vif = none ∧ keepIntf i = true) :
    t.map (fun b => (b.1, (b.2.map stripVif).filter keepIntf)) = t := by
  induction t with
  | nil => rfl
  | cons hd tl ih =>
    simp only [List.map_cons]
    have hentries := h hd (List.mem_cons_self _ _)
    obtain ⟨n, is⟩ := hd
    have h1 : is.map stripVif = is := by
      have hcong : ∀ i ∈ is, stripVif i = i := fun i hi =>
        stripVif_of_vif_none i (hentries i hi).1
      rw [List.map_congr_left hcong, List.map_id']
    have h2 : (is.map stripVif).filter keepIntf = is := by
      rw [h1]
      exact List.filter_eq_self.2 (fun i hi => (hentries i hi).2)
    rw [h2, ih (fun b hb => h b (List.mem_cons_of_mem _ hb))]

/-- C9 helper: a tree every one of whose buckets is nonempty and whose
interfaces all keep their groups and carry no `vif` key is a fixpoint of
the sanitizer. -/
theorem sanitize_fixpoint (t : InterfaceTree)
    (h : ∀ b ∈ t, (∀ i ∈ b.2, i.vif = none ∧ keepIntf i = true) ∧ b.2 ≠ []) :
    sanitizeTree t = t := by
  unfold sanitizeTree
  have hrel : (t.map (fun b => (b.2.map relocatedOf).flatten)).flatten = [] := by
    simp only [List.flatten_eq_nil_iff, List.mem_map]
    rintro l ⟨b, hb, rfl⟩
    simp only [List.flatten_eq_nil_iff, List.mem_map]
    rintro l2 ⟨i, hi, rfl⟩
    have := (h b hb).1 i hi
    unfold relocatedOf
    rw [this.1]
  rw [hrel]
  simp only [List.filter_nil, List.isEmpty_nil, if_pos rfl]
  rw [map_strip_filter_id t (fun b hb => (h b hb).1)]
  exact List.filter_eq_self.2 (fun b hb => by
    simpa [List.isEmpty_iff] using (h b hb).2)

/-- C9: the config sanitizer is idempotent — for every Interface Tree,
`sanitize(sanitize(tree))` equals `sanitize(tree)`. -/
theorem sanitize_idempotent (t : InterfaceTree) :
    sanitizeTree (sanitizeTree t) = sanitizeTree t :=
  sanitize_fixpoint _ (fun b hb => sanitize_members t b hb)

/-- C7: for a version-3 VRRP group whose fast-advertise-interval is `f`
milliseconds (and which has no `advertise-interval`), the write
direction computes `advert_int = f / 1000` truncated, and the block
emitted by `VrrpGroup` contains the corresponding `advert_int` line; at
`f = 2000` the field equals `2`. -/
theorem advert_int_truncated_division (name : Str) (delay : Nat)
    (g : GroupCfg) (rfcNum : Int) (ls : List Str) (f : Nat)
    (_hv : g.version = 3) (hf : g.fastAdvertiseInterval = some f)
    (ha : g.advertiseInterval = none)
    (hok : mkVrrpGroupLines name delay g rfcNum = .ok ls) :
    computeAdv g = f / 1000 ∧
    ("    advert_int ".data ++ natRepr (f / 1000)) ∈ ls := by
  have hadv : computeAdv g = f / 1000 := by
    unfold computeAdv
    rw [ha, hf]
  refine ⟨hadv, ?_⟩
  unfold mkVrrpGroupLines at hok
  cases hva : g.virtualAddress with
  | nil => rw [hva] at hok; exact absurd hok (by simp)
  | cons a0 rest =>
    rw [hva] at hok
    cases hm : mergeTrackInterface g with
    | error e => rw [hm] at hok; exact absurd hok (by simp)
    | ok tc =>
      rw [hm] at hok
      simp only [Except.ok.injEq] at hok
      rw [← hok, ← hadv]
      simp

/-- Witness configuration for C7. -/
def cfgC7 : GroupCfg :=
  { tagnode := 1, version := 3, accept := false, preempt := true,
    virtualAddress := [("10.10.1.100/25".data)],
    fastAdvertiseInterval := some 2000 }

/-- The lines C7's witness group serializes to. -/
def linesC7 : List Str :=
  match mkVrrpGroupLines ("dp0p1s1".data) 0 cfgC7 (-1) with
  | .ok ls => ls
  | .error _ => []

theorem advert_int_truncated_division_witness :
    computeAdv cfgC7 = 2000 / 1000 ∧
    ("    advert_int ".data ++ natRepr (2000 / 1000)) ∈ linesC7 :=
  advert_int_truncated_division ("dp0p1s1".data) 0 cfgC7 (-1) linesC7 2000
    rfl rfl rfl rfl

/-- The first index at or after `i` whose line contains `sent`. -/
def findFromContains (block : List Str) (i : Nat) (sent : Str) : Option Nat :=
  match (block.drop i).findIdx? (fun l => containsB l sent) with
  | none => none
  | some k => some (i + k)

theorem findFromContains_none_of_ge (block : List Str) (i : Nat) (sent : Str)
    (h : block.length ≤ i) : findFromContains block i sent = none := by
  unfold findFromContains
  rw [List.drop_eq_nil_of_le h]
  rfl

theorem findFromContains_step (block : List Str) (i : Nat) (sent : Str)
    (line : Str) (hg : block.get? i = some line) :
    findFromContains block i sent =
      if containsB line sent then some i else findFromContains block (i + 1) sent := by
  have hlt : i < block.length := by
    by_contra hge
    rw [List.get?_eq_none.2 (by omega)] at hg
    cases hg
  have hd : block.drop i = line :: block.drop (i + 1) := by
    rw [List.drop_eq_getElem_cons hlt]
    congr 1
    have := List.get?_eq_getElem? block i
    rw [hg] at this
    have h2 := List.getElem?_eq_getElem (l := block) hlt
    rw [h2] at this
    exact (Option.some.inj this.symm)
  unfold findFromContains
  rw [hd, List.findIdx?_cons]
  by_cases hc : containsB line sent
  · simp [hc]
  · simp only [hc, Bool.false_eq_true, if_false, List.findIdx?_start_succ]
    cases hfind : (block.drop (i + 1)).findIdx? (fun l => containsB l sent) with
    | none => simp
    | some k =>
      simp only [Option.map_some']
      congr 1
      omega

theorem endGo_intf (block : List Str) :
    ∀ (fuel i : Nat), block.length ≤ i + fuel →
    endOfTrackingGo block true i fuel =
      (findFromContains block (i + 1) ("Enabling".data)).map (· + 1) := by
  intro fuel
  induction fuel with
  | zero =>
    intro i h
    rw [endOfTrackingGo, findFromContains_none_of_ge block (i + 1) _ (by omega)]
    rfl
  | succ n ih =>
    intro i h
    simp only [endOfTrackingGo]
    cases hg : block.get? (i + 1) with
    | none =>
      rw [findFromContains_none_of_ge block (i + 1) _ (List.get?_eq_none.1 hg)]
      rfl
    | some line =>
      rw [findFromContains_step block (i + 1) _ line hg]
      by_cases hc : containsB line ("Enabling".data)
      · simp [hc]
      · simp only [hc, Bool.false_eq_true, if_true, if_false]
        rw [ih (i + 1) (by omega)]

theorem endGo_other (block : List Str) :
    ∀ (fuel i : Nat), block.length ≤ i + fuel →
    endOfTrackingGo block false i fuel =
      (match findFromContains block (i + 1) ("Status".data) with
       | none => none
       | some j =>
         match block.get? (j + 1) with
         | none => none
         | some l2 =>
           some (if containsB l2 ("Weight".data) then j + 2 else j + 1)) := by
  intro fuel
  induction fuel with
  | zero =>
    intro i h
    rw [endOfTrackingGo, findFromContains_none_of_ge block (i + 1) _ (by omega)]
  | succ n ih =>
    intro i h
    simp only [endOfTrackingGo]
    cases hg : block.get? (i + 1) with
    | none =>
      rw [findFromContains_none_of_ge block (i + 1) _ (List.get?_eq_none.1 hg)]
    | some line =>
      rw [findFromContains_step block (i + 1) _ line hg]
      by_cases hc : containsB line ("Status".data)
      · simp only [hc, if_true, Bool.false_eq_true, if_false]
        cases hg2 : block.get? (i + 1 + 1) with
        | none => rfl
        | some l2 =>
          by_cases hw : containsB l2 ("Weight".data) <;> simp [hw]
      · simp only [hc, Bool.false_eq_true, if_false]
        rw [ih (i + 1) (by omega)]

/-- C2 helper: the interface-block case of `_get_end_of_tracking_config`
is one line past the first line after `lastIdx` containing `Enabling`. -/
theorem getEndOfTracking_intf_spec (block : List Str) (lastIdx : Nat) :
    getEndOfTrackingConfig block lastIdx true =
      (findFromContains block (lastIdx + 1) ("Enabling".data)).map (· + 1) :=
  endGo_intf block block.length lastIdx (by omega)

/-- C2 helper: the path-monitor/route case of
`_get_end_of_tracking_config` is one line past the first `Status` line
after `lastIdx`, extended by one more line when the line after the
`Status` line contains `Weight` (running off the block is `none`). -/
theorem getEndOfTracking_other_spec (block : List Str) (lastIdx : Nat) :
    getEndOfTrackingConfig block lastIdx false =
      (match findFromContains block (lastIdx + 1) ("Status".data) with
       | none => none
       | some j =>
         match block.get? (j + 1) with
         | none => none
         | some l2 =>
           some (if containsB l2 ("Weight".data) then j + 2 else j + 1)) :=
  endGo_other block block.length lastIdx (by omega)

theorem exc_bind_ok {α β : Type} (a : α) (f : α → Except Str β) :
    (Except.ok a >>= f) = f a := rfl

theorem exc_bind_err {α β : Type} (e : Str) (f : α → Except Str β) :
    ((Except.error e : Except Str α) >>= f) = .error e := rfl

theorem indexOf_append_cons (pre : List Nat) (ti : Nat) (l : List Nat)
    (h : ti ∉ pre) : (pre ++ ti :: l).indexOf ti = pre.length := by
  induction pre with
  | nil => simp
  | cons x xs ih =>
    have hx : x ≠ ti := fun he => h (he ▸ List.mem_cons_self _ _)
    simp only [List.cons_append, List.indexOf_cons_ne _ hx, List.length_cons]
    rw [ih (fun hm => h (List.mem_cons_of_mem _ hm))]

theorem pairwise_enumFrom_fst (l : List Str) :
    ∀ n, List.Pairwise (fun p q : Nat × Str => p.1 < q.1) (List.enumFrom n l) := by
  induction l with
  | nil => intro n; simp
  | cons a as ih =>
    intro n
    simp only [List.enumFrom]
    refine List.Pairwise.cons ?_ (ih (n + 1))
    intro q hq
    obtain ⟨i, x⟩ := q
    have := List.mem_enumFrom hq
    simpa using this.1

/-- C2 helper: block-start indexes come out of the indexer in strictly
ascending order. -/
theorem getConfigIndexes_pairwise (lines : List Str) (sent : Str) :
    List.Pairwise (· < ·) (getConfigIndexes lines sent) := by
  unfold getConfigIndexes
  refine List.Pairwise.map _ (fun a b h => h) ?_
  exact List.Pairwise.filter _ (pairwise_enumFrom_fst lines 0)


/-- The boundaries the spec describes for a tracked-object section: each
object's block starts at its sentinel index (plus the kind's offset) and
ends at the next sentinel's start index; the last object's block ends at
the end index computed for the last sentinel. -/
def trackedSliceSpec (block : List Str) (endCfg off : Nat) :
    List Nat → Except Str (List YDict)
  | [] => .ok []
  | [ti] => do
    let obj ← convertTrackBlockToYang (sliceFromTo block (ti + off) endCfg)
    return [obj]
  | ti :: tj :: rest => do
    let obj ← convertTrackBlockToYang (sliceFromTo block (ti + off) tj)
    let more ← trackedSliceSpec block endCfg off (tj :: rest)
    return obj :: more

/-- The loop body of `convertTrackedTypePlain`, named so the fold can be
reasoned about stepwise. -/
def plainBody (block : List Str) (endCfg off : Nat) (idxs : List Nat)
    (acc : List YDict) (ti : Nat) : Except Str (List YDict) := do
  let tbe ←
    if idxs.getLast? = some ti then pure endCfg
    else
      match idxs.get? (idxs.indexOf ti + 1) with
      | some v => pure v
      | none => Except.error ("IndexError: block indexes".data)
  let obj ← convertTrackBlockToYang (sliceFromTo block (ti + off) tbe)
  return acc ++ [obj]

theorem convertTrackedTypePlain_eq_fold (block : List Str) (idxs : List Nat)
    (endCfg off : Nat) :
    convertTrackedTypePlain block idxs endCfg off =
      idxs.foldlM (plainBody block endCfg off idxs) [] := rfl

theorem plainFold_spec (block : List Str) (endCfg off : Nat) (idxs : List Nat)
    (hp : List.Pairwise (· < ·) idxs) :
    ∀ (suf pre : List Nat) (acc : List YDict), idxs = pre ++ suf →
    suf.foldlM (plainBody block endCfg off idxs) acc
    = (match trackedSliceSpec block endCfg off suf with
       | .error e => .error e
       | .ok rest => .ok (acc ++ rest)) := by
  intro suf
  induction suf with
  | nil =>
    intro pre acc _
    simp only [List.foldlM_nil, trackedSliceSpec, List.append_nil]
    rfl
  | cons ti rest ih =>
    intro pre acc hsplit
    rw [List.foldlM_cons]
    cases rest with
    | nil =>
      have hlast : idxs.getLast? = some ti := by
        rw [hsplit]; exact List.getLast?_concat _
      have hstep : ∀ a : List YDict, plainBody block endCfg off idxs a ti =
          (match convertTrackBlockToYang (sliceFromTo block (ti + off) endCfg) with
           | .error e => .error e
           | .ok y => .ok (a ++ [y])) := by
        intro a
        unfold plainBody
        rw [if_pos hlast]
        simp only [pure_bind]
        cases hob : convertTrackBlockToYang (sliceFromTo block (ti + off) endCfg) with
        | error e => simp [hob, exc_bind_err]
        | ok y => simp [hob, exc_bind_ok]
      rw [hstep acc]
      simp only [trackedSliceSpec]
      cases hob : convertTrackBlockToYang (sliceFromTo block (ti + off) endCfg) with
      | error e => simp [hob, exc_bind_err]
      | ok y => simp [hob, exc_bind_ok, exc_bind_err]
    | cons tj rest2 =>
      have htail : (tj :: rest2).getLast? = some ((tj :: rest2).getLast (by simp)) :=
        List.getLast?_eq_getLast_of_ne_nil _
      have hmem := List.getLast_mem (l := tj :: rest2) (by simp)
      have hlt : ti < (tj :: rest2).getLast (by simp) := by
        rw [hsplit] at hp
        have h2 := (List.pairwise_append.1 hp).2.1
        exact (List.pairwise_cons.1 h2).1 _ hmem
      have hne : ¬(idxs.getLast? = some ti) := by
        rw [hsplit, List.getLast?_append_cons, List.getLast?_cons_cons, htail]
        intro hcontra
        have := Option.some.inj hcontra
        omega
      have hnotmem : ti ∉ pre := by
        rw [hsplit] at hp
        intro hm
        have h3 := (List.pairwise_append.1 hp).2.2 ti hm ti (List.mem_cons_self _ _)
        omega
      have hidx : idxs.indexOf ti = pre.length := by
        rw [hsplit]; exact indexOf_append_cons pre ti _ hnotmem
      have hget : idxs.get? (idxs.indexOf ti + 1) = some tj := by
        rw [hidx, hsplit, List.get?_append_right (by omega)]
        simp
      have hstep : ∀ a : List YDict, plainBody block endCfg off idxs a ti =
          (match convertTrackBlockToYang (sliceFromTo block (ti + off) tj) with
           | .error e => .error e
           | .ok y => .ok (a ++ [y])) := by
        intro a
        unfold plainBody
        rw [if_neg hne, hget]
        simp only [pure_bind]
        cases hob : convertTrackBlockToYang (sliceFromTo block (ti + off) tj) with
        | error e => simp [hob, exc_bind_err]
        | ok y => simp [hob, exc_bind_ok]
      rw [hstep acc]
      have hsplit2 : idxs = (pre ++ [ti]) ++ tj :: rest2 := by
        rw [hsplit]; simp
      cases hob : convertTrackBlockToYang (sliceFromTo block (ti + off) tj) with
      | error e =>
        simp only [exc_bind_err, trackedSliceSpec, hob, exc_bind_ok]
      | ok y =>
        simp only [exc_bind_ok]
        rw [ih (pre ++ [ti]) (acc ++ [y]) hsplit2]
        simp only [trackedSliceSpec, hob, exc_bind_ok]
        cases hm : trackedSliceSpec block endCfg off (tj :: rest2) with
        | error e => simp [hm, exc_bind_err]
        | ok ys => simp [hm, exc_bind_err, exc_bind_ok]

/-- C2: tracked-object end-of-block detection in the topology-dump
parser.  A tracked-interface object ends at the line after the first
subsequent line containing `Enabling`; a path-monitor or route object
ends at the line after its `Status` line, one line later when the line
after `Status` contains `Weight`; and in `_convert_tracked_type_to_yang`
(for ascending sentinel-start indexes, as the block indexer produces
them) the end index computed for the last sentinel bounds the last
object while every non-terminal object is bounded by the next sentinel's
start index. -/
theorem tracked_object_boundaries (block : List Str) (lastIdx endCfg off : Nat)
    (idxs : List Nat) (hp : List.Pairwise (· < ·) idxs) :
    (getEndOfTrackingConfig block lastIdx true =
      (findFromContains block (lastIdx + 1) ("Enabling".data)).map (· + 1)) ∧
    (getEndOfTrackingConfig block lastIdx false =
      (match findFromContains block (lastIdx + 1) ("Status".data) with
       | none => none
       | some j =>
         match block.get? (j + 1) with
         | none => none
         | some l2 =>
           some (if containsB l2 ("Weight".data) then j + 2 else j + 1))) ∧
    (convertTrackedTypePlain block idxs endCfg off =
      trackedSliceSpec block endCfg off idxs) :=
  ⟨getEndOfTracking_intf_spec block lastIdx,
   getEndOfTracking_other_spec block lastIdx,
   by
     rw [convertTrackedTypePlain_eq_fold,
       plainFold_spec block endCfg off idxs hp idxs [] [] rfl]
     cases hm : trackedSliceSpec block endCfg off idxs with
     | error e => rfl
     | ok rest => simp⟩

/-- A small concrete tracking block for the C2 witness: two NIC
sub-blocks. -/
def blockC2 : List Str :=
  [ ("------< NIC >------".data),
    ("Name = dp0s2".data),
    ("Enabling NIC ioctl refresh polling".data),
    ("------< NIC >------".data),
    ("Name = dp0s3".data),
    ("Enabling NIC ioctl refresh polling".data) ]

theorem tracked_object_boundaries_witness :
    (getEndOfTrackingConfig blockC2 3 true =
      (findFromContains blockC2 (3 + 1) ("Enabling".data)).map (· + 1)) ∧
    (getEndOfTrackingConfig blockC2 3 false =
      (match findFromContains blockC2 (3 + 1) ("Status".data) with
       | none => none
       | some j =>
         match blockC2.get? (j + 1) with
         | none => none
         | some l2 =>
           some (if containsB l2 ("Weight".data) then j + 2 else j + 1))) ∧
    (convertTrackedTypePlain blockC2 [0, 3] 6 1 =
      trackedSliceSpec blockC2 6 1 [0, 3]) :=
  tracked_object_boundaries blockC2 3 6 1 [0, 3] (by decide)

/-- The topology-dump instance block of the C3 scenario: `Tracked
interfaces = 1` followed by exactly one NIC sub-block carrying a
`weight = 10` line (lines as stripped by the block indexer). -/
def blockC3 : List Str :=
  [ ("VRRP Instance = vyatta-dp0p1s1-1".data),
    ("VRRP Version = 2".data),
    ("State = MASTER".data),
    ("Last transition = 0 (Thur Jan 1 00:00:00 1970)".data),
    ("Listening device = dp0p1s1".data),
    ("Transmitting device = dp0p1s1".data),
    ("Using src_ip = 10.10.1.1".data),
    ("Virtual Router ID = 1".data),
    ("Base priority = 100".data),
    ("Effective priority = 100".data),
    ("Address owner = no".data),
    ("Advert interval = 2 sec".data),
    ("Accept = enabled".data),
    ("Preempt = enabled".data),
    ("Authentication type = none".data),
    ("Tracked interfaces = 1".data),
    ("------< NIC >------".data),
    ("Name = dp0p1s1".data),
    ("index = 7".data),
    ("IPv4 address = 10.10.1.2".data),
    ("IPv6 address = fe80::40a0:2ff:fee8:101".data),
    ("MAC = 42:a0:02:e8:01:01".data),
    ("is UP".data),
    ("is RUNNING".data),
    ("weight = 10".data),
    ("MTU = 1500".data),
    ("HW Type = ETHERNET".data),
    ("Enabling NIC ioctl refresh polling".data),
    ("Virtual IP = 1".data),
    ("10.10.1.100/24 dev dp0p1s1 scope global".data) ]

/-- The tracked-interface list inside a data-conversion result. -/
def dataTrackInterface (r : Except Str YDict) : Option YVal :=
  match r with
  | .error _ => none
  | .ok d =>
    match dictGet d ("instance-state".data) with
    | some (.d f) =>
      match dictGet f ("track".data) with
      | some (.d t) => dictGet t ("interface".data)
      | _ => none
    | _ => none

/-- The weight stored in the first tracked-interface entry of a
data-conversion result. -/
def dataFirstTrackWeight (r : Except Str YDict) : Option YVal :=
  match dataTrackInterface r with
  | some (.arr (YVal.d e :: _)) => dictGet e ("weight".data)
  | _ => none

/-- Is this (optional) value a dictionary record? -/
def isDictVal : Option YVal → Bool
  | some (.d _) => true
  | _ => false

set_option maxRecDepth 10000 in
/-- C3 counterexample: on the scenario block the data-file conversion
yields exactly one tracked-interface entry, but its `weight` is the raw
scalar string `"10"`, not a `\x7bdirection, magnitude\x7d` record. -/
theorem tracked_weight_is_raw_string :
    dataTrackInterface (convertKeepalivedDataToYang blockC3 ("".data)) =
      some (.arr [ .d [ (("name".data), .s ("dp0p1s1".data)),
                        (("state".data), .s ("UP".data)),
                        (("weight".data), .s ("10".data)) ] ]) ∧
    dataFirstTrackWeight (convertKeepalivedDataToYang blockC3 ("".data)) =
      some (.s ("10".data)) ∧
    isDictVal (dataFirstTrackWeight (convertKeepalivedDataToYang blockC3 ("".data)))
      = false := by
  refine ⟨?_, ?_, ?_⟩ <;> rfl

set_option maxRecDepth 10000 in
/-- C3 (amended): a topology-dump instance block with `Tracked
interfaces = 1` followed by one NIC sub-block carrying `weight = 10`
yields exactly one tracked-interface entry, whose weight is the raw
scalar string `"10"` (the direction/magnitude split exists only in the
config-file read path). -/
theorem single_tracked_interface_entry :
    dataTrackInterface (convertKeepalivedDataToYang blockC3 ("".data)) =
      some (.arr [ .d [ (("name".data), .s ("dp0p1s1".data)),
                        (("state".data), .s ("UP".data)),
                        (("weight".data), .s ("10".data)) ] ]) := by rfl

/-- Did this call succeed? -/
def excIsOk {α : Type} : Except Str α → Bool
  | .ok _ => true
  | .error _ => false

/-- A group `update` can process without raising: a nonempty
virtual-address list, and (unless disabled) a track merge that does not
raise. -/
def wfGroup (g : GroupCfg) : Bool :=
  !g.virtualAddress.isEmpty && (g.disable || excIsOk (mergeTrackInterface g))

/-- An interface `update` can process without raising or breaking: no
`vif` key, a VRRP container with a nonempty group list, every group
processable. -/
def wfIntf (i : IntfCfg) : Bool :=
  i.vif.isNone &&
    (match i.vrrp with
     | none => false
     | some vc => !vc.groups.isEmpty && vc.groups.all wfGroup)

theorem mkVrrpGroupLines_ok (n : Str) (d : Nat) (g : GroupCfg) (r : Int)
    (hva : g.virtualAddress ≠ []) (hm : excIsOk (mergeTrackInterface g) = true) :
    ∃ ls, mkVrrpGroupLines n d g r = .ok ls := by
  unfold mkVrrpGroupLines
  cases hv : g.virtualAddress with
  | nil => exact absurd hv hva
  | cons a0 rest =>
    cases hmc : mergeTrackInterface g with
    | error e => rw [hmc] at hm; exact absurd hm (by simp [excIsOk])
    | ok tc => exact ⟨_, rfl⟩

theorem updateGroupStep_ok (n : Str) (d : Nat) (st : UpdateResult)
    (g : GroupCfg) (h : wfGroup g = true) :
    ∃ st2, updateGroupStep n d st g = .ok st2 := by
  unfold wfGroup at h
  simp only [Bool.and_eq_true, Bool.or_eq_true] at h
  obtain ⟨hva, hd⟩ := h
  unfold updateGroupStep
  cases hvc : g.virtualAddress with
  | nil => rw [hvc] at hva; simp at hva
  | cons a0 rest =>
    simp only []
    by_cases hdis : g.disable
    · simp [hdis]
    · have hmok : excIsOk (mergeTrackInterface g) = true := by
        rcases hd with h1 | h2
        · exact absurd h1 hdis
        · exact h2
      have hva2 : g.virtualAddress ≠ [] := by rw [hvc]; simp
      simp only [hdis, Bool.false_eq_true, if_false]
      by_cases hrfc : g.rfcCompat
      · simp only [hrfc, if_true]
        obtain ⟨ls, hls⟩ :=
          mkVrrpGroupLines_ok n d g ((st.rfcCount + 1 : Nat) : Int) hva2 hmok
        rw [hls]
        cases g.syncGroup <;> simp
      · simp only [hrfc, Bool.false_eq_true, if_false]
        obtain ⟨ls, hls⟩ := mkVrrpGroupLines_ok n d g (-1) hva2 hmok
        rw [hls]
        cases g.syncGroup <;> simp

theorem groupsFold_ok (n : Str) (d : Nat) (gs : List GroupCfg)
    (h : gs.all wfGroup = true) :
    ∀ st, ∃ st2, gs.foldlM (updateGroupStep n d) st = .ok st2 := by
  induction gs with
  | nil => intro st; exact ⟨st, rfl⟩
  | cons g rest ih =>
    intro st
    simp only [List.all_cons, Bool.and_eq_true] at h
    obtain ⟨st2, hst2⟩ := updateGroupStep_ok n d st g h.1
    obtain ⟨st3, hst3⟩ := ih h.2 st2
    refine ⟨st3, ?_⟩
    rw [List.foldlM_cons, hst2, exc_bind_ok, hst3]

theorem updateIntfStep_ok (st : UpdateResult) (i : IntfCfg)
    (h : wfIntf i = true) :
    ∃ st2, updateIntfStep st i = .ok (st2, true) := by
  unfold wfIntf at h
  simp only [Bool.and_eq_true] at h
  obtain ⟨hvif, hrest⟩ := h
  have hnone : i.vif = none := Option.isNone_iff_eq_none.1 hvif
  unfold updateIntfStep
  rw [hnone]
  simp only [Option.isSome_none, Bool.false_eq_true, if_false]
  · cases hvr : i.vrrp with
    | none => rw [hvr] at hrest; simp at hrest
    | some vc =>
      rw [hvr] at hrest
      simp only [Bool.and_eq_true] at hrest
      simp only []
      rw [if_neg (by simpa [List.isEmpty_iff] using hrest.1)]
      obtain ⟨st2, hst2⟩ := groupsFold_ok i.tagnode vc.startDelay vc.groups hrest.2 st
      refine ⟨st2, ?_⟩
      rw [hst2]
      rfl

theorem updateBucket_ok (l : List IntfCfg) (h : ∀ i ∈ l, wfIntf i = true) :
    ∀ st, ∃ st2, updateBucket st l = .ok st2 := by
  induction l with
  | nil => intro st; exact ⟨st, rfl⟩
  | cons i rest ih =>
    intro st
    obtain ⟨st2, h2⟩ := updateIntfStep_ok st i (h i (List.mem_cons_self _ _))
    obtain ⟨st3, h3⟩ := ih (fun j hj => h j (List.mem_cons_of_mem _ hj)) st2
    refine ⟨st3, ?_⟩
    unfold updateBucket
    rw [h2, exc_bind_ok]
    simpa using h3

theorem updateIntfStep_vif_error (st : UpdateResult) (v : IntfCfg)
    (hv : v.vif.isSome = true) :
    updateIntfStep st v =
      .error ("ValueError: VIF interfaces should not be present under another interface".data) := by
  unfold updateIntfStep
  rw [if_pos hv]

theorem updateBucket_vif_error (pre : List IntfCfg) (v : IntfCfg)
    (post : List IntfCfg) (hpre : ∀ i ∈ pre, wfIntf i = true)
    (hv : v.vif.isSome = true) :
    ∀ st, updateBucket st (pre ++ v :: post) =
      .error ("ValueError: VIF interfaces should not be present under another interface".data) := by
  induction pre with
  | nil =>
    intro st
    simp only [List.nil_append]
    unfold updateBucket
    rw [updateIntfStep_vif_error st v hv]
    rfl
  | cons i rest ih =>
    intro st
    obtain ⟨st2, h2⟩ := updateIntfStep_ok st i (hpre i (List.mem_cons_self _ _))
    simp only [List.cons_append]
    unfold updateBucket
    rw [h2, exc_bind_ok]
    simpa using ih (fun j hj => hpre j (List.mem_cons_of_mem _ hj)) st2

/-- C4 (amended): an interface entry with a nested `vif` sequence under
any interface-type bucket makes `KeepalivedConfig.update` raise the
structural `ValueError` — no output is produced and the entry is never
relocated — provided the entry is actually reached: every bucket before
its own, and every interface before it in its own bucket, processes
cleanly (in particular none of the earlier interfaces carries an empty
`vrrp-group` list, whose `break` would end the bucket first). -/
theorem vif_under_bucket_value_error (preB postB : InterfaceTree)
    (bname : Str) (pre post : List IntfCfg) (v : IntfCfg)
    (hpreB : ∀ b ∈ preB, ∀ i ∈ b.2, wfIntf i = true)
    (hpre : ∀ i ∈ pre, wfIntf i = true) (hv : v.vif.isSome = true) :
    updateConfig (some (preB ++ (bname, pre ++ v :: post) :: postB)) =
      .error ("ValueError: VIF interfaces should not be present under another interface".data) := by
  unfold updateConfig
  have main : ∀ st, (preB ++ (bname, pre ++ v :: post) :: postB).foldlM
      (fun st bucket => updateBucket st bucket.2) st =
      .error ("ValueError: VIF interfaces should not be present under another interface".data) := by
    induction preB with
    | nil =>
      intro st
      simp only [List.nil_append, List.foldlM_cons]
      rw [updateBucket_vif_error pre v post hpre hv st]
      rfl
    | cons b restB ih =>
      intro st
      simp only [List.cons_append, List.foldlM_cons]
      obtain ⟨st2, h2⟩ := updateBucket_ok b.2
        (hpreB b (List.mem_cons_self _ _)) st
      rw [h2, exc_bind_ok]
      exact ih (fun b2 hb2 => hpreB b2 (List.mem_cons_of_mem _ hb2)) st2
  exact main emptyUpdateResult

/-- A minimal processable VRRP group used in concrete inputs. -/
def cfgSimple : GroupCfg :=
  { tagnode := 1, version := 2, accept := false, preempt := true,
    virtualAddress := [("10.10.1.100/25".data)] }

/-- An interface whose `vrrp-group` list is empty. -/
def intfC4a : IntfCfg :=
  { tagnode := ("dp0p1s1".data), vrrp := some ⟨0, []⟩ }

/-- An interface carrying a nested `vif` entry. -/
def intfC4b : IntfCfg :=
  { tagnode := ("dp0p1s2".data), vrrp := some ⟨0, [cfgSimple]⟩,
    vif := some [ ⟨("10".data), some ⟨0, [cfgSimple]⟩⟩ ] }

/-- The C4 counterexample tree: in the dataplane bucket an empty-group
interface precedes the vif-carrying one. -/
def treeC4 : InterfaceTree :=
  [ (("vyatta-interfaces-dataplane-v1:dataplane".data), [intfC4a, intfC4b]) ]

/-- C4 counterexample: on `treeC4` the vif entry sits under the non-vif
dataplane bucket, yet `update` returns successfully with no instances —
the preceding empty-group interface breaks out of the bucket before the
vif check is reached, so the entry is silently skipped rather than
rejected. -/
theorem vif_after_empty_group_not_detected :
    updateConfig (some treeC4) = .ok emptyUpdateResult ∧
    intfC4b.vif.isSome = true ∧
    ("vyatta-interfaces-dataplane-v1:dataplane".data) ≠ ("vif".data) :=
  ⟨rfl, rfl, by decide⟩

/-- A processable interface used in concrete inputs. -/
def intfGood : IntfCfg :=
  { tagnode := ("dp0p2s1".data), vrrp := some ⟨0, [cfgSimple]⟩ }

theorem vif_under_bucket_value_error_witness :
    updateConfig (some ([(("vyatta-interfaces-bonding-v1:bonding".data), [intfGood])] ++
        (("vyatta-interfaces-dataplane-v1:dataplane".data),
          [intfGood] ++ intfC4b :: []) :: [])) =
      .error ("ValueError: VIF interfaces should not be present under another interface".data) :=
  vif_under_bucket_value_error
    [(("vyatta-interfaces-bonding-v1:bonding".data), [intfGood])] []
    (("vyatta-interfaces-dataplane-v1:dataplane".data)) [intfGood] [] intfC4b
    (by decide) (by decide) (by decide)

theorem updateIntfStep_break (st : UpdateResult) (e : IntfCfg)
    (vc : VrrpIntfCfg) (hev : e.vif = none) (her : e.vrrp = some vc)
    (heg : vc.groups = []) : updateIntfStep st e = .ok (st, false) := by
  unfold updateIntfStep
  rw [hev]
  simp only [Option.isSome_none, Bool.false_eq_true, if_false]
  rw [her]
  simp [heg]

theorem updateBucket_break (pre post : List IntfCfg) (e : IntfCfg)
    (vc : VrrpIntfCfg) (hpre : ∀ i ∈ pre, wfIntf i = true)
    (hev : e.vif = none) (her : e.vrrp = some vc) (heg : vc.groups = []) :
    ∀ st, updateBucket st (pre ++ e :: post) = updateBucket st pre := by
  induction pre with
  | nil =>
    intro st
    simp only [List.nil_append]
    unfold updateBucket
    rw [updateIntfStep_break st e vc hev her heg]
    rfl
  | cons i rest ih =>
    intro st
    obtain ⟨st2, h2⟩ := updateIntfStep_ok st i (hpre i (List.mem_cons_self _ _))
    simp only [List.cons_append]
    unfold updateBucket
    rw [h2, exc_bind_ok]
    simpa using ih (fun j hj => hpre j (List.mem_cons_of_mem _ hj)) st2

/-- C10: in `KeepalivedConfig.update`, an interface with an empty
`vrrp-group` list stops the processing of its whole interface-type
bucket (a `break`): no instances or connections are created for any
later interface of that bucket, while other buckets are unaffected; by
contrast a group carrying `disable` is skipped individually (`continue`)
and the remaining groups of the same interface are still translated. -/
theorem empty_group_list_breaks_bucket (bname : Str) (pre post : List IntfCfg)
    (e : IntfCfg) (vc : VrrpIntfCfg) (rest : InterfaceTree)
    (st : UpdateResult) (n : Str) (d : Nat) (g : GroupCfg)
    (gs : List GroupCfg)
    (hpre : ∀ i ∈ pre, wfIntf i = true)
    (hev : e.vif = none) (her : e.vrrp = some vc) (heg : vc.groups = [])
    (hdis : g.disable = true) (hga : g.virtualAddress ≠ []) :
    updateBucket st (pre ++ e :: post) = updateBucket st pre ∧
    updateConfig (some ((bname, pre ++ e :: post) :: rest)) =
      updateConfig (some ((bname, pre) :: rest)) ∧
    (g :: gs).foldlM (updateGroupStep n d) st =
      gs.foldlM (updateGroupStep n d) st := by
  refine ⟨updateBucket_break pre post e vc hpre hev her heg st, ?_, ?_⟩
  · unfold updateConfig
    simp only [List.foldlM_cons]
    rw [updateBucket_break pre post e vc hpre hev her heg emptyUpdateResult]
  · rw [List.foldlM_cons]
    have hstep : updateGroupStep n d st g = .ok st := by
      unfold updateGroupStep
      cases hvc : g.virtualAddress with
      | nil => exact absurd hvc hga
      | cons a0 r2 => simp [hdis]
    rw [hstep, exc_bind_ok]

theorem empty_group_list_breaks_bucket_witness :
    updateBucket emptyUpdateResult ([intfGood] ++ intfC4a :: [intfGood]) =
      updateBucket emptyUpdateResult [intfGood] ∧
    updateConfig (some ((("vyatta-interfaces-dataplane-v1:dataplane".data),
        [intfGood] ++ intfC4a :: [intfGood]) ::
        [(("vyatta-interfaces-bonding-v1:bonding".data), [intfGood])])) =
      updateConfig (some ((("vyatta-interfaces-dataplane-v1:dataplane".data),
        [intfGood]) ::
        [(("vyatta-interfaces-bonding-v1:bonding".data), [intfGood])])) ∧
    ({ cfgSimple with disable := true } :: [cfgSimple]).foldlM
        (updateGroupStep ("dp0p1s1".data) 0) emptyUpdateResult =
      [cfgSimple].foldlM (updateGroupStep ("dp0p1s1".data) 0) emptyUpdateResult :=
  empty_group_list_breaks_bucket
    (("vyatta-interfaces-dataplane-v1:dataplane".data)) [intfGood] [intfGood]
    intfC4a ⟨0, []⟩ [(("vyatta-interfaces-bonding-v1:bonding".data), [intfGood])]
    emptyUpdateResult ("dp0p1s1".data) 0 { cfgSimple with disable := true }
    [cfgSimple] (by decide) rfl rfl rfl rfl (by decide)

theorem insertLe_perm {α : Type} (le : α → α → Bool) (a : α) (l : List α) :
    List.Perm (insertLe le a l) (a :: l) := by
  induction l with
  | nil => exact List.Perm.refl _
  | cons b bs ih =>
    unfold insertLe
    by_cases h : le a b
    · rw [if_pos h]
    · rw [if_neg h]
      exact (List.Perm.cons b ih).trans (List.Perm.swap a b bs)

theorem insSort_perm {α : Type} (le : α → α → Bool) (l : List α) :
    List.Perm (insSort le l) l := by
  induction l with
  | nil => exact List.Perm.refl _
  | cons a as ih =>
    exact (insertLe_perm le a (insSort le as)).trans (List.Perm.cons a ih)

/-- The keys of a dict, `d.keys()`. -/
abbrev dictKeys (d : YDict) : List Str := d.map Prod.fst

theorem dictGet_none_iff (d : YDict) (k : Str) :
    dictGet d k = none ↔ k ∉ dictKeys d := by
  induction d with
  | nil => simp [dictGet, dictKeys]
  | cons p rest ih =>
    unfold dictGet
    by_cases h : p.1 = k
    · simp [h, dictKeys]
    · simp only [if_neg h, ih, dictKeys, List.map_cons, List.mem_cons]
      constructor
      · rintro hk (h1 | h2)
        · exact h h1.symm
        · exact hk h2
      · intro hk h2
        exact hk (Or.inr h2)

theorem dictGet_some_mem (d : YDict) (k : Str) (v : YVal)
    (h : dictGet d k = some v) : (k, v) ∈ d := by
  induction d with
  | nil => cases h
  | cons p rest ih =>
    unfold dictGet at h
    by_cases hk : p.1 = k
    · rw [if_pos hk] at h
      have hv := Option.some.inj h
      obtain ⟨p1, p2⟩ := p
      replace hk : p1 = k := hk
      replace hv : p2 = v := hv
      subst hk
      subst hv
      exact List.mem_cons_self _ _
    · rw [if_neg hk] at h
      exact List.mem_cons_of_mem _ (ih h)

theorem mem_dictGet (d : YDict) (k : Str) (v : YVal)
    (hn : (dictKeys d).Nodup) (h : (k, v) ∈ d) : dictGet d k = some v := by
  induction d with
  | nil => cases h
  | cons p rest ih =>
    rcases List.mem_cons.1 h with h1 | h2
    · obtain ⟨p1, p2⟩ := p
      have h1a : k = p1 := congrArg Prod.fst h1
      have h1b : v = p2 := congrArg Prod.snd h1
      subst h1a
      subst h1b
      unfold dictGet
      rw [if_pos rfl]
    · unfold dictGet
      have hn2 : (p.1 :: dictKeys rest).Nodup := by simpa using hn
      by_cases hk : p.1 = k
      · exfalso
        have hkm : k ∈ dictKeys rest := by
          simpa using List.mem_map_of_mem Prod.fst h2
        have hnot := (List.nodup_cons.1 hn2).1
        rw [hk] at hnot
        exact hnot hkm
      · rw [if_neg hk]
        exact ih (List.nodup_cons.1 hn2).2 h2

theorem dictGet_perm (d d2 : YDict) (k : Str) (hp : List.Perm d d2)
    (hn : (dictKeys d).Nodup) : dictGet d k = dictGet d2 k := by
  have hn2 : (dictKeys d2).Nodup := by
    unfold dictKeys
    exact (hp.map Prod.fst).nodup_iff.1 (by simpa [dictKeys] using hn)
  cases h : dictGet d k with
  | none =>
    have hk := (dictGet_none_iff d k).1 h
    have hk2 : k ∉ dictKeys d2 := fun hm =>
      hk ((hp.map Prod.fst).mem_iff.2 (by simpa [dictKeys] using hm))
    exact ((dictGet_none_iff d2 k).2 hk2).symm
  | some v =>
    have hm := dictGet_some_mem d k v h
    exact (mem_dictGet d2 k v hn2 (hp.mem_iff.1 hm)).symm

theorem sortKeys_dictGet (d : YDict) (k : Str)
    (hn : (dictKeys d).Nodup) : dictGet (sortKeys d) k = dictGet d k := by
  have hp : List.Perm (sortKeys d) d := insSort_perm _ d
  have hn2 : (dictKeys (sortKeys d)).Nodup := by
    unfold dictKeys
    exact (hp.map Prod.fst).nodup_iff.2 (by simpa [dictKeys] using hn)
  exact dictGet_perm (sortKeys d) d k hp hn2

theorem dictGet_dictSet_same (d : YDict) (k : Str) (v : YVal) :
    dictGet (dictSet d k v) k = some v := by
  induction d with
  | nil => simp [dictSet, dictGet]
  | cons p rest ih =>
    unfold dictSet
    by_cases h : p.1 = k
    · rw [if_pos h]
      unfold dictGet
      rw [if_pos h]
    · rw [if_neg h]
      unfold dictGet
      rw [if_neg h]
      exact ih

theorem dictGet_dictSet_ne (d : YDict) (k k2 : Str) (v : YVal)
    (h : k2 ≠ k) : dictGet (dictSet d k v) k2 = dictGet d k2 := by
  induction d with
  | nil =>
    unfold dictSet dictGet
    rw [if_neg (fun he => h he.symm)]
    rfl
  | cons p rest ih =>
    unfold dictSet
    by_cases hp : p.1 = k
    · rw [if_pos hp]
      unfold dictGet
      rw [if_neg (by rw [hp]; exact fun he => h he.symm),
        if_neg (by rw [hp]; exact fun he => h he.symm)]
    · rw [if_neg hp]
      unfold dictGet
      by_cases hp2 : p.1 = k2
      · rw [if_pos hp2, if_pos hp2]
      · rw [if_neg hp2, if_neg hp2]
        exact ih

theorem dictGet_cons (a : Str) (b : YVal) (rest : YDict) (k : Str) :
    dictGet ((a, b) :: rest) k = if a = k then some b else dictGet rest k := rfl

theorem dictGet_dictDel_ne (d : YDict) (k k2 : Str) (h : k2 ≠ k) :
    dictGet (dictDel d k) k2 = dictGet d k2 := by
  induction d with
  | nil => rfl
  | cons p rest ih =>
    obtain ⟨p1, p2⟩ := p
    unfold dictDel
    simp only [List.filter_cons]
    by_cases hp : p1 = k
    · have hb : (!((p1, p2).1 == k)) = false := by simp [hp]
      rw [hb]
      simp only [Bool.false_eq_true, if_false]
      show dictGet (dictDel rest k) k2 = dictGet ((p1, p2) :: rest) k2
      rw [ih, dictGet_cons, if_neg (by rw [hp]; exact fun he => h he.symm)]
    · have hb : (!((p1, p2).1 == k)) = true := by simpa using hp
      rw [hb, if_pos rfl]
      show dictGet ((p1, p2) :: dictDel rest k) k2 = dictGet ((p1, p2) :: rest) k2
      rw [dictGet_cons, dictGet_cons]
      by_cases hp2 : p1 = k2
      · rw [if_pos hp2, if_pos hp2]
      · rw [if_neg hp2, if_neg hp2, ih]

theorem dictGet_filter_kept (d : YDict) (k : Str) (v : YVal)
    (p : Str × YVal → Bool) (hn : (dictKeys d).Nodup)
    (h : dictGet d k = some v) (hv : p (k, v) = true) :
    dictGet (d.filter p) k = some v := by
  have hm : (k, v) ∈ d.filter p := List.mem_filter.2 ⟨dictGet_some_mem d k v h, hv⟩
  have hn2 : (dictKeys (d.filter p)).Nodup := by
    unfold dictKeys
    exact List.Nodup.sublist ((List.filter_sublist d).map Prod.fst)
      (by simpa [dictKeys] using hn)
  exact mem_dictGet _ k v hn2 hm

theorem dictGet_filter_dropped (d : YDict) (k : Str)
    (p : Str × YVal → Bool) (hn : (dictKeys d).Nodup)
    (h : ∀ v, dictGet d k = some v → p (k, v) = false) :
    dictGet (d.filter p) k = none := by
  rw [dictGet_none_iff]
  intro hm
  rcases List.mem_map.1 hm with ⟨q, hq, hq1⟩
  have hqd := List.mem_filter.1 hq
  obtain ⟨q1, q2⟩ := q
  cases hq1
  have := mem_dictGet d _ q2 hn hqd.1
  have hfalse := h q2 this
  rw [hqd.2] at hfalse
  cases hfalse

theorem dictGet_filter_none (d : YDict) (k : Str) (p : Str × YVal → Bool)
    (h : dictGet d k = none) : dictGet (d.filter p) k = none := by
  rw [dictGet_none_iff] at h ⊢
  intro hm
  rcases List.mem_map.1 hm with ⟨q, hq, hq1⟩
  exact h (hq1 ▸ List.mem_map_of_mem Prod.fst (List.mem_filter.1 hq).1)

theorem dictGet_dictDel_same (d : YDict) (k : Str) :
    dictGet (dictDel d k) k = none := by
  unfold dictDel
  rw [dictGet_none_iff]
  intro hm
  rcases List.mem_map.1 hm with ⟨q, hq, hq1⟩
  have h2 := (List.mem_filter.1 hq).2
  rw [hq1] at h2
  simp at h2

theorem mem_dictKeys_dictSet (d : YDict) (k a : Str) (v : YVal) :
    a ∈ dictKeys (dictSet d k v) → a ∈ dictKeys d ∨ a = k := by
  induction d with
  | nil =>
    intro h
    right
    simpa [dictSet] using h
  | cons p rest ih =>
    intro h
    obtain ⟨p1, p2⟩ := p
    unfold dictSet at h
    by_cases hp : p1 = k
    · rw [if_pos hp] at h
      simp only [dictKeys, List.map_cons, List.mem_cons] at h ⊢
      rcases h with h1 | h2
      · exact Or.inl (Or.inl h1)
      · exact Or.inl (Or.inr h2)
    · rw [if_neg hp] at h
      simp only [dictKeys, List.map_cons, List.mem_cons] at h ⊢
      rcases h with h1 | h2
      · exact Or.inl (Or.inl h1)
      · rcases ih h2 with h3 | h3
        · exact Or.inl (Or.inr h3)
        · exact Or.inr h3

theorem nodup_dictKeys_dictSet (d : YDict) (k : Str) (v : YVal) :
    (dictKeys d).Nodup → (dictKeys (dictSet d k v)).Nodup := by
  induction d with
  | nil =>
    intro _
    simp [dictSet, dictKeys]
  | cons p rest ih =>
    intro hn
    obtain ⟨p1, p2⟩ := p
    have hn2 : (p1 :: dictKeys rest).Nodup := by simpa using hn
    have hh := List.nodup_cons.1 hn2
    unfold dictSet
    by_cases hp : p1 = k
    · rw [if_pos hp]
      simpa using hn2
    · rw [if_neg hp]
      simp only [dictKeys, List.map_cons]
      refine List.nodup_cons.2 ⟨?_, ih hh.2⟩
      intro hm
      rcases mem_dictKeys_dictSet rest k p1 v hm with h3 | h3
      · exact hh.1 h3
      · exact hp h3

theorem nodup_dictKeys_filter (d : YDict) (p : Str × YVal → Bool)
    (hn : (dictKeys d).Nodup) : (dictKeys (d.filter p)).Nodup :=
  List.Nodup.sublist ((List.filter_sublist d).map Prod.fst) hn

theorem nodup_dictKeys_dictDel (d : YDict) (k : Str)
    (hn : (dictKeys d).Nodup) : (dictKeys (dictDel d k)).Nodup :=
  nodup_dictKeys_filter d _ hn

theorem dictKeys_configDictInit (block : List Str) :
    dictKeys (configDictInit block) = configKeyTable.map Prod.fst := rfl

theorem nodup_configKeys : (configKeyTable.map Prod.fst).Nodup := by decide

theorem configDictInit_get (block : List Str) (key term : Str)
    (hmem : (key, term) ∈ configKeyTable) :
    dictGet (configDictInit block) key = some (configFieldVal block key term) := by
  have hm2 : (key, configFieldVal block key term) ∈ configDictInit block := by
    have h3 := List.mem_map_of_mem
      (fun p : Str × Str => (p.1, configFieldVal block p.1 p.2)) hmem
    simpa [configDictInit] using h3
  have hn : (dictKeys (configDictInit block)).Nodup := by
    rw [dictKeys_configDictInit]
    exact nodup_configKeys
  exact mem_dictGet _ key _ hn hm2

theorem configDictInit_get_none (block : List Str) (key : Str)
    (hmem : key ∉ configKeyTable.map Prod.fst) :
    dictGet (configDictInit block) key = none := by
  rw [dictGet_none_iff, dictKeys_configDictInit]
  exact hmem

theorem elideAdvert_cases (d : YDict) :
    elideAdvertDefault d = d ∨
      elideAdvertDefault d = dictDel d ("advertise-interval".data) := by
  unfold elideAdvertDefault
  split
  · exact Or.inr rfl
  · exact Or.inl rfl

theorem elidePriority_cases (d : YDict) :
    elidePriorityDefault d = d ∨
      elidePriorityDefault d = dictDel d ("priority".data) := by
  unfold elidePriorityDefault
  split
  · exact Or.inr rfl
  · exact Or.inl rfl

theorem elideAdvert_get_ne (d : YDict) (k : Str)
    (h : k ≠ ("advertise-interval".data)) :
    dictGet (elideAdvertDefault d) k = dictGet d k := by
  rcases elideAdvert_cases d with he | he <;> rw [he]
  exact dictGet_dictDel_ne d _ k h

theorem elidePriority_get_ne (d : YDict) (k : Str)
    (h : k ≠ ("priority".data)) :
    dictGet (elidePriorityDefault d) k = dictGet d k := by
  rcases elidePriority_cases d with he | he <;> rw [he]
  exact dictGet_dictDel_ne d _ k h

theorem elideAdvert_get_nf (d : YDict)
    (h : dictGet d ("advertise-interval".data) = some (.s ("NOTFOUND".data))) :
    dictGet (elideAdvertDefault d) ("advertise-interval".data) =
      some (.s ("NOTFOUND".data)) := by
  unfold elideAdvertDefault
  rw [h]
  exact h

theorem elidePriority_get_nf (d : YDict)
    (h : dictGet d ("priority".data) = some (.s ("NOTFOUND".data))) :
    dictGet (elidePriorityDefault d) ("priority".data) =
      some (.s ("NOTFOUND".data)) := by
  unfold elidePriorityDefault
  rw [h]
  exact h

theorem elideAdvert_get_of_nf (d : YDict) (k : Str)
    (h : dictGet d k = some (.s ("NOTFOUND".data))) :
    dictGet (elideAdvertDefault d) k = some (.s ("NOTFOUND".data)) := by
  by_cases hk : k = ("advertise-interval".data)
  · subst hk
    exact elideAdvert_get_nf d h
  · rw [elideAdvert_get_ne d k hk]
    exact h

theorem elidePriority_get_of_nf (d : YDict) (k : Str)
    (h : dictGet d k = some (.s ("NOTFOUND".data))) :
    dictGet (elidePriorityDefault d) k = some (.s ("NOTFOUND".data)) := by
  by_cases hk : k = ("priority".data)
  · subst hk
    exact elidePriority_get_nf d h
  · rw [elidePriority_get_ne d k hk]
    exact h

theorem nodup_elideAdvert (d : YDict) (hn : (dictKeys d).Nodup) :
    (dictKeys (elideAdvertDefault d)).Nodup := by
  rcases elideAdvert_cases d with he | he <;> rw [he]
  · exact hn
  · exact nodup_dictKeys_dictDel d _ hn

theorem nodup_elidePriority (d : YDict) (hn : (dictKeys d).Nodup) :
    (dictKeys (elidePriorityDefault d)).Nodup := by
  rcases elidePriority_cases d with he | he <;> rw [he]
  · exact hn
  · exact nodup_dictKeys_dictDel d _ hn

theorem convertAuth_cases (block : List Str) (d : YDict) :
    convertAuthenticationConfig block d = d ∨
      ∃ sub, convertAuthenticationConfig block d =
        dictSet d ("authentication".data) (.d sub) := by
  unfold convertAuthenticationConfig
  dsimp only
  repeat' split
  all_goals first
    | exact Or.inl rfl
    | exact Or.inr ⟨_, rfl⟩

theorem nodup_convertAuth (block : List Str) (d : YDict)
    (hn : (dictKeys d).Nodup) :
    (dictKeys (convertAuthenticationConfig block d)).Nodup := by
  rcases convertAuth_cases block d with he | ⟨sub, he⟩ <;> rw [he]
  · exact hn
  · exact nodup_dictKeys_dictSet d _ _ hn

theorem convertAuth_get_ne (block : List Str) (d : YDict) (k : Str)
    (h : k ≠ ("authentication".data)) :
    dictGet (convertAuthenticationConfig block d) k = dictGet d k := by
  rcases convertAuth_cases block d with he | ⟨sub, he⟩ <;> rw [he]
  exact dictGet_dictSet_ne d _ k _ (fun he2 => h he2)

theorem versionBranch_get_ne (block : List Str) (d3 d4 : YDict) (k : Str)
    (h : versionBranch block d3 = .ok d4)
    (h1 : k ≠ ("authentication".data))
    (h2 : k ≠ ("fast-advertise-interval".data))
    (h3 : k ≠ ("advertise-interval".data)) :
    dictGet d4 k = dictGet d3 k := by
  unfold versionBranch at h
  split at h
  · obtain rfl := Except.ok.inj h
    exact convertAuth_get_ne block d3 k h1
  · split at h
    · obtain rfl := Except.ok.inj h
      rfl
    · cases haf : advertToFast _ with
      | error e =>
        rw [haf, exc_bind_err] at h
        cases h
      | ok f =>
        rw [haf, exc_bind_ok] at h
        obtain rfl := Except.ok.inj h
        rw [dictGet_dictDel_ne _ _ k h3, dictGet_dictSet_ne _ _ k _ h2]

theorem versionBranch_ok_nf (block : List Str) (d3 d4 : YDict)
    (h : versionBranch block d3 = .ok d4)
    (hnf : dictGet d3 ("advertise-interval".data) = some (.s ("NOTFOUND".data))) :
    d4 = convertAuthenticationConfig block d3 := by
  unfold versionBranch at h
  split at h
  · exact (Except.ok.inj h).symm
  · split at h
    · exfalso
      rename_i heq
      rw [hnf] at heq
      cases heq
    · rename_i v heq
      rw [hnf] at heq
      obtain rfl := Option.some.inj heq
      have haf : advertToFast (.s ("NOTFOUND".data)) =
          .error ("ValueError: could not convert string to float".data) := rfl
      rw [haf, exc_bind_err] at h
      cases h

theorem nodup_versionBranch (block : List Str) (d3 d4 : YDict)
    (h : versionBranch block d3 = .ok d4)
    (hn : (dictKeys d3).Nodup) : (dictKeys d4).Nodup := by
  unfold versionBranch at h
  split at h
  · obtain rfl := Except.ok.inj h
    exact nodup_convertAuth block d3 hn
  · split at h
    · obtain rfl := Except.ok.inj h
      exact hn
    · cases haf : advertToFast _ with
      | error e =>
        rw [haf, exc_bind_err] at h
        cases h
      | ok f =>
        rw [haf, exc_bind_ok] at h
        obtain rfl := Except.ok.inj h
        exact nodup_dictKeys_dictDel _ _ (nodup_dictKeys_dictSet d3 _ _ hn)

theorem convertTracking_cases (block : List Str) (d : YDict) (i : Str)
    (d2 : YDict) (h : convertTrackingConfig block d i = .ok d2) :
    d2 = d ∨ ∃ sub, d2 = dictSet d ("track".data) (.d sub) := by
  unfold convertTrackingConfig at h
  split at h
  · exact Or.inl (Except.ok.inj h).symm
  · cases hifl : convertInterfaceTracking block _ with
    | error e =>
      rw [hifl, exc_bind_err] at h
      cases h
    | ok ifl =>
      rw [hifl, exc_bind_ok] at h
      cases hie : intfNameToType i with
      | error e =>
        rw [hie, exc_bind_err] at h
        cases h
      | ok ie =>
        rw [hie, exc_bind_ok] at h
        cases hpm : convertPathmonTracking block _ with
        | error e =>
          rw [hpm, exc_bind_err] at h
          cases h
        | ok pms =>
          rw [hpm, exc_bind_ok] at h
          cases hrt : convertRouteTracking block _ with
          | error e =>
            rw [hrt, exc_bind_err] at h
            cases h
          | ok rts =>
            rw [hrt, exc_bind_ok] at h
            exact Or.inr ⟨_, (Except.ok.inj h).symm⟩

theorem convertNotify_cases (block : List Str) (d d2 : YDict)
    (h : convertNotifyProtoConfig block d = .ok d2) :
    d2 = d ∨ ∃ sub, d2 = dictSet d ("notify".data) (.d sub) := by
  unfold convertNotifyProtoConfig at h
  split at h
  · exact Or.inl (Except.ok.inj h).symm
  · split at h
    · cases h
    · exact Or.inr ⟨_, (Except.ok.inj h).symm⟩

theorem convertYang_ok_shape (block : List Str) (d : YDict)
    (hok : convertKeepalivedConfigToYang block = .ok d)
    (hint : ∃ s, findConfigValue block ("interface".data) = .scalar s) :
    ∃ (vips : List Str) (d4 d5 d6 : YDict) (iname : Str),
      versionBranch block
        (dictSet (elidePriorityDefault (elideAdvertDefault (configDictInit block)))
          ("virtual-address".data) (.arr (vips.map YVal.s))) = .ok d4 ∧
      convertTrackingConfig block d4 iname = .ok d5 ∧
      convertNotifyProtoConfig block d5 = .ok d6 ∧
      d = sortKeys (d6.filter (fun p => !isNotFoundVal p.2)) := by
  obtain ⟨s, hs⟩ := hint
  unfold convertKeepalivedConfigToYang at hok
  by_cases hb : block = []
  · rw [hb] at hs
    simp [findConfigValue] at hs
  · rw [if_neg hb] at hok
    cases hv1 : indexFrom block ("virtual_ipaddress \x7b".data) 0 with
    | none =>
      rw [hv1] at hok
      cases hok
    | some vs =>
      rw [hv1] at hok
      dsimp only at hok
      cases hv2 : indexFrom block ("\x7d".data) vs with
      | none =>
        rw [hv2] at hok
        cases hok
      | some ve =>
        rw [hv2] at hok
        dsimp only at hok
        split at hok
        · cases hok
        · rename_i d4 hvb
          split at hok
          · rename_i iname hintf
            cases h5 : convertTrackingConfig block d4 iname with
            | error e =>
              rw [h5, exc_bind_err] at hok
              cases hok
            | ok d5 =>
              rw [h5, exc_bind_ok] at hok
              cases h6 : convertNotifyProtoConfig block d5 with
              | error e =>
                rw [h6, exc_bind_err] at hok
                cases hok
              | ok d6 =>
                rw [h6, exc_bind_ok] at hok
                exact ⟨_, d4, d5, d6, iname, hvb, h5, h6, (Except.ok.inj hok).symm⟩
          · rename_i hne
            exfalso
            exact hne s hs

theorem nodup_after_tracking (block : List Str) (d4 d5 : YDict) (iname : Str)
    (h5 : convertTrackingConfig block d4 iname = .ok d5)
    (hn : (dictKeys d4).Nodup) : (dictKeys d5).Nodup := by
  rcases convertTracking_cases block d4 iname d5 h5 with he | ⟨sub, he⟩ <;> rw [he]
  · exact hn
  · exact nodup_dictKeys_dictSet d4 _ _ hn

theorem nodup_after_notify (block : List Str) (d5 d6 : YDict)
    (h6 : convertNotifyProtoConfig block d5 = .ok d6)
    (hn : (dictKeys d5).Nodup) : (dictKeys d6).Nodup := by
  rcases convertNotify_cases block d5 d6 h6 with he | ⟨sub, he⟩ <;> rw [he]
  · exact hn
  · exact nodup_dictKeys_dictSet d5 _ _ hn

theorem tracking_get_ne (block : List Str) (d4 d5 : YDict) (iname k : Str)
    (h5 : convertTrackingConfig block d4 iname = .ok d5)
    (hk : k ≠ ("track".data)) : dictGet d5 k = dictGet d4 k := by
  rcases convertTracking_cases block d4 iname d5 h5 with he | ⟨sub, he⟩ <;> rw [he]
  exact dictGet_dictSet_ne d4 _ k _ hk

theorem notify_get_ne (block : List Str) (d5 d6 : YDict) (k : Str)
    (h6 : convertNotifyProtoConfig block d5 = .ok d6)
    (hk : k ≠ ("notify".data)) : dictGet d6 k = dictGet d5 k := by
  rcases convertNotify_cases block d5 d6 h6 with he | ⟨sub, he⟩ <;> rw [he]
  exact dictGet_dictSet_ne d5 _ k _ hk

theorem nodup_d3 (block : List Str) (vips : List Str) :
    (dictKeys (dictSet
      (elidePriorityDefault (elideAdvertDefault (configDictInit block)))
      ("virtual-address".data) (.arr (vips.map YVal.s)))).Nodup := by
  apply nodup_dictKeys_dictSet
  apply nodup_elidePriority
  apply nodup_elideAdvert
  rw [dictKeys_configDictInit]
  exact nodup_configKeys

/-- C8: in `_convert_keepalived_config_to_yang`, when no line of the
block matches the `accept` search term the result maps `accept` to
`False`, when no line matches `preempt` the result maps `preempt` to
`True`, and every other single-line key whose search term is absent
from the block is removed from the result (its `NOTFOUND` marker is
filtered out before the dictionary is returned). -/
theorem absent_fields_default_or_removed (block : List Str) (d : YDict)
    (hok : convertKeepalivedConfigToYang block = .ok d)
    (hint : ∃ s, findConfigValue block ("interface".data) = .scalar s) :
    (findConfigValue block ("accept".data) = .notFound →
      dictGet d ("accept".data) = some (.b false)) ∧
    (findConfigValue block ("preempt".data) = .notFound →
      dictGet d ("preempt".data) = some (.b true)) ∧
    (∀ key term, (key, term) ∈ configKeyTable →
      key ≠ ("accept".data) → key ≠ ("preempt".data) →
      findConfigValue block term = .notFound →
      dictGet d key = none) := by
  obtain ⟨vips, d4, d5, d6, iname, hvb, h5, h6, hd⟩ :=
    convertYang_ok_shape block d hok hint
  subst hd
  have hn3 := nodup_d3 block vips
  have hn4 := nodup_versionBranch block _ d4 hvb hn3
  have hn5 := nodup_after_tracking block d4 d5 iname h5 hn4
  have hn6 := nodup_after_notify block d5 d6 h6 hn5
  have hnF := nodup_dictKeys_filter d6 (fun p => !isNotFoundVal p.2) hn6
  refine ⟨?_, ?_, ?_⟩
  · intro hacc
    have h0 : dictGet (configDictInit block) ("accept".data) =
        some (configFieldVal block ("accept".data) ("accept".data)) :=
      configDictInit_get block _ _ (by decide)
    have hval : configFieldVal block ("accept".data) ("accept".data) =
        .b false := by
      unfold configFieldVal
      rw [hacc]
      rfl
    have hg3 : dictGet (dictSet
        (elidePriorityDefault (elideAdvertDefault (configDictInit block)))
        ("virtual-address".data) (.arr (vips.map YVal.s)))
        ("accept".data) = some (.b false) := by
      rw [dictGet_dictSet_ne _ _ _ _ (by decide),
        elidePriority_get_ne _ _ (by decide),
        elideAdvert_get_ne _ _ (by decide), h0, hval]
    have hg4 : dictGet d4 ("accept".data) = some (.b false) := by
      rw [versionBranch_get_ne block _ d4 _ hvb (by decide) (by decide)
        (by decide)]
      exact hg3
    have hg5 : dictGet d5 ("accept".data) = some (.b false) := by
      rw [tracking_get_ne block d4 d5 iname _ h5 (by decide)]
      exact hg4
    have hg6 : dictGet d6 ("accept".data) = some (.b false) := by
      rw [notify_get_ne block d5 d6 _ h6 (by decide)]
      exact hg5
    have hgF := dictGet_filter_kept d6 ("accept".data) (.b false)
      (fun p => !isNotFoundVal p.2) hn6 hg6 (by decide)
    rw [sortKeys_dictGet _ _ hnF]
    exact hgF
  · intro hpre
    have h0 : dictGet (configDictInit block) ("preempt".data) =
        some (configFieldVal block ("preempt".data) ("preempt".data)) :=
      configDictInit_get block _ _ (by decide)
    have hval : configFieldVal block ("preempt".data) ("preempt".data) =
        .b true := by
      unfold configFieldVal
      rw [hpre]
      rfl
    have hg3 : dictGet (dictSet
        (elidePriorityDefault (elideAdvertDefault (configDictInit block)))
        ("virtual-address".data) (.arr (vips.map YVal.s)))
        ("preempt".data) = some (.b true) := by
      rw [dictGet_dictSet_ne _ _ _ _ (by decide),
        elidePriority_get_ne _ _ (by decide),
        elideAdvert_get_ne _ _ (by decide), h0, hval]
    have hg4 : dictGet d4 ("preempt".data) = some (.b true) := by
      rw [versionBranch_get_ne block _ d4 _ hvb (by decide) (by decide)
        (by decide)]
      exact hg3
    have hg5 : dictGet d5 ("preempt".data) = some (.b true) := by
      rw [tracking_get_ne block d4 d5 iname _ h5 (by decide)]
      exact hg4
    have hg6 : dictGet d6 ("preempt".data) = some (.b true) := by
      rw [notify_get_ne block d5 d6 _ h6 (by decide)]
      exact hg5
    have hgF := dictGet_filter_kept d6 ("preempt".data) (.b true)
      (fun p => !isNotFoundVal p.2) hn6 hg6 (by decide)
    rw [sortKeys_dictGet _ _ hnF]
    exact hgF
  · intro key term hmem hka hkp hnf
    have hval : configFieldVal block key term = .s ("NOTFOUND".data) := by
      unfold configFieldVal
      rw [hnf]
      dsimp only
      rw [if_neg hka, if_neg hkp]
    have h0 : dictGet (configDictInit block) key =
        some (.s ("NOTFOUND".data)) := by
      rw [configDictInit_get block key term hmem, hval]
    have htab : ∀ p ∈ configKeyTable,
        p.1 ∉ [("virtual-address".data), ("authentication".data),
          ("fast-advertise-interval".data), ("track".data),
          ("notify".data)] := by decide
    have hks := htab (key, term) hmem
    simp only [List.mem_cons, List.not_mem_nil, or_false, not_or] at hks
    obtain ⟨hkv, hkauth, hkfast, hktrack, hknotify⟩ := hks
    have hgA := elideAdvert_get_of_nf (configDictInit block) key h0
    have hgP := elidePriority_get_of_nf _ key hgA
    have hg3 : dictGet (dictSet
        (elidePriorityDefault (elideAdvertDefault (configDictInit block)))
        ("virtual-address".data) (.arr (vips.map YVal.s))) key =
        some (.s ("NOTFOUND".data)) := by
      rw [dictGet_dictSet_ne _ _ _ _ hkv]
      exact hgP
    have hg4 : dictGet d4 key = some (.s ("NOTFOUND".data)) := by
      by_cases hadv : key = ("advertise-interval".data)
      · subst hadv
        have hd4 := versionBranch_ok_nf block _ d4 hvb hg3
        rw [hd4, convertAuth_get_ne block _ _ hkauth]
        exact hg3
      · rw [versionBranch_get_ne block _ d4 key hvb hkauth hkfast hadv]
        exact hg3
    have hg5 : dictGet d5 key = some (.s ("NOTFOUND".data)) := by
      rw [tracking_get_ne block d4 d5 iname _ h5 hktrack]
      exact hg4
    have hg6 : dictGet d6 key = some (.s ("NOTFOUND".data)) := by
      rw [notify_get_ne block d5 d6 _ h6 hknotify]
      exact hg5
    have hgF : dictGet (d6.filter (fun p => !isNotFoundVal p.2)) key =
        none := by
      refine dictGet_filter_dropped d6 key _ hn6 ?_
      intro v hv
      have hv2 := hg6.symm.trans hv
      obtain rfl := Option.some.inj hv2
      rfl
    rw [sortKeys_dictGet _ _ hnF]
    exact hgF

/-- A concrete minimal version-2 block: `accept`, `preempt`,
`hello-source-address` (search term `mcast_src_ip`) all absent. -/
def blockC8 : List Str :=
  [ ("vrrp_instance vyatta-dp0p1s1-1 \x7b".data),
    ("interface dp0p1s1".data),
    ("virtual_router_id 5".data),
    ("version 2".data),
    ("virtual_ipaddress \x7b".data),
    ("10.1.1.1/24".data),
    ("\x7d".data),
    ("\x7d".data) ]

/-- The dictionary `blockC8` parses to. -/
def dC8 : YDict :=
  [ (("accept".data), (.b false)),
    (("preempt".data), (.b true)),
    (("tagnode".data), (.n 5)),
    (("version".data), (.n 2)),
    (("virtual-address".data), (.arr [(.s ("10.1.1.1/24".data))])) ]

set_option maxRecDepth 10000 in
theorem absent_fields_default_or_removed_witness :
    dictGet dC8 ("accept".data) = some (.b false) ∧
    dictGet dC8 ("preempt".data) = some (.b true) ∧
    dictGet dC8 ("hello-source-address".data) = none := by
  have h := absent_fields_default_or_removed blockC8 dC8 (by rfl)
    ⟨("dp0p1s1".data), by rfl⟩
  exact ⟨h.1 (by rfl), h.2.1 (by rfl),
    h.2.2 ("hello-source-address".data) ("mcast_src_ip".data)
      (by decide) (by decide) (by decide) (by rfl)⟩

theorem convertTracking_absent (block : List Str) (d : YDict) (i : Str)
    (hm : indexFrom block ("track \x7b".data) 0 = none) :
    convertTrackingConfig block d i = .ok d := by
  unfold convertTrackingConfig
  rw [hm]

theorem convertTracking_present (block : List Str) (d : YDict) (i : Str)
    (d2 : YDict) (cs : Nat)
    (hm : indexFrom block ("track \x7b".data) 0 = some cs)
    (h : convertTrackingConfig block d i = .ok d2) :
    ∃ sub, d2 = dictSet d ("track".data) (.d sub) := by
  unfold convertTrackingConfig at h
  rw [hm] at h
  dsimp only at h
  cases hifl : convertInterfaceTracking block cs with
  | error e =>
    rw [hifl, exc_bind_err] at h
    cases h
  | ok ifl =>
    rw [hifl, exc_bind_ok] at h
    cases hie : intfNameToType i with
    | error e =>
      rw [hie, exc_bind_err] at h
      cases h
    | ok ie =>
      rw [hie, exc_bind_ok] at h
      cases hpm : convertPathmonTracking block cs with
      | error e =>
        rw [hpm, exc_bind_err] at h
        cases h
      | ok pms =>
        rw [hpm, exc_bind_ok] at h
        cases hrt : convertRouteTracking block cs with
        | error e =>
          rw [hrt, exc_bind_err] at h
          cases h
        | ok rts =>
          rw [hrt, exc_bind_ok] at h
          exact ⟨_, (Except.ok.inj h).symm⟩

theorem convertNotify_absent (block : List Str) (d : YDict)
    (hm : indexFrom block ("notify \x7b".data) 0 = none) :
    convertNotifyProtoConfig block d = .ok d := by
  unfold convertNotifyProtoConfig
  rw [hm]

theorem convertNotify_present (block : List Str) (d d2 : YDict) (cs : Nat)
    (hm : indexFrom block ("notify \x7b".data) 0 = some cs)
    (h : convertNotifyProtoConfig block d = .ok d2) :
    ∃ sub, d2 = dictSet d ("notify".data) (.d sub) := by
  unfold convertNotifyProtoConfig at h
  rw [hm] at h
  dsimp only at h
  cases hce : indexFrom block ("\x7d".data) cs with
  | none =>
    rw [hce] at h
    cases h
  | some ce =>
    rw [hce] at h
    exact ⟨_, (Except.ok.inj h).symm⟩

theorem versionBranch_v2 (block : List Str) (d3 d4 : YDict)
    (h : versionBranch block d3 = .ok d4)
    (hv : dictGet d3 ("version".data) = some (.n 2)) :
    d4 = convertAuthenticationConfig block d3 := by
  unfold versionBranch at h
  rw [hv] at h
  exact (Except.ok.inj h).symm

theorem versionBranch_auth_not2 (block : List Str) (d3 d4 : YDict) (v : YVal)
    (h : versionBranch block d3 = .ok d4)
    (hv : dictGet d3 ("version".data) = some v) (hne : v ≠ .n 2) :
    dictGet d4 ("authentication".data) = dictGet d3 ("authentication".data) := by
  unfold versionBranch at h
  split at h
  · rename_i heq
    rw [hv] at heq
    exact absurd (Option.some.inj heq) hne
  · split at h
    · obtain rfl := Except.ok.inj h
      rfl
    · cases haf : advertToFast _ with
      | error e =>
        rw [haf, exc_bind_err] at h
        cases h
      | ok f =>
        rw [haf, exc_bind_ok] at h
        obtain rfl := Except.ok.inj h
        rw [dictGet_dictDel_ne _ _ _ (by decide),
          dictGet_dictSet_ne _ _ _ _ (by decide)]

theorem convertAuth_present (block : List Str) (d : YDict) (i : Nat)
    (tv pw : Str)
    (hm : indexFrom block ("authentication \x7b".data) 0 = some i)
    (ht : findConfigValue block ("auth_type".data) = .scalar tv)
    (hp : findConfigValue block ("auth_pass".data) = .scalar pw) :
    convertAuthenticationConfig block d =
      dictSet d ("authentication".data)
        (.d [ (("password".data), .s pw),
              (("type".data), .s (lowerS (if tv = ("PASS".data)
                then ("plaintext-password".data) else tv))) ]) := by
  unfold convertAuthenticationConfig
  rw [hm, ht, hp]
  dsimp only
  by_cases hpass : tv = ("PASS".data)
  · rw [if_pos hpass, if_pos hpass]
  · rw [if_neg hpass, if_neg hpass]

theorem pipeline_get_version (block : List Str) (vips : List Str) :
    dictGet (dictSet
      (elidePriorityDefault (elideAdvertDefault (configDictInit block)))
      ("virtual-address".data) (.arr (vips.map YVal.s))) ("version".data) =
      some (configFieldVal block ("version".data) ("version".data)) := by
  rw [dictGet_dictSet_ne _ _ _ _ (by decide),
    elidePriority_get_ne _ _ (by decide),
    elideAdvert_get_ne _ _ (by decide),
    configDictInit_get block ("version".data) ("version".data) (by decide)]

theorem pipeline_get_none_base (block : List Str) (vips : List Str) (k : Str)
    (h0 : k ∉ configKeyTable.map Prod.fst)
    (hv : k ≠ ("virtual-address".data)) :
    dictGet (dictSet
      (elidePriorityDefault (elideAdvertDefault (configDictInit block)))
      ("virtual-address".data) (.arr (vips.map YVal.s))) k = none := by
  have hpr : k ≠ ("priority".data) := fun he => h0 (by rw [he]; decide)
  have had : k ≠ ("advertise-interval".data) := fun he => h0 (by rw [he]; decide)
  rw [dictGet_dictSet_ne _ _ _ _ hv, elidePriority_get_ne _ _ hpr,
    elideAdvert_get_ne _ _ had, configDictInit_get_none block k h0]

/-- C5 amended: for any block that parses successfully, the `track` and
`notify` sections appear in the result exactly when their block markers
are present, but the authentication section is additionally gated on
the parsed `version` value being the integer 2 — when the version is
anything else, the result never contains `authentication`, even with
the `authentication \x7b` marker and both auth fields present. -/
theorem section_markers_gated_by_version (block : List Str) (d : YDict)
    (hok : convertKeepalivedConfigToYang block = .ok d)
    (hint : ∃ s, findConfigValue block ("interface".data) = .scalar s) :
    (configFieldVal block ("version".data) ("version".data) ≠ .n 2 →
      dictGet d ("authentication".data) = none) ∧
    (configFieldVal block ("version".data) ("version".data) = .n 2 →
      ∀ (i : Nat) (tv pw : Str),
        indexFrom block ("authentication \x7b".data) 0 = some i →
        findConfigValue block ("auth_type".data) = .scalar tv →
        findConfigValue block ("auth_pass".data) = .scalar pw →
        dictGet d ("authentication".data) =
          some (.d [ (("password".data), .s pw),
                     (("type".data), .s (lowerS (if tv = ("PASS".data)
                       then ("plaintext-password".data) else tv))) ])) ∧
    ((dictGet d ("track".data) ≠ none) ↔
      indexFrom block ("track \x7b".data) 0 ≠ none) ∧
    ((dictGet d ("notify".data) ≠ none) ↔
      indexFrom block ("notify \x7b".data) 0 ≠ none) := by
  obtain ⟨vips, d4, d5, d6, iname, hvb, h5, h6, hd⟩ :=
    convertYang_ok_shape block d hok hint
  subst hd
  have hn3 := nodup_d3 block vips
  have hn4 := nodup_versionBranch block _ d4 hvb hn3
  have hn5 := nodup_after_tracking block d4 d5 iname h5 hn4
  have hn6 := nodup_after_notify block d5 d6 h6 hn5
  have hnF := nodup_dictKeys_filter d6 (fun p => !isNotFoundVal p.2) hn6
  have hver := pipeline_get_version block vips
  refine ⟨?_, ?_, ?_, ?_⟩
  · intro hne
    have hg3 := pipeline_get_none_base block vips ("authentication".data)
      (by decide) (by decide)
    have hg4 : dictGet d4 ("authentication".data) = none := by
      rw [versionBranch_auth_not2 block _ d4 _ hvb hver hne]
      exact hg3
    have hg5 : dictGet d5 ("authentication".data) = none := by
      rw [tracking_get_ne block d4 d5 iname _ h5 (by decide)]
      exact hg4
    have hg6 : dictGet d6 ("authentication".data) = none := by
      rw [notify_get_ne block d5 d6 _ h6 (by decide)]
      exact hg5
    rw [sortKeys_dictGet _ _ hnF]
    exact dictGet_filter_none d6 _ _ hg6
  · intro hv2 i tv pw hm ht hp
    have hver2 : dictGet (dictSet
        (elidePriorityDefault (elideAdvertDefault (configDictInit block)))
        ("virtual-address".data) (.arr (vips.map YVal.s)))
        ("version".data) = some (.n 2) := by
      rw [hver, hv2]
    have hd4 := versionBranch_v2 block _ d4 hvb hver2
    rw [convertAuth_present block _ i tv pw hm ht hp] at hd4
    have hg4 : dictGet d4 ("authentication".data) =
        some (.d [ (("password".data), .s pw),
                   (("type".data), .s (lowerS (if tv = ("PASS".data)
                     then ("plaintext-password".data) else tv))) ]) := by
      rw [hd4]
      exact dictGet_dictSet_same _ _ _
    have hg5 : dictGet d5 ("authentication".data) =
        dictGet d4 ("authentication".data) :=
      tracking_get_ne block d4 d5 iname _ h5 (by decide)
    have hg6 : dictGet d6 ("authentication".data) =
        dictGet d4 ("authentication".data) := by
      rw [notify_get_ne block d5 d6 _ h6 (by decide)]
      exact hg5
    have hgF := dictGet_filter_kept d6 ("authentication".data) _
      (fun p => !isNotFoundVal p.2) hn6 (hg6.trans hg4) rfl
    rw [sortKeys_dictGet _ _ hnF]
    exact hgF
  · cases hm : indexFrom block ("track \x7b".data) 0 with
    | none =>
      have hd5 : d5 = d4 :=
        Except.ok.inj (h5.symm.trans (convertTracking_absent block d4 iname hm))
      constructor
      · intro hne
        exfalso
        apply hne
        have hg4 : dictGet d4 ("track".data) = none := by
          rw [versionBranch_get_ne block _ d4 _ hvb (by decide) (by decide)
            (by decide)]
          exact pipeline_get_none_base block vips ("track".data)
            (by decide) (by decide)
        have hg6 : dictGet d6 ("track".data) = none := by
          rw [notify_get_ne block d5 d6 _ h6 (by decide), hd5]
          exact hg4
        rw [sortKeys_dictGet _ _ hnF]
        exact dictGet_filter_none d6 _ _ hg6
      · intro hne
        exact absurd rfl hne
    | some cs =>
      obtain ⟨sub, hsub⟩ := convertTracking_present block d4 iname d5 cs hm h5
      constructor
      · intro _
        exact fun he => Option.noConfusion he
      · intro _
        have hg5 : dictGet d5 ("track".data) = some (.d sub) := by
          rw [hsub]
          exact dictGet_dictSet_same _ _ _
        have hg6 : dictGet d6 ("track".data) = some (.d sub) := by
          rw [notify_get_ne block d5 d6 _ h6 (by decide)]
          exact hg5
        have hgF := dictGet_filter_kept d6 ("track".data) _
          (fun p => !isNotFoundVal p.2) hn6 hg6 rfl
        rw [sortKeys_dictGet _ _ hnF, hgF]
        exact fun he => Option.noConfusion he
  · cases hm : indexFrom block ("notify \x7b".data) 0 with
    | none =>
      have hd6 : d6 = d5 :=
        Except.ok.inj (h6.symm.trans (convertNotify_absent block d5 hm))
      constructor
      · intro hne
        exfalso
        apply hne
        have hg4 : dictGet d4 ("notify".data) = none := by
          rw [versionBranch_get_ne block _ d4 _ hvb (by decide) (by decide)
            (by decide)]
          exact pipeline_get_none_base block vips ("notify".data)
            (by decide) (by decide)
        have hg6 : dictGet d6 ("notify".data) = none := by
          rw [hd6, tracking_get_ne block d4 d5 iname _ h5 (by decide)]
          exact hg4
        rw [sortKeys_dictGet _ _ hnF]
        exact dictGet_filter_none d6 _ _ hg6
      · intro hne
        exact absurd rfl hne
    | some cs =>
      obtain ⟨sub, hsub⟩ := convertNotify_present block d5 d6 cs hm h6
      constructor
      · intro _
        exact fun he => Option.noConfusion he
      · intro _
        have hg6 : dictGet d6 ("notify".data) = some (.d sub) := by
          rw [hsub]
          exact dictGet_dictSet_same _ _ _
        have hgF := dictGet_filter_kept d6 ("notify".data) _
          (fun p => !isNotFoundVal p.2) hn6 hg6 rfl
        rw [sortKeys_dictGet _ _ hnF, hgF]
        exact fun he => Option.noConfusion he

/-- A version-3 block with the `authentication \x7b` marker and both
auth fields present. -/
def blockC5 : List Str :=
  [ ("vrrp_instance vyatta-dp0p1s2-1 \x7b".data),
    ("interface dp0p1s2".data),
    ("virtual_router_id 1".data),
    ("version 3".data),
    ("advert_int 1".data),
    ("authentication \x7b".data),
    ("auth_type PASS".data),
    ("auth_pass pass123".data),
    ("\x7d".data),
    ("virtual_ipaddress \x7b".data),
    ("10.0.0.5/24".data),
    ("\x7d".data),
    ("\x7d".data) ]

/-- The dictionary `blockC5` parses to: no `authentication` key. -/
def dC5 : YDict :=
  [ (("accept".data), (.b false)),
    (("preempt".data), (.b true)),
    (("tagnode".data), (.n 1)),
    (("version".data), (.n 3)),
    (("virtual-address".data), (.arr [(.s ("10.0.0.5/24".data))])) ]

/-- C5 counterexample: `blockC5` carries the `authentication \x7b`
marker and scalar `auth_type`/`auth_pass` lines, parses successfully,
and yet its result contains no `authentication` entry — the group's
version (3) suppresses the authentication section, contradicting the
claim that marker presence alone decides it. -/
theorem auth_marker_present_but_suppressed :
    indexFrom blockC5 ("authentication \x7b".data) 0 = some 5 ∧
    findConfigValue blockC5 ("auth_type".data) = .scalar ("PASS".data) ∧
    findConfigValue blockC5 ("auth_pass".data) = .scalar ("pass123".data) ∧
    convertKeepalivedConfigToYang blockC5 = .ok dC5 ∧
    dictGet dC5 ("authentication".data) = none := by
  set_option maxRecDepth 10000 in
  exact ⟨rfl, rfl, rfl, rfl, rfl⟩

/-- A version-2 block with the authentication marker and fields, no
`track \x7b` marker. -/
def blockC5w : List Str :=
  [ ("vrrp_instance vyatta-dp0p1s1-5 \x7b".data),
    ("interface dp0p1s1".data),
    ("virtual_router_id 5".data),
    ("version 2".data),
    ("authentication \x7b".data),
    ("auth_type PASS".data),
    ("auth_pass hello".data),
    ("\x7d".data),
    ("virtual_ipaddress \x7b".data),
    ("10.1.1.1/24".data),
    ("\x7d".data),
    ("\x7d".data) ]

/-- The dictionary `blockC5w` parses to. -/
def dC5w : YDict :=
  [ (("accept".data), (.b false)),
    (("authentication".data),
     (.d [ (("password".data), (.s ("hello".data))),
           (("type".data), (.s ("plaintext-password".data))) ])),
    (("preempt".data), (.b true)),
    (("tagnode".data), (.n 5)),
    (("version".data), (.n 2)),
    (("virtual-address".data), (.arr [(.s ("10.1.1.1/24".data))])) ]

set_option maxRecDepth 10000 in
theorem section_markers_gated_by_version_witness :
    dictGet dC5w ("authentication".data) =
      some (.d [ (("password".data), .s ("hello".data)),
                 (("type".data), .s ("plaintext-password".data)) ]) ∧
    dictGet dC5w ("track".data) = none := by
  have h := section_markers_gated_by_version blockC5w dC5w (by rfl)
    ⟨("dp0p1s1".data), by rfl⟩
  constructor
  · exact h.2.1 (by rfl) 4 ("PASS".data) ("hello".data) (by rfl) (by rfl)
      (by rfl)
  · have h3 := h.2.2.1
    by_cases hx : dictGet dC5w ("track".data) = none
    · exact hx
    · exact absurd (rfl : (none : Option Nat) = none) (h3.1 hx)

theorem mem_insertLe {α : Type} (le : α → α → Bool) (a x : α) (l : List α)
    (h : x ∈ insertLe le a l) : x = a ∨ x ∈ l :=
  List.mem_cons.1 ((insertLe_perm le a l).mem_iff.1 h)

theorem insertLe_pairwise {α : Type} (le : α → α → Bool)
    (htrans : ∀ a b c, le a b = true → le b c = true → le a c = true)
    (htot : ∀ a b, le a b = true ∨ le b a = true)
    (a : α) (l : List α)
    (hs : l.Pairwise (fun x y => le x y = true)) :
    (insertLe le a l).Pairwise (fun x y => le x y = true) := by
  induction l with
  | nil => simp [insertLe]
  | cons b bs ih =>
    rcases List.pairwise_cons.1 hs with ⟨hb, hbs⟩
    unfold insertLe
    by_cases h : le a b
    · rw [if_pos h]
      refine List.pairwise_cons.2 ⟨?_, hs⟩
      intro x hx
      rcases List.mem_cons.1 hx with rfl | hx2
      · exact h
      · exact htrans a b x h (hb x hx2)
    · rw [if_neg h]
      refine List.pairwise_cons.2 ⟨?_, ih hbs⟩
      intro x hx
      rcases mem_insertLe le a x bs hx with rfl | hx2
      · rcases htot x b with h1 | h1
        · exact absurd h1 h
        · exact h1
      · exact hb x hx2

theorem insSort_pairwise {α : Type} (le : α → α → Bool)
    (htrans : ∀ a b c, le a b = true → le b c = true → le a c = true)
    (htot : ∀ a b, le a b = true ∨ le b a = true) (l : List α) :
    (insSort le l).Pairwise (fun x y => le x y = true) := by
  induction l with
  | nil => simp [insSort]
  | cons a as ih => exact insertLe_pairwise le htrans htot a _ ih

theorem strLt_asymm : ∀ a b : Str, strLtB a b = true → strLtB b a = false := by
  intro a
  induction a with
  | nil =>
    intro b h
    cases b with
    | nil => simp [strLtB] at h
    | cons c cs => rfl
  | cons x xs ih =>
    intro b h
    cases b with
    | nil => simp [strLtB] at h
    | cons y ys =>
      unfold strLtB at h ⊢
      by_cases h1 : x.toNat < y.toNat
      · rw [if_neg (by omega), if_pos h1]
      · rw [if_neg h1] at h
        by_cases h2 : y.toNat < x.toNat
        · rw [if_pos h2] at h
          simp at h
        · rw [if_neg h2] at h
          rw [if_neg h2, if_neg h1]
          exact ih ys h

theorem strLt_resolve : ∀ c a b : Str, strLtB c a = true →
    strLtB c b = true ∨ strLtB b a = true := by
  intro c
  induction c with
  | nil =>
    intro a b h
    cases a with
    | nil => simp [strLtB] at h
    | cons x xs =>
      cases b with
      | nil => exact Or.inr rfl
      | cons y ys => exact Or.inl rfl
  | cons z zs ih =>
    intro a b h
    cases a with
    | nil => simp [strLtB] at h
    | cons x xs =>
      cases b with
      | nil => exact Or.inr rfl
      | cons y ys =>
        unfold strLtB at h ⊢
        by_cases h1 : z.toNat < x.toNat
        · by_cases h2 : z.toNat < y.toNat
          · exact Or.inl (by rw [if_pos h2])
          · by_cases h3 : y.toNat < x.toNat
            · exact Or.inr (by rw [if_pos h3])
            · exact absurd (by omega : y.toNat < x.toNat) h3
        · rw [if_neg h1] at h
          by_cases h2 : x.toNat < z.toNat
          · rw [if_pos h2] at h
            simp at h
          · rw [if_neg h2] at h
            by_cases h3 : z.toNat < y.toNat
            · exact Or.inl (by rw [if_pos h3])
            · by_cases h4 : y.toNat < x.toNat
              · exact Or.inr (by rw [if_pos h4])
              · have h5 : ¬(y.toNat < z.toNat) := by omega
                have h6 : ¬(x.toNat < y.toNat) := by omega
                rcases ih xs ys h with h7 | h7
                · exact Or.inl (by rw [if_neg h3, if_neg h5]; exact h7)
                · exact Or.inr (by rw [if_neg h4, if_neg h6]; exact h7)

theorem strLeB_total : ∀ a b : Str, strLeB a b = true ∨ strLeB b a = true := by
  intro a b
  unfold strLeB
  by_cases h : strLtB b a = true
  · right
    rw [strLt_asymm b a h]
    rfl
  · left
    rw [Bool.not_eq_true] at h
    rw [h]
    rfl

theorem strLeB_trans : ∀ a b c : Str, strLeB a b = true → strLeB b c = true →
    strLeB a c = true := by
  intro a b c h1 h2
  unfold strLeB at h1 h2 ⊢
  rw [Bool.not_eq_true'] at h1 h2 ⊢
  by_contra hc
  rw [Bool.not_eq_false] at hc
  rcases strLt_resolve c a b hc with h3 | h3
  · rw [h2] at h3
    cases h3
  · rw [h1] at h3
    cases h3

/-- C6 counterexample: a virtual-address list whose first entry is
IPv4 is sorted entirely by Python string order (`sorted`), so its IPv6
members come out in lexicographic, not numeric, order — `fe80::10/64`
is emitted before `fe80::2/64` although its expanded numeric value is
the larger one. -/
theorem mixed_vips_ipv6_out_of_numeric_order :
    vipsOrdered
      [("10.0.0.1/24".data), ("fe80::10/64".data), ("fe80::2/64".data)] =
      [("10.0.0.1/24".data), ("fe80::10/64".data), ("fe80::2/64".data)] ∧
    ipv6Key ("fe80::2/64".data) < ipv6Key ("fe80::10/64".data) := by
  exact ⟨rfl, by decide⟩

/-- C6 amended: for a non-empty virtual-address list whose members all
share one IP family, the emitted order is a permutation of the input
that is sorted — by Python string order when the family is IPv4, and
by the numeric value of the expanded address when the family is IPv6. -/
theorem homogeneous_vips_sorted (vas : List Str) (hne : vas ≠ []) :
    ((∀ a ∈ vas, whatIpVersion ((splitOnC '/' a).headD []) = 4) →
      List.Perm (vipsOrdered vas) vas ∧
      (vipsOrdered vas).Pairwise (fun x y => strLeB x y = true)) ∧
    ((∀ a ∈ vas, whatIpVersion ((splitOnC '/' a).headD []) = 6) →
      List.Perm (vipsOrdered vas) vas ∧
      (vipsOrdered vas).Pairwise (fun x y => ipv6Key x ≤ ipv6Key y)) := by
  obtain ⟨a0, rest, rfl⟩ : ∃ a0 rest, vas = a0 :: rest := by
    cases vas with
    | nil => exact absurd rfl hne
    | cons a0 rest => exact ⟨a0, rest, rfl⟩
  constructor
  · intro h4
    unfold vipsOrdered
    dsimp only
    rw [if_pos (h4 a0 (List.mem_cons_self _ _))]
    exact ⟨insSort_perm _ _, insSort_pairwise _ strLeB_trans strLeB_total _⟩
  · intro h6
    unfold vipsOrdered
    dsimp only
    rw [if_neg (by rw [h6 a0 (List.mem_cons_self _ _)]; decide)]
    unfold vrrpIpv6Sort
    refine ⟨insSort_perm _ _, ?_⟩
    have hp := insSort_pairwise (fun x y => decide (ipv6Key x ≤ ipv6Key y))
      (fun x y z hxy hyz => by
        rw [decide_eq_true_iff] at hxy hyz ⊢
        exact Nat.le_trans hxy hyz)
      (fun x y => by
        rcases Nat.le_total (ipv6Key x) (ipv6Key y) with h | h
        · exact Or.inl (decide_eq_true h)
        · exact Or.inr (decide_eq_true h))
      (a0 :: rest)
    exact hp.imp (fun h => of_decide_eq_true h)

set_option maxRecDepth 10000 in
theorem homogeneous_vips_sorted_witness :
    List.Perm
      (vipsOrdered [("fe80::10/64".data), ("fe80::2/64".data)])
      [("fe80::10/64".data), ("fe80::2/64".data)] ∧
    (vipsOrdered [("fe80::10/64".data), ("fe80::2/64".data)]).Pairwise
      (fun x y => ipv6Key x ≤ ipv6Key y) :=
  (homogeneous_vips_sorted
    [("fe80::10/64".data), ("fe80::2/64".data)] (by decide)).2
    (by decide)

/-- A group with `fast-advertise-interval` 2500 ms. -/
def gC1 : GroupCfg :=
  { tagnode := 1, version := 3, accept := false, preempt := true,
    virtualAddress := [("10.10.1.100/25".data)],
    fastAdvertiseInterval := some 2500 }

/-- A one-interface tree holding `gC1`. -/
def treeC1 : InterfaceTree :=
  [ (("dataplane".data),
     [ { tagnode := ("dp0p1s1".data),
         vrrp := some { startDelay := 0, groups := [gC1] },
         vif := none } ]) ]

/-- The group dictionary the round trip of `treeC1` produces. -/
def groupOutC1 : YDict :=
  [ (("accept".data), (.b false)),
    (("fast-advertise-interval".data), (.n 2000)),
    (("preempt".data), (.b true)),
    (("tagnode".data), (.n 1)),
    (("version".data), (.n 3)),
    (("virtual-address".data), (.arr [(.s ("10.10.1.100/25".data))])) ]

/-- The full dictionary the round trip of `treeC1` produces. -/
def dC1out : YDict :=
  [ (interfaceYangName,
     YVal.d
       [ (("vyatta-interfaces-dataplane-v1:dataplane".data),
          YVal.arr
            [ YVal.d
                [ (("tagnode".data), YVal.s ("dp0p1s1".data)),
                  (vrrpYangName,
                   YVal.d
                     [ (("start-delay".data), YVal.n 0),
                       (("vrrp-group".data),
                        YVal.arr [ YVal.d groupOutC1 ]) ]) ] ]) ]) ]

/-- C1 counterexample: serializing `treeC1` (whose only group carries
`fast-advertise-interval` 2500) and parsing the text back yields
`fast-advertise-interval` 2000, not 2500 — the write direction emits
`advert_int int(2500/1000) = 2` whole seconds and the read direction
multiplies by 1000 again, so the 500 ms remainder is silently lost and
the round trip does not reproduce the field. -/
theorem round_trip_truncates_fast_advertise :
    gC1.fastAdvertiseInterval = some 2500 ∧
    parseSerialized (some treeC1) = .ok dC1out ∧
    dictGet groupOutC1 ("fast-advertise-interval".data) = some (.n 2000) := by
  set_option maxRecDepth 100000 in
  exact ⟨rfl, rfl, rfl⟩

/-- Characters allowed in a hygienic interface name: ASCII digits and
lowercase letters. -/
def nameCharOk (c : Char) : Bool :=
  isDigitC c || decide (97 ≤ c.toNat ∧ c.toNat ≤ 122)

/-- Characters of a hygienic IPv4 CIDR literal. -/
def vipCharOk (c : Char) : Bool := isDigitC c || c == '.' || c == '/'

theorem not_ws_of_ge33 (c : Char) (h : 33 ≤ c.toNat) : isWsC c = false := by
  unfold isWsC Char.isWhitespace
  have h1 : c ≠ ' ' := fun he => by subst he; revert h; decide
  have h2 : c ≠ '\t' := fun he => by subst he; revert h; decide
  have h3 : c ≠ '\r' := fun he => by subst he; revert h; decide
  have h4 : c ≠ '\n' := fun he => by subst he; revert h; decide
  simp [h1, h2, h3, h4]

theorem isDigitC_ge33 (c : Char) (h : isDigitC c = true) : 33 ≤ c.toNat := by
  unfold isDigitC at h
  rw [decide_eq_true_iff] at h
  omega

theorem nameCharOk_ge33 (c : Char) (h : nameCharOk c = true) : 33 ≤ c.toNat := by
  unfold nameCharOk at h
  rw [Bool.or_eq_true] at h
  rcases h with h | h
  · exact isDigitC_ge33 c h
  · rw [decide_eq_true_iff] at h
    omega

theorem vipCharOk_ge33 (c : Char) (h : vipCharOk c = true) : 33 ≤ c.toNat := by
  unfold vipCharOk at h
  rw [Bool.or_eq_true, Bool.or_eq_true] at h
  rcases h with (h | h) | h
  · exact isDigitC_ge33 c h
  · rw [beq_iff_eq] at h
    subst h
    decide
  · rw [beq_iff_eq] at h
    subst h
    decide

theorem digitCh_isDigit (k : Nat) (h : k < 10) : isDigitC (digitCh k) = true := by
  interval_cases k <;> decide

theorem digitVal_digitCh (k : Nat) (h : k < 10) : digitVal (digitCh k) = k := by
  interval_cases k <;> decide

theorem natReprGo_all_digits : ∀ f n, ∀ c ∈ natReprGo n f, isDigitC c = true := by
  intro f
  induction f with
  | zero =>
    intro n c hc
    simp [natReprGo] at hc
  | succ f ih =>
    intro n c hc
    unfold natReprGo at hc
    by_cases h : n < 10
    · rw [if_pos h] at hc
      obtain rfl := List.mem_singleton.1 hc
      exact digitCh_isDigit n h
    · rw [if_neg h] at hc
      rcases List.mem_append.1 hc with h2 | h2
      · exact ih _ c h2
      · obtain rfl := List.mem_singleton.1 h2
        exact digitCh_isDigit (n % 10) (Nat.mod_lt n (by omega))

theorem natReprGo_ne_nil (f n : Nat) (hf : 0 < f) : natReprGo n f ≠ [] := by
  match f, hf with
  | f + 1, _ =>
    unfold natReprGo
    by_cases h : n < 10
    · rw [if_pos h]
      simp
    · rw [if_neg h]
      simp

theorem digitsToNat_append_digit (xs : Str) (c : Char) :
    digitsToNat (xs ++ [c]) = digitsToNat xs * 10 + digitVal c := by
  unfold digitsToNat
  rw [List.foldl_append]
  rfl

theorem digitsToNat_natReprGo : ∀ f n, n < f → digitsToNat (natReprGo n f) = n := by
  intro f
  induction f with
  | zero =>
    intro n hn
    exact absurd hn (Nat.not_lt_zero n)
  | succ f ih =>
    intro n hn
    unfold natReprGo
    by_cases h : n < 10
    · rw [if_pos h]
      have h2 : digitsToNat [digitCh n] = digitVal (digitCh n) := by
        unfold digitsToNat
        simp [List.foldl]
      rw [h2, digitVal_digitCh n h]
    · rw [if_neg h]
      have hdiv : n / 10 < f := by
        have := Nat.div_lt_self (by omega : 0 < n) (by omega : 1 < 10)
        omega
      rw [digitsToNat_append_digit, ih (n / 10) hdiv,
        digitVal_digitCh (n % 10) (Nat.mod_lt n (by omega))]
      omega

theorem natRepr_all_digits (n : Nat) : ∀ c ∈ natRepr n, isDigitC c = true :=
  natReprGo_all_digits (n + 1) n

theorem natRepr_ne_nil (n : Nat) : natRepr n ≠ [] :=
  natReprGo_ne_nil (n + 1) n (by omega)

theorem digitsToNat_natRepr (n : Nat) : digitsToNat (natRepr n) = n :=
  digitsToNat_natReprGo (n + 1) n (by omega)

theorem isDigitS_natRepr (n : Nat) : isDigitS (natRepr n) = true := by
  unfold isDigitS
  rw [Bool.and_eq_true]
  constructor
  · cases hx : natRepr n with
    | nil => exact absurd hx (natRepr_ne_nil n)
    | cons a l => rfl
  · rw [List.all_eq_true]
    intro c hc
    exact natRepr_all_digits n c hc

theorem dropWhile_eq_self_of_head (p : Char → Bool) (l : Str)
    (h : ∀ c, l.head? = some c → p c = false) : l.dropWhile p = l := by
  cases l with
  | nil => rfl
  | cons c cs =>
    rw [List.dropWhile_cons]
    simp [h c rfl]

theorem trimEnd_eq_self (l : Str)
    (h : ∀ c, l.getLast? = some c → isWsC c = false) : trimEnd l = l := by
  unfold trimEnd
  have h2 : l.reverse.dropWhile isWsC = l.reverse := by
    apply dropWhile_eq_self_of_head
    intro c hc
    apply h
    rw [← List.head?_reverse]
    exact hc
  rw [h2, List.reverse_reverse]

theorem trimS_concat (pre core : Str) (hpre : trimStart (pre ++ core) = core)
    (hlast : ∀ c, core.getLast? = some c → isWsC c = false) :
    trimS (pre ++ core) = core := by
  unfold trimS trimStart
  unfold trimStart at hpre
  rw [hpre]
  exact trimEnd_eq_self core hlast

theorem afterFirst_cons_pref (pat : Str) (c : Char) (cs : Str)
    (hp : pat <+: (c :: cs)) :
    afterFirst pat (c :: cs) = some ((c :: cs).drop pat.length) := by
  unfold afterFirst
  rw [if_pos hp]

theorem afterFirst_eq_none (pat l : Str) (hne : ¬ pat <:+: l) :
    afterFirst pat l = none := by
  induction l with
  | nil =>
    unfold afterFirst
    rw [if_neg (fun he => hne (by subst he; exact List.nil_infix))]
  | cons c cs ih =>
    unfold afterFirst
    rw [if_neg (fun hp => hne hp.isInfix),
      ih (fun hi => hne (hi.trans (List.infix_cons (List.infix_refl cs))))]

theorem findConfigValue_cons_none (ln : Str) (rest : List Str) (sent : Str)
    (h : ¬ sent <:+: ln) :
    findConfigValue (ln :: rest) sent = findConfigValue rest sent := by
  conv_lhs => unfold findConfigValue
  rw [afterFirst_eq_none sent ln h]

theorem findConfigValue_cons_hit (ln : Str) (rest : List Str) (sent r : Str)
    (h : afterFirst sent ln = some r) :
    findConfigValue (ln :: rest) sent =
      if trimS r = [] then .presence else .scalar (trimS r) := by
  unfold findConfigValue
  rw [h]

theorem findConfigValue_append_skip (vs rest : List Str) (sent : Str)
    (h : ∀ v ∈ vs, ¬ sent <:+: v) :
    findConfigValue (vs ++ rest) sent = findConfigValue rest sent := by
  induction vs with
  | nil => rfl
  | cons v vs ih =>
    rw [List.cons_append, findConfigValue_cons_none v _ sent (h v (.head _)),
      ih (fun x hx => h x (.tail _ hx))]

theorem prefix_append_split (S xs ys : Str) (h : S <+: xs ++ ys) :
    S <+: xs ∨
    ((∃ c, xs.getLast? = some c ∧ c ∈ S) ∧
     (∃ c, ys.head? = some c ∧ c ∈ S)) ∨
    (xs = [] ∧ S <+: ys) := by
  induction xs generalizing S with
  | nil =>
    right
    right
    exact ⟨rfl, by simpa using h⟩
  | cons x xs ih =>
    cases S with
    | nil => exact Or.inl (List.nil_prefix)
    | cons s0 S2 =>
      rw [List.cons_append, List.cons_prefix_cons] at h
      obtain ⟨rfl, h2⟩ := h
      rcases ih S2 h2 with h3 | ⟨⟨c1, hg, hc1⟩, ⟨c2, hh, hc2⟩⟩ | ⟨rfl, h3⟩
      · exact Or.inl (List.cons_prefix_cons.2 ⟨rfl, h3⟩)
      · refine Or.inr (Or.inl ⟨⟨c1, ?_, List.mem_cons_of_mem _ hc1⟩,
          ⟨c2, hh, List.mem_cons_of_mem _ hc2⟩⟩)
        cases xs with
        | nil => simp at hg
        | cons y ys2 => simpa using hg
      · cases S2 with
        | nil => exact Or.inl (by simp)
        | cons c2 S3 =>
          refine Or.inr (Or.inl ⟨⟨s0, rfl, List.mem_cons_self _ _⟩,
            ⟨c2, ?_, List.mem_cons_of_mem _ (List.mem_cons_self _ _)⟩⟩)
          cases ys with
          | nil => simp at h3
          | cons y ys2 =>
            rw [List.cons_prefix_cons] at h3
            rw [h3.1]
            rfl

theorem infix_append_split (S xs ys : Str) (h : S <:+: xs ++ ys) :
    S <:+: xs ∨ S <:+: ys ∨
    ((∃ c, xs.getLast? = some c ∧ c ∈ S) ∧
     (∃ c, ys.head? = some c ∧ c ∈ S)) := by
  induction xs with
  | nil => exact Or.inr (Or.inl (by simpa using h))
  | cons x xs ih =>
    obtain ⟨s, t, hst⟩ := h
    cases s with
    | nil =>
      have hp : S <+: (x :: xs) ++ ys := ⟨t, by simpa using hst⟩
      rcases prefix_append_split S (x :: xs) ys hp with h2 | h2 | ⟨h2, _⟩
      · exact Or.inl h2.isInfix
      · exact Or.inr (Or.inr h2)
      · cases h2
    | cons c s2 =>
      rw [List.cons_append, List.cons_append] at hst
      have hst2 := List.cons.inj hst
      have hin : S <:+: xs ++ ys := ⟨s2, t, hst2.2⟩
      rcases ih hin with h2 | h2 | ⟨⟨c1, hg, hc1⟩, hy⟩
      · exact Or.inl (List.infix_cons h2)
      · exact Or.inr (Or.inl h2)
      · refine Or.inr (Or.inr ⟨⟨c1, ?_, hc1⟩, hy⟩)
        cases xs with
        | nil => simp at hg
        | cons y ys2 => simpa using hg

theorem not_infix_append (S xs ys : Str) (hx : ¬ S <:+: xs) (hy : ¬ S <:+: ys)
    (hb : (∀ c, xs.getLast? = some c → c ∉ S) ∨
          (∀ c, ys.head? = some c → c ∉ S)) :
    ¬ S <:+: xs ++ ys := by
  intro h
  rcases infix_append_split S xs ys h with h2 | h2 | ⟨⟨c1, hg, hc1⟩, ⟨c2, hh, hc2⟩⟩
  · exact hx h2
  · exact hy h2
  · rcases hb with hb | hb
    · exact hb c1 hg hc1
    · exact hb c2 hh hc2

theorem not_infix_of_class (S l : Str) (P : Char → Bool)
    (hl : ∀ c ∈ l, P c = true) (hS : ∃ c ∈ S, P c = false) :
    ¬ S <:+: l := by
  intro h
  obtain ⟨c, hc1, hc2⟩ := hS
  have := hl c (h.subset hc1)
  rw [this] at hc2
  cases hc2

theorem ne_of_class (v m : Str) (P : Char → Bool)
    (hv : ∀ c ∈ v, P c = true) (hm : ∃ c ∈ m, P c = false) : v ≠ m := by
  intro he
  subst he
  obtain ⟨c, hc1, hc2⟩ := hm
  have := hv c hc1
  rw [this] at hc2
  cases hc2

theorem findIdx?_cons_false {α : Type} (p : α → Bool) (a : α) (l : List α)
    (i : Nat) (h : p a = false) :
    List.findIdx? p (a :: l) i = List.findIdx? p l (i + 1) := by
  rw [List.findIdx?_cons, h]
  simp

theorem findIdx?_cons_true {α : Type} (p : α → Bool) (a : α) (l : List α)
    (i : Nat) (h : p a = true) :
    List.findIdx? p (a :: l) i = some i := by
  rw [List.findIdx?_cons, h]
  simp

theorem findIdx?_append_none {α : Type} (p : α → Bool) (l1 l2 : List α)
    (i : Nat) (h : ∀ x ∈ l1, p x = false) :
    List.findIdx? p (l1 ++ l2) i = List.findIdx? p l2 (i + l1.length) := by
  induction l1 generalizing i with
  | nil => simp
  | cons a l ih =>
    rw [List.cons_append, findIdx?_cons_false p a _ i (h a (.head _)),
      ih (i + 1) (fun x hx => h x (.tail _ hx))]
    congr 1
    simp [List.length_cons]
    omega

theorem sliceFromTo_concat (P M T : List Str) :
    sliceFromTo (P ++ (M ++ T)) P.length (P.length + M.length) = M := by
  unfold sliceFromTo
  rw [List.take_append, List.take_left, List.drop_left]

theorem mem_vipsOrdered (vas : List Str) (v : Str) (h : v ∈ vipsOrdered vas) :
    v ∈ vas := by
  unfold vipsOrdered at h
  cases vas with
  | nil => simpa using h
  | cons a rest =>
    dsimp only at h
    by_cases hc : whatIpVersion ((splitOnC '/' a).headD []) = 4
    · rw [if_pos hc] at h
      exact (insSort_perm _ _).mem_iff.1 h
    · rw [if_neg hc] at h
      unfold vrrpIpv6Sort at h
      exact (insSort_perm _ _).mem_iff.1 h

theorem findConfigValue_eq_notFound (block : List Str) (S : Str)
    (h : ∀ ln ∈ block, ¬ S <:+: ln) :
    findConfigValue block S = .notFound := by
  induction block with
  | nil => rfl
  | cons ln rest ih =>
    rw [findConfigValue_cons_none ln rest S (h ln (.head _)),
      ih (fun x hx => h x (.tail _ hx))]

theorem findConfigValue_prefix_hit (pre : List Str) (ln : Str)
    (rest : List Str) (S r : Str)
    (hpre : ∀ x ∈ pre, ¬ S <:+: x) (hln : afterFirst S ln = some r) :
    findConfigValue (pre ++ ln :: rest) S =
      if trimS r = [] then .presence else .scalar (trimS r) := by
  rw [findConfigValue_append_skip pre _ S hpre,
    findConfigValue_cons_hit ln rest S r hln]

theorem last_boundary (S xs : Str) (x : Char) (hg : xs.getLast? = some x)
    (hx : x ∉ S) : ∀ c, xs.getLast? = some c → c ∉ S := by
  intro c hc
  rw [hg] at hc
  obtain rfl := Option.some.inj hc
  exact hx

theorem head_boundary (S ys : Str) (x : Char) (hg : ys.head? = some x)
    (hx : x ∉ S) : ∀ c, ys.head? = some c → c ∉ S := by
  intro c hc
  rw [hg] at hc
  obtain rfl := Option.some.inj hc
  exact hx

/-- The search terms scanned over an instance block by the single-line
loop, plus `interface`. -/
def lineSentinels : List Str :=
  [ ("accept".data), ("preempt".data), ("priority".data),
    ("virtual_router_id".data), ("version".data), ("mcast_src_ip".data),
    ("vmac_xmit_base".data), ("advert_int".data), ("preempt_delay".data),
    ("sync_group".data), ("interface".data) ]

theorem L0_clean (S name : Str) (tag : Nat)
    (hnm : ¬ S <:+: name)
    (hA : ¬ S <:+: ("vrrp_instance vyatta-".data))
    (hd : ¬ S <:+: ("-".data))
    (hsp : ¬ S <:+: (" \x7b".data))
    (hdash : '-' ∉ S)
    (hspc : ' ' ∉ S)
    (hnd : ∃ c ∈ S, isDigitC c = false) :
    ¬ S <:+: ("vrrp_instance vyatta-".data ++
      (name ++ (("-".data) ++ (natRepr tag ++ (" \x7b".data))))) := by
  apply not_infix_append _ _ _ hA ?_ (Or.inl (last_boundary S _ '-' rfl hdash))
  apply not_infix_append _ _ _ hnm ?_ (Or.inr (head_boundary S
    (("-".data) ++ (natRepr tag ++ (" \x7b".data))) '-' rfl hdash))
  apply not_infix_append _ _ _ hd ?_ (Or.inl (last_boundary S _ '-' rfl hdash))
  apply not_infix_append _ _ _
    (not_infix_of_class S _ isDigitC (natRepr_all_digits tag) hnd) hsp
  exact Or.inr (head_boundary S _ ' ' rfl hspc)

theorem word_name_clean (S pre name : Str) (x : Char)
    (hpre : ¬ S <:+: pre) (hnm : ¬ S <:+: name)
    (hg : pre.getLast? = some x) (hx : x ∉ S) :
    ¬ S <:+: pre ++ name :=
  not_infix_append _ _ _ hpre hnm (Or.inl (last_boundary S pre x hg hx))

theorem word_digits_clean (S pre : Str) (n : Nat) (x : Char)
    (hpre : ¬ S <:+: pre)
    (hnd : ∃ c ∈ S, isDigitC c = false)
    (hg : pre.getLast? = some x) (hx : x ∉ S) :
    ¬ S <:+: pre ++ natRepr n :=
  not_infix_append _ _ _ hpre
    (not_infix_of_class S _ isDigitC (natRepr_all_digits n) hnd)
    (Or.inl (last_boundary S pre x hg hx))

/-- The stripped `vrrp_instance` header line. -/
def cbLine0 (name : Str) (tag : Nat) : Str :=
  ("vrrp_instance vyatta-".data) ++
    (name ++ (("-".data) ++ (natRepr tag ++ (" \x7b".data))))

/-- The stripped `interface` line. -/
def cbLine2 (name : Str) : Str := ("interface ".data) ++ name

/-- The stripped `virtual_router_id` line. -/
def cbLine3 (tag : Nat) : Str := ("virtual_router_id ".data) ++ natRepr tag

/-- The stripped `start_delay` line. -/
def cbLine5 (delay : Nat) : Str := ("start_delay ".data) ++ natRepr delay

/-- The stripped `priority` line. -/
def cbLine6 (prio : Nat) : Str := ("priority ".data) ++ natRepr prio

/-- The stripped `advert_int` line. -/
def cbLine7 (adv : Nat) : Str := ("advert_int ".data) ++ natRepr adv

/-- The whitespace-stripped lines a restricted group's emitted block
consists of: the fixed preamble lines with the group's scalar values,
the ordered virtual addresses, and the two closing braces. -/
def cleanBlock (name : Str) (tag delay prio adv : Nat)
    (vipsO : List Str) : List Str :=
  [ cbLine0 name tag,
    ("state BACKUP".data),
    cbLine2 name,
    cbLine3 tag,
    ("version 2".data),
    cbLine5 delay,
    cbLine6 prio,
    cbLine7 adv,
    ("virtual_ipaddress \x7b".data) ] ++
  (vipsO ++ [ ("\x7d".data), ("\x7d".data) ])


theorem cleanBlock_all_clean (name : Str) (tag delay prio adv : Nat)
    (vipsO : List Str) (S : Str)
    (hnm : ¬ S <:+: name)
    (hvips : ∀ v ∈ vipsO, ∀ c ∈ v, vipCharOk c = true)
    (hA : ¬ S <:+: ("vrrp_instance vyatta-".data))
    (h1 : ¬ S <:+: ("state BACKUP".data))
    (h2p : ¬ S <:+: ("interface ".data))
    (h3p : ¬ S <:+: ("virtual_router_id ".data))
    (h4 : ¬ S <:+: ("version 2".data))
    (h5p : ¬ S <:+: ("start_delay ".data))
    (h6p : ¬ S <:+: ("priority ".data))
    (h7p : ¬ S <:+: ("advert_int ".data))
    (h8 : ¬ S <:+: ("virtual_ipaddress \x7b".data))
    (h9 : ¬ S <:+: ("\x7d".data))
    (hd : ¬ S <:+: ("-".data))
    (hsp : ¬ S <:+: (" \x7b".data))
    (hdash : '-' ∉ S) (hspc : ' ' ∉ S)
    (hnd : ∃ c ∈ S, isDigitC c = false)
    (hvc : ∃ c ∈ S, vipCharOk c = false) :
    ∀ ln ∈ cleanBlock name tag delay prio adv vipsO, ¬ S <:+: ln := by
  intro ln hln
  unfold cleanBlock at hln
  simp only [List.cons_append, List.nil_append, List.mem_cons,
    List.mem_append, List.mem_singleton] at hln
  rcases hln with rfl | rfl | rfl | rfl | rfl | rfl | rfl | rfl | rfl |
    hV | rfl | rfl | hF
  · exact L0_clean S name tag hnm hA hd hsp hdash hspc hnd
  · exact h1
  · exact word_name_clean S _ name ' ' h2p hnm rfl hspc
  · exact word_digits_clean S _ tag ' ' h3p hnd rfl hspc
  · exact h4
  · exact word_digits_clean S _ delay ' ' h5p hnd rfl hspc
  · exact word_digits_clean S _ prio ' ' h6p hnd rfl hspc
  · exact word_digits_clean S _ adv ' ' h7p hnd rfl hspc
  · exact h8
  · exact not_infix_of_class S _ vipCharOk (hvips _ hV) hvc
  · exact h9
  · exact h9
  · cases hF

theorem afterFirst_self_pref (w tail : Str) (hw : w ≠ []) :
    afterFirst w (w ++ tail) = some tail := by
  cases w with
  | nil => cases hw rfl
  | cons c cs =>
    rw [List.cons_append]
    rw [afterFirst_cons_pref _ c _ ⟨tail, by simp⟩]
    exact congrArg some (List.drop_left (c :: cs) tail)

theorem trimS_space_core (core : Str)
    (hh : ∀ c, core.head? = some c → isWsC c = false)
    (hl : ∀ c, core.getLast? = some c → isWsC c = false) :
    trimS (' ' :: core) = core := by
  unfold trimS trimStart
  have h1 : List.dropWhile isWsC (' ' :: core) =
      List.dropWhile isWsC core := by
    rw [List.dropWhile_cons, if_pos (show isWsC ' ' = true from rfl)]
  rw [h1, dropWhile_eq_self_of_head _ core hh]
  exact trimEnd_eq_self core hl

theorem natRepr_head_no_ws (n : Nat) :
    ∀ c, (natRepr n).head? = some c → isWsC c = false := by
  intro c hc
  exact not_ws_of_ge33 c (isDigitC_ge33 c
    (natRepr_all_digits n c (List.mem_of_mem_head? hc)))

theorem natRepr_last_no_ws (n : Nat) :
    ∀ c, (natRepr n).getLast? = some c → isWsC c = false := by
  intro c hc
  exact not_ws_of_ge33 c (isDigitC_ge33 c
    (natRepr_all_digits n c (List.mem_of_mem_getLast? hc)))

theorem trimS_space_digits (n : Nat) : trimS (' ' :: natRepr n) = natRepr n :=
  trimS_space_core (natRepr n) (natRepr_head_no_ws n) (natRepr_last_no_ws n)

theorem cleanBlock_fcv_interface (name : Str) (tag delay prio adv : Nat)
    (vipsO : List Str)
    (hnm : ¬ ("interface".data) <:+: name)
    (hne : name ≠ [])
    (hh : ∀ c, name.head? = some c → isWsC c = false)
    (hl : ∀ c, name.getLast? = some c → isWsC c = false) :
    findConfigValue (cleanBlock name tag delay prio adv vipsO)
      ("interface".data) = .scalar name := by
  have hpre : ∀ x ∈ [cbLine0 name tag, ("state BACKUP".data)],
      ¬ ("interface".data) <:+: x := by
    intro x hx
    simp only [List.mem_cons, List.not_mem_nil, or_false] at hx
    rcases hx with rfl | rfl
    · exact L0_clean _ name tag hnm (by decide) (by decide) (by decide)
        (by decide) (by decide) ⟨'i', by decide, by decide⟩
    · decide
  have hval := afterFirst_self_pref ("interface".data) (' ' :: name)
    (by decide)
  have h := findConfigValue_prefix_hit
    [cbLine0 name tag, ("state BACKUP".data)]
    (cbLine2 name)
    (cbLine3 tag :: ("version 2".data) :: cbLine5 delay :: cbLine6 prio ::
      cbLine7 adv :: ("virtual_ipaddress \x7b".data) ::
      (vipsO ++ [("\x7d".data), ("\x7d".data)]))
    ("interface".data) (' ' :: name) hpre hval
  rw [trimS_space_core name hh hl, if_neg hne] at h
  exact h

theorem cleanBlock_fcv_vrid (name : Str) (tag delay prio adv : Nat)
    (vipsO : List Str)
    (hnm : ¬ ("virtual_router_id".data) <:+: name) :
    findConfigValue (cleanBlock name tag delay prio adv vipsO)
      ("virtual_router_id".data) = .scalar (natRepr tag) := by
  have hpre : ∀ x ∈ [cbLine0 name tag, ("state BACKUP".data), cbLine2 name],
      ¬ ("virtual_router_id".data) <:+: x := by
    intro x hx
    simp only [List.mem_cons, List.not_mem_nil, or_false] at hx
    rcases hx with rfl | rfl | rfl
    · exact L0_clean _ name tag hnm (by decide) (by decide) (by decide)
        (by decide) (by decide) ⟨'v', by decide, by decide⟩
    · decide
    · exact word_name_clean _ _ name ' ' (by decide) hnm rfl (by decide)
  have hval := afterFirst_self_pref ("virtual_router_id".data)
    (' ' :: natRepr tag) (by decide)
  have h := findConfigValue_prefix_hit
    [cbLine0 name tag, ("state BACKUP".data), cbLine2 name]
    (cbLine3 tag)
    (("version 2".data) :: cbLine5 delay :: cbLine6 prio ::
      cbLine7 adv :: ("virtual_ipaddress \x7b".data) ::
      (vipsO ++ [("\x7d".data), ("\x7d".data)]))
    ("virtual_router_id".data) (' ' :: natRepr tag) hpre hval
  rw [trimS_space_digits tag, if_neg (natRepr_ne_nil tag)] at h
  exact h

theorem cleanBlock_fcv_version (name : Str) (tag delay prio adv : Nat)
    (vipsO : List Str)
    (hnm : ¬ ("version".data) <:+: name) :
    findConfigValue (cleanBlock name tag delay prio adv vipsO)
      ("version".data) = .scalar (['2']) := by
  have hpre : ∀ x ∈ [cbLine0 name tag, ("state BACKUP".data), cbLine2 name,
      cbLine3 tag], ¬ ("version".data) <:+: x := by
    intro x hx
    simp only [List.mem_cons, List.not_mem_nil, or_false] at hx
    rcases hx with rfl | rfl | rfl | rfl
    · exact L0_clean _ name tag hnm (by decide) (by decide) (by decide)
        (by decide) (by decide) ⟨'v', by decide, by decide⟩
    · decide
    · exact word_name_clean _ _ name ' ' (by decide) hnm rfl (by decide)
    · exact word_digits_clean _ _ tag ' ' (by decide)
        ⟨'v', by decide, by decide⟩ rfl (by decide)
  have hval := afterFirst_self_pref ("version".data) (' ' :: ['2'])
    (by decide)
  have h := findConfigValue_prefix_hit
    [cbLine0 name tag, ("state BACKUP".data), cbLine2 name, cbLine3 tag]
    (("version 2".data))
    (cbLine5 delay :: cbLine6 prio ::
      cbLine7 adv :: ("virtual_ipaddress \x7b".data) ::
      (vipsO ++ [("\x7d".data), ("\x7d".data)]))
    ("version".data) (' ' :: ['2']) hpre hval
  rw [show trimS (' ' :: ['2']) = ['2'] from rfl, if_neg (by decide)] at h
  exact h

theorem cleanBlock_fcv_priority (name : Str) (tag delay prio adv : Nat)
    (vipsO : List Str)
    (hnm : ¬ ("priority".data) <:+: name) :
    findConfigValue (cleanBlock name tag delay prio adv vipsO)
      ("priority".data) = .scalar (natRepr prio) := by
  have hpre : ∀ x ∈ [cbLine0 name tag, ("state BACKUP".data), cbLine2 name,
      cbLine3 tag, ("version 2".data), cbLine5 delay],
      ¬ ("priority".data) <:+: x := by
    intro x hx
    simp only [List.mem_cons, List.not_mem_nil, or_false] at hx
    rcases hx with rfl | rfl | rfl | rfl | rfl | rfl
    · exact L0_clean _ name tag hnm (by decide) (by decide) (by decide)
        (by decide) (by decide) ⟨'p', by decide, by decide⟩
    · decide
    · exact word_name_clean _ _ name ' ' (by decide) hnm rfl (by decide)
    · exact word_digits_clean _ _ tag ' ' (by decide)
        ⟨'p', by decide, by decide⟩ rfl (by decide)
    · decide
    · exact word_digits_clean _ _ delay ' ' (by decide)
        ⟨'p', by decide, by decide⟩ rfl (by decide)
  have hval := afterFirst_self_pref ("priority".data)
    (' ' :: natRepr prio) (by decide)
  have h := findConfigValue_prefix_hit
    [cbLine0 name tag, ("state BACKUP".data), cbLine2 name, cbLine3 tag,
      ("version 2".data), cbLine5 delay]
    (cbLine6 prio)
    (cbLine7 adv :: ("virtual_ipaddress \x7b".data) ::
      (vipsO ++ [("\x7d".data), ("\x7d".data)]))
    ("priority".data) (' ' :: natRepr prio) hpre hval
  rw [trimS_space_digits prio, if_neg (natRepr_ne_nil prio)] at h
  exact h

theorem cleanBlock_fcv_advert (name : Str) (tag delay prio adv : Nat)
    (vipsO : List Str)
    (hnm : ¬ ("advert_int".data) <:+: name) :
    findConfigValue (cleanBlock name tag delay prio adv vipsO)
      ("advert_int".data) = .scalar (natRepr adv) := by
  have hpre : ∀ x ∈ [cbLine0 name tag, ("state BACKUP".data), cbLine2 name,
      cbLine3 tag, ("version 2".data), cbLine5 delay, cbLine6 prio],
      ¬ ("advert_int".data) <:+: x := by
    intro x hx
    simp only [List.mem_cons, List.not_mem_nil, or_false] at hx
    rcases hx with rfl | rfl | rfl | rfl | rfl | rfl | rfl
    · exact L0_clean _ name tag hnm (by decide) (by decide) (by decide)
        (by decide) (by decide) ⟨'a', by decide, by decide⟩
    · decide
    · exact word_name_clean _ _ name ' ' (by decide) hnm rfl (by decide)
    · exact word_digits_clean _ _ tag ' ' (by decide)
        ⟨'a', by decide, by decide⟩ rfl (by decide)
    · decide
    · exact word_digits_clean _ _ delay ' ' (by decide)
        ⟨'a', by decide, by decide⟩ rfl (by decide)
    · exact word_digits_clean _ _ prio ' ' (by decide)
        ⟨'a', by decide, by decide⟩ rfl (by decide)
  have hval := afterFirst_self_pref ("advert_int".data)
    (' ' :: natRepr adv) (by decide)
  have h := findConfigValue_prefix_hit
    [cbLine0 name tag, ("state BACKUP".data), cbLine2 name, cbLine3 tag,
      ("version 2".data), cbLine5 delay, cbLine6 prio]
    (cbLine7 adv)
    (("virtual_ipaddress \x7b".data) ::
      (vipsO ++ [("\x7d".data), ("\x7d".data)]))
    ("advert_int".data) (' ' :: natRepr adv) hpre hval
  rw [trimS_space_digits adv, if_neg (natRepr_ne_nil adv)] at h
  exact h

theorem cleanBlock_indexFrom_none (name : Str) (tag delay prio adv : Nat)
    (vipsO : List Str) (m : Str)
    (hvips : ∀ v ∈ vipsO, ∀ c ∈ v, vipCharOk c = true)
    (h0 : (cbLine0 name tag == m) = false)
    (h1 : ((("state BACKUP".data) : Str) == m) = false)
    (h2 : (cbLine2 name == m) = false)
    (h3 : (cbLine3 tag == m) = false)
    (h4 : ((("version 2".data) : Str) == m) = false)
    (h5 : (cbLine5 delay == m) = false)
    (h6 : (cbLine6 prio == m) = false)
    (h7 : (cbLine7 adv == m) = false)
    (h8 : ((("virtual_ipaddress \x7b".data) : Str) == m) = false)
    (h9 : ((("\x7d".data) : Str) == m) = false)
    (hm : ∃ c ∈ m, vipCharOk c = false) :
    indexFrom (cleanBlock name tag delay prio adv vipsO) m 0 = none := by
  unfold indexFrom
  rw [List.drop_zero]
  rw [List.findIdx?_eq_none_iff.2]
  intro x hx
  unfold cleanBlock at hx
  simp only [List.cons_append, List.nil_append, List.mem_cons,
    List.mem_append, List.mem_singleton] at hx
  rcases hx with rfl | rfl | rfl | rfl | rfl | rfl | rfl | rfl | rfl |
    hV | rfl | rfl | hF
  · exact h0
  · exact h1
  · exact h2
  · exact h3
  · exact h4
  · exact h5
  · exact h6
  · exact h7
  · exact h8
  · exact beq_eq_false_iff_ne.2 (ne_of_class x m vipCharOk (hvips x hV) hm)
  · exact h9
  · exact h9
  · cases hF

theorem cleanBlock_indexFrom_vipstart (name : Str)
    (tag delay prio adv : Nat) (vipsO : List Str) :
    indexFrom (cleanBlock name tag delay prio adv vipsO)
      ("virtual_ipaddress \x7b".data) 0 = some 8 := by
  unfold indexFrom
  rw [List.drop_zero]
  unfold cleanBlock
  simp only [List.cons_append, List.nil_append]
  rw [findIdx?_cons_false _ _ _ _ rfl, findIdx?_cons_false _ _ _ _ rfl,
    findIdx?_cons_false _ _ _ _ rfl, findIdx?_cons_false _ _ _ _ rfl,
    findIdx?_cons_false _ _ _ _ rfl, findIdx?_cons_false _ _ _ _ rfl,
    findIdx?_cons_false _ _ _ _ rfl, findIdx?_cons_false _ _ _ _ rfl,
    findIdx?_cons_true _ _ _ _ rfl]

theorem cleanBlock_indexFrom_close (name : Str)
    (tag delay prio adv : Nat) (vipsO : List Str)
    (hvips : ∀ v ∈ vipsO, ∀ c ∈ v, vipCharOk c = true) :
    indexFrom (cleanBlock name tag delay prio adv vipsO)
      ("\x7d".data) 8 = some (9 + vipsO.length) := by
  unfold indexFrom
  have hdrop : (cleanBlock name tag delay prio adv vipsO).drop 8 =
      ("virtual_ipaddress \x7b".data) ::
        (vipsO ++ [("\x7d".data), ("\x7d".data)]) := rfl
  rw [hdrop, findIdx?_cons_false _ _ _ _ rfl,
    findIdx?_append_none _ vipsO _ 1 (fun v hv =>
      beq_eq_false_iff_ne.2 (ne_of_class v _ vipCharOk (hvips v hv)
        ⟨'\x7d', List.mem_cons_self _ _, by decide⟩)),
    findIdx?_cons_true _ _ _ _ rfl]
  show some (8 + (1 + vipsO.length)) = some (9 + vipsO.length)
  exact congrArg some (by omega)

theorem cleanBlock_slice (name : Str) (tag delay prio adv : Nat)
    (vipsO : List Str) :
    sliceFromTo (cleanBlock name tag delay prio adv vipsO) 9
      (9 + vipsO.length) = vipsO :=
  sliceFromTo_concat
    [ cbLine0 name tag, ("state BACKUP".data), cbLine2 name, cbLine3 tag,
      ("version 2".data), cbLine5 delay, cbLine6 prio, cbLine7 adv,
      ("virtual_ipaddress \x7b".data) ] vipsO [("\x7d".data), ("\x7d".data)]

theorem elideAdvert_cases2 (d : YDict) :
    elideAdvertDefault d = d ∨
    (dictGet d ("advertise-interval".data) = some (.n 1) ∧
     elideAdvertDefault d = dictDel d ("advertise-interval".data)) := by
  unfold elideAdvertDefault
  split
  · rename_i heq
    exact Or.inr ⟨heq, rfl⟩
  · exact Or.inl rfl

theorem elidePriority_cases2 (d : YDict) :
    elidePriorityDefault d = d ∨
    (dictGet d ("priority".data) = some (.n 100) ∧
     elidePriorityDefault d = dictDel d ("priority".data)) := by
  unfold elidePriorityDefault
  split
  · rename_i heq
    exact Or.inr ⟨heq, rfl⟩
  · exact Or.inl rfl

theorem elideAdvert_eq_self_of_ne (d : YDict) (a : Nat)
    (h : dictGet d ("advertise-interval".data) = some (.n a))
    (hne : a ≠ 1) : elideAdvertDefault d = d := by
  rcases elideAdvert_cases2 d with he | ⟨hg, _⟩
  · exact he
  · exfalso
    have := Option.some.inj (h.symm.trans hg)
    injection this with h2
    exact hne h2

theorem elidePriority_eq_self_of_ne (d : YDict) (a : Nat)
    (h : dictGet d ("priority".data) = some (.n a))
    (hne : a ≠ 100) : elidePriorityDefault d = d := by
  rcases elidePriority_cases2 d with he | ⟨hg, _⟩
  · exact he
  · exfalso
    have := Option.some.inj (h.symm.trans hg)
    injection this with h2
    exact hne h2

theorem elideAdvert_del (d : YDict)
    (h : dictGet d ("advertise-interval".data) = some (.n 1)) :
    elideAdvertDefault d = dictDel d ("advertise-interval".data) := by
  unfold elideAdvertDefault
  rw [h]

theorem elidePriority_del (d : YDict)
    (h : dictGet d ("priority".data) = some (.n 100)) :
    elidePriorityDefault d = dictDel d ("priority".data) := by
  unfold elidePriorityDefault
  rw [h]

theorem convertAuth_absent (block : List Str) (d : YDict)
    (hm : indexFrom block ("authentication \x7b".data) 0 = none) :
    convertAuthenticationConfig block d = d := by
  unfold convertAuthenticationConfig
  rw [hm]

theorem trimEnd_append_concrete (X Y : Str) (c : Char)
    (hY : Y.getLast? = some c) (hc : isWsC c = false) :
    trimEnd (X ++ Y) = X ++ Y :=
  trimEnd_eq_self _ (fun c2 hc2 => by
    rw [List.getLast?_append, hY] at hc2
    obtain rfl := Option.some.inj hc2
    exact hc)

theorem trimEnd_append_tail (X Y : Str) (hY : Y ≠ [])
    (hl : ∀ c, Y.getLast? = some c → isWsC c = false) :
    trimEnd (X ++ Y) = X ++ Y :=
  trimEnd_eq_self _ (fun c hc => by
    rw [List.getLast?_append] at hc
    cases hg : Y.getLast? with
    | none => exact absurd (List.getLast?_eq_none_iff.1 hg) hY
    | some cn =>
      rw [hg] at hc
      obtain rfl := Option.some.inj hc
      exact hl cn hg)

theorem mkVrrpGroupLines_restricted (name : Str) (delay : Nat) (g : GroupCfg)
    (rfcNum : Int) (a0 : Str) (rest : List Str)
    (hvadd : g.virtualAddress = a0 :: rest)
    (hver : g.version = 2) (hacc : g.accept = false) (hpre : g.preempt = true)
    (hrfc : g.rfcCompat = false) (hpd : g.preemptDelay = none)
    (hhs : g.helloSource = none) (hauth : g.auth = none)
    (htrack : g.track = none) (hti : g.trackInterface = none)
    (hnot : g.notify = none)
    (hip4 : whatIpVersion ((splitOnC '/' a0).headD []) = 4) :
    mkVrrpGroupLines name delay g rfcNum = .ok (
      [ "vrrp_instance ".data ++ instanceNameOf name g.tagnode ++ " \x7b".data,
        "    state BACKUP".data,
        "    interface ".data ++ name,
        "    virtual_router_id ".data ++ natRepr g.tagnode,
        "    version ".data ++ natRepr 2,
        "    start_delay ".data ++ natRepr delay,
        "    priority ".data ++
          natRepr (match g.priority with | none => 100 | some p => p),
        "    advert_int ".data ++ natRepr (computeAdv g),
        "    virtual_ipaddress \x7b".data ] ++
      (insSort strLeB (a0 :: rest)).map (fun v => "        ".data ++ v) ++
      [ "    \x7d".data ] ++ [ "\x7d".data ]) := by
  have hmt : mergeTrackInterface g = .ok none := by
    unfold mergeTrackInterface
    rw [hti, htrack]
  have hvo : vipsOrdered (a0 :: rest) = insSort strLeB (a0 :: rest) := by
    unfold vipsOrdered
    dsimp only
    rw [if_pos hip4]
  unfold mkVrrpGroupLines
  rw [hvadd]
  dsimp only
  rw [hmt]
  dsimp only
  rw [hvo, hver, hacc, hpre, hrfc, hpd, hhs, hauth, hnot,
    if_neg (show ¬(whatIpVersion ((splitOnC '/' a0).headD []) = 6) from by
      rw [hip4]; decide)]
  simp only [Bool.not_true, Bool.false_eq_true, if_false, List.append_nil,
    List.nil_append, List.append_assoc]

theorem rawLines_trim (name : Str) (tag delay prio adv : Nat)
    (vipsO : List Str)
    (hne : name ≠ [])
    (hnl : ∀ c, name.getLast? = some c → isWsC c = false)
    (hvips : ∀ v ∈ vipsO, v ≠ [] ∧ ∀ c ∈ v, vipCharOk c = true) :
    (( [ "vrrp_instance ".data ++ instanceNameOf name tag ++ " \x7b".data,
         "    state BACKUP".data,
         "    interface ".data ++ name,
         "    virtual_router_id ".data ++ natRepr tag,
         "    version ".data ++ natRepr 2,
         "    start_delay ".data ++ natRepr delay,
         "    priority ".data ++ natRepr prio,
         "    advert_int ".data ++ natRepr adv,
         "    virtual_ipaddress \x7b".data ] ++
       vipsO.map (fun v => "        ".data ++ v) ++
       [ "    \x7d".data ] ++ [ "\x7d".data ]).map trimS) =
    cleanBlock name tag delay prio adv vipsO := by
  have h0 : trimS ("vrrp_instance ".data ++ instanceNameOf name tag ++
      " \x7b".data) =
      ("vrrp_instance ".data ++ instanceNameOf name tag ++ " \x7b".data) :=
    trimEnd_append_concrete ("vrrp_instance ".data ++ instanceNameOf name tag) (" \x7b".data) '\x7b' rfl rfl
  have h2 : trimS ("    interface ".data ++ name) =
      ("interface ".data ++ name) :=
    trimEnd_append_tail ("interface ".data) name hne hnl
  have h3 : trimS ("    virtual_router_id ".data ++ natRepr tag) =
      ("virtual_router_id ".data ++ natRepr tag) :=
    trimEnd_append_tail ("virtual_router_id ".data) (natRepr tag) (natRepr_ne_nil tag) (natRepr_last_no_ws tag)
  have h5 : trimS ("    start_delay ".data ++ natRepr delay) =
      ("start_delay ".data ++ natRepr delay) :=
    trimEnd_append_tail ("start_delay ".data) (natRepr delay) (natRepr_ne_nil delay) (natRepr_last_no_ws delay)
  have h6 : trimS ("    priority ".data ++ natRepr prio) =
      ("priority ".data ++ natRepr prio) :=
    trimEnd_append_tail ("priority ".data) (natRepr prio) (natRepr_ne_nil prio) (natRepr_last_no_ws prio)
  have h7 : trimS ("    advert_int ".data ++ natRepr adv) =
      ("advert_int ".data ++ natRepr adv) :=
    trimEnd_append_tail ("advert_int ".data) (natRepr adv) (natRepr_ne_nil adv) (natRepr_last_no_ws adv)
  have hv : ∀ v ∈ vipsO, trimS ("        ".data ++ v) = v := by
    intro v hvm
    obtain ⟨hvne, hvc⟩ := hvips v hvm
    have hh : ∀ c, v.head? = some c → isWsC c = false := fun c hc =>
      not_ws_of_ge33 c (vipCharOk_ge33 c (hvc c (List.mem_of_mem_head? hc)))
    have hl : ∀ c, v.getLast? = some c → isWsC c = false := fun c hc =>
      not_ws_of_ge33 c (vipCharOk_ge33 c (hvc c (List.mem_of_mem_getLast? hc)))
    show trimEnd (List.dropWhile isWsC v) = v
    rw [dropWhile_eq_self_of_head _ v hh]
    exact trimEnd_eq_self v hl
  simp only [List.map_append, List.map_cons, List.map_nil, List.map_map]
  rw [h0, h2, h3, h5, h6, h7]
  have hmap : List.map (trimS ∘ fun v => ("        ".data) ++ v) vipsO =
      vipsO :=
    (List.map_congr_left (fun v hvm => hv v hvm)).trans (List.map_id' vipsO)
  rw [hmap]
  unfold cleanBlock
  simp only [instanceNameOf, List.cons_append, List.nil_append,
    List.append_assoc]
  rfl

theorem cleanBlock_parse (name : Str) (tag delay prio adv : Nat)
    (vipsO : List Str)
    (hnsent : ∀ S ∈ lineSentinels, ¬ S <:+: name)
    (hnne : name ≠ [])
    (hnchars : ∀ c ∈ name, nameCharOk c = true)
    (hvips : ∀ v ∈ vipsO, v ≠ [] ∧ ∀ c ∈ v, vipCharOk c = true) :
    convertKeepalivedConfigToYang (cleanBlock name tag delay prio adv vipsO) =
      .ok (sortKeys ((dictSet
        (elidePriorityDefault (elideAdvertDefault
          (configDictInit (cleanBlock name tag delay prio adv vipsO))))
        ("virtual-address".data) (.arr (vipsO.map YVal.s))).filter
        (fun p => !isNotFoundVal p.2))) := by
  have hvc : ∀ v ∈ vipsO, ∀ c ∈ v, vipCharOk c = true :=
    fun v hv => (hvips v hv).2
  have hnh : ∀ c, name.head? = some c → isWsC c = false := fun c hc =>
    not_ws_of_ge33 c (nameCharOk_ge33 c (hnchars c (List.mem_of_mem_head? hc)))
  have hnl : ∀ c, name.getLast? = some c → isWsC c = false := fun c hc =>
    not_ws_of_ge33 c (nameCharOk_ge33 c (hnchars c (List.mem_of_mem_getLast? hc)))
  have hBne : cleanBlock name tag delay prio adv vipsO ≠ [] := by
    simp [cleanBlock]
  have hv1 := cleanBlock_indexFrom_vipstart name tag delay prio adv vipsO
  have hv2 := cleanBlock_indexFrom_close name tag delay prio adv vipsO hvc
  have hslice : sliceFromTo (cleanBlock name tag delay prio adv vipsO)
      (8 + 1) (9 + vipsO.length) = vipsO :=
    cleanBlock_slice name tag delay prio adv vipsO
  have hver3 : dictGet (dictSet
      (elidePriorityDefault (elideAdvertDefault
        (configDictInit (cleanBlock name tag delay prio adv vipsO))))
      ("virtual-address".data) (.arr (vipsO.map YVal.s)))
      ("version".data) = some (.n 2) := by
    rw [pipeline_get_version]
    have hfv := cleanBlock_fcv_version name tag delay prio adv vipsO
      (hnsent _ (by decide))
    unfold configFieldVal
    rw [hfv]
    rfl
  have hmauth := cleanBlock_indexFrom_none name tag delay prio adv vipsO
    ("authentication \x7b".data) hvc rfl rfl rfl rfl rfl rfl rfl rfl rfl rfl
    ⟨'a', by decide, by decide⟩
  have hmtrack := cleanBlock_indexFrom_none name tag delay prio adv vipsO
    ("track \x7b".data) hvc rfl rfl rfl rfl rfl rfl rfl rfl rfl rfl
    ⟨'t', by decide, by decide⟩
  have hmnotify := cleanBlock_indexFrom_none name tag delay prio adv vipsO
    ("notify \x7b".data) hvc rfl rfl rfl rfl rfl rfl rfl rfl rfl rfl
    ⟨'n', by decide, by decide⟩
  have hvb : versionBranch (cleanBlock name tag delay prio adv vipsO)
      (dictSet (elidePriorityDefault (elideAdvertDefault
        (configDictInit (cleanBlock name tag delay prio adv vipsO))))
        ("virtual-address".data) (.arr (vipsO.map YVal.s))) =
      .ok (dictSet (elidePriorityDefault (elideAdvertDefault
        (configDictInit (cleanBlock name tag delay prio adv vipsO))))
        ("virtual-address".data) (.arr (vipsO.map YVal.s))) := by
    unfold versionBranch
    rw [hver3]
    dsimp only
    rw [convertAuth_absent _ _ hmauth]
  have hfint := cleanBlock_fcv_interface name tag delay prio adv vipsO
    (hnsent _ (by decide)) hnne hnh hnl
  have htrk := convertTracking_absent (cleanBlock name tag delay prio adv vipsO)
    (dictSet (elidePriorityDefault (elideAdvertDefault
      (configDictInit (cleanBlock name tag delay prio adv vipsO))))
      ("virtual-address".data) (.arr (vipsO.map YVal.s))) name hmtrack
  have hntf := convertNotify_absent (cleanBlock name tag delay prio adv vipsO)
    (dictSet (elidePriorityDefault (elideAdvertDefault
      (configDictInit (cleanBlock name tag delay prio adv vipsO))))
      ("virtual-address".data) (.arr (vipsO.map YVal.s))) hmnotify
  unfold convertKeepalivedConfigToYang
  rw [if_neg hBne, hv1]
  dsimp only
  rw [hv2]
  dsimp only
  rw [hslice, hvb]
  dsimp only
  rw [hfint]
  dsimp only
  rw [htrk, exc_bind_ok, hntf, exc_bind_ok]
  rfl

/-- C1 amended: the round trip holds at group level only under
restrictions and up to the documented elisions.  For a version-2 group
with default accept/preempt, no optional sections, IPv4 virtual
addresses and hygienic names, serializing the group and parsing the
stripped text back reproduces every field the write path supports:
tagnode, version, accept, preempt and the virtual addresses (in emitted
order) survive; priority and advertise-interval survive exactly when
they differ from the defaults 100 and 1, which are elided; and every
other optional field is absent on both sides. -/
theorem restricted_group_round_trip (name : Str) (delay : Nat) (g : GroupCfg)
    (a0 : Str) (rest : List Str)
    (hvadd : g.virtualAddress = a0 :: rest)
    (hver : g.version = 2) (hacc : g.accept = false) (hpre : g.preempt = true)
    (hrfc : g.rfcCompat = false) (hpd : g.preemptDelay = none)
    (hhs : g.helloSource = none) (hauth : g.auth = none)
    (htrack : g.track = none) (hti : g.trackInterface = none)
    (hnot : g.notify = none) (hfast : g.fastAdvertiseInterval = none)
    (hip4 : whatIpVersion ((splitOnC '/' a0).headD []) = 4)
    (hnne : name ≠ [])
    (hnchars : ∀ c ∈ name, nameCharOk c = true)
    (hnsent : ∀ S ∈ lineSentinels, ¬ S <:+: name)
    (hvipok : ∀ v ∈ g.virtualAddress, v ≠ [] ∧ ∀ c ∈ v, vipCharOk c = true) :
    ∃ ls d,
      mkVrrpGroupLines name delay g (-1) = .ok ls ∧
      convertKeepalivedConfigToYang (ls.map trimS) = .ok d ∧
      dictGet d ("tagnode".data) = some (.n g.tagnode) ∧
      dictGet d ("version".data) = some (.n 2) ∧
      dictGet d ("accept".data) = some (.b false) ∧
      dictGet d ("preempt".data) = some (.b true) ∧
      dictGet d ("virtual-address".data) =
        some (.arr ((vipsOrdered g.virtualAddress).map YVal.s)) ∧
      dictGet d ("priority".data) =
        (match g.priority with
         | none => none
         | some p => if p = 100 then none else some (.n p)) ∧
      dictGet d ("advertise-interval".data) =
        (match g.advertiseInterval with
         | none => none
         | some a => if a = 1 then none else some (.n a)) ∧
      dictGet d ("hello-source-address".data) = none ∧
      dictGet d ("preempt-delay".data) = none ∧
      dictGet d ("sync-group".data) = none ∧
      dictGet d ("rfc-compatibility".data) = none ∧
      dictGet d ("authentication".data) = none ∧
      dictGet d ("track".data) = none ∧
      dictGet d ("notify".data) = none := by
  have hnl : ∀ c, name.getLast? = some c → isWsC c = false := fun c hc =>
    not_ws_of_ge33 c (nameCharOk_ge33 c (hnchars c (List.mem_of_mem_getLast? hc)))
  have hvo : vipsOrdered g.virtualAddress = insSort strLeB (a0 :: rest) := by
    rw [hvadd]
    unfold vipsOrdered
    dsimp only
    rw [if_pos hip4]
  have hvipsO : ∀ v ∈ insSort strLeB (a0 :: rest),
      v ≠ [] ∧ ∀ c ∈ v, vipCharOk c = true := by
    intro v hv
    apply hvipok
    rw [hvadd]
    exact (insSort_perm _ _).mem_iff.1 hv
  have hvcO : ∀ v ∈ insSort strLeB (a0 :: rest), ∀ c ∈ v, vipCharOk c = true :=
    fun v hv => (hvipsO v hv).2
  have hmk := mkVrrpGroupLines_restricted name delay g (-1) a0 rest hvadd
    hver hacc hpre hrfc hpd hhs hauth htrack hti hnot hip4
  have htrim := rawLines_trim name g.tagnode delay
    (match g.priority with | none => 100 | some p => p) (computeAdv g)
    (insSort strLeB (a0 :: rest)) hnne hnl hvipsO
  have hparse := cleanBlock_parse name g.tagnode delay
    (match g.priority with | none => 100 | some p => p) (computeAdv g)
    (insSort strLeB (a0 :: rest)) hnsent hnne hnchars hvipsO
  set P : Nat := (match g.priority with | none => 100 | some p => p) with hP
  set A : Nat := computeAdv g with hA
  set vipsO : List Str := insSort strLeB (a0 :: rest) with hvO
  set B : List Str := cleanBlock name g.tagnode delay P A vipsO with hB
  have hvc : ∀ v ∈ vipsO, ∀ c ∈ v, vipCharOk c = true :=
    fun v hv => (hvipsO v hv).2
  have hn3 := nodup_d3 B vipsO
  have hnF := nodup_dictKeys_filter
    (dictSet (elidePriorityDefault (elideAdvertDefault (configDictInit B)))
      ("virtual-address".data) (.arr (vipsO.map YVal.s)))
    (fun p => !isNotFoundVal p.2) hn3
  have hf_vrid := cleanBlock_fcv_vrid name g.tagnode delay P A vipsO
    (hnsent _ (by decide))
  have hf_version := cleanBlock_fcv_version name g.tagnode delay P A vipsO
    (hnsent _ (by decide))
  have hf_priority := cleanBlock_fcv_priority name g.tagnode delay P A vipsO
    (hnsent _ (by decide))
  have hf_advert := cleanBlock_fcv_advert name g.tagnode delay P A vipsO
    (hnsent _ (by decide))
  have hf_acc := findConfigValue_eq_notFound B ("accept".data)
    (cleanBlock_all_clean name g.tagnode delay P A vipsO _
      (hnsent _ (by decide)) hvc (by decide) (by decide) (by decide)
      (by decide) (by decide) (by decide) (by decide) (by decide) (by decide)
      (by decide) (by decide) (by decide) (by decide) (by decide)
      ⟨'a', by decide, by decide⟩ ⟨'a', by decide, by decide⟩)
  have hf_pre := findConfigValue_eq_notFound B ("preempt".data)
    (cleanBlock_all_clean name g.tagnode delay P A vipsO _
      (hnsent _ (by decide)) hvc (by decide) (by decide) (by decide)
      (by decide) (by decide) (by decide) (by decide) (by decide) (by decide)
      (by decide) (by decide) (by decide) (by decide) (by decide)
      ⟨'p', by decide, by decide⟩ ⟨'p', by decide, by decide⟩)
  have hf_mcast := findConfigValue_eq_notFound B ("mcast_src_ip".data)
    (cleanBlock_all_clean name g.tagnode delay P A vipsO _
      (hnsent _ (by decide)) hvc (by decide) (by decide) (by decide)
      (by decide) (by decide) (by decide) (by decide) (by decide) (by decide)
      (by decide) (by decide) (by decide) (by decide) (by decide)
      ⟨'m', by decide, by decide⟩ ⟨'m', by decide, by decide⟩)
  have hf_vmac := findConfigValue_eq_notFound B ("vmac_xmit_base".data)
    (cleanBlock_all_clean name g.tagnode delay P A vipsO _
      (hnsent _ (by decide)) hvc (by decide) (by decide) (by decide)
      (by decide) (by decide) (by decide) (by decide) (by decide) (by decide)
      (by decide) (by decide) (by decide) (by decide) (by decide)
      ⟨'m', by decide, by decide⟩ ⟨'m', by decide, by decide⟩)
  have hf_pd := findConfigValue_eq_notFound B ("preempt_delay".data)
    (cleanBlock_all_clean name g.tagnode delay P A vipsO _
      (hnsent _ (by decide)) hvc (by decide) (by decide) (by decide)
      (by decide) (by decide) (by decide) (by decide) (by decide) (by decide)
      (by decide) (by decide) (by decide) (by decide) (by decide)
      ⟨'m', by decide, by decide⟩ ⟨'m', by decide, by decide⟩)
  have hf_sg := findConfigValue_eq_notFound B ("sync_group".data)
    (cleanBlock_all_clean name g.tagnode delay P A vipsO _
      (hnsent _ (by decide)) hvc (by decide) (by decide) (by decide)
      (by decide) (by decide) (by decide) (by decide) (by decide) (by decide)
      (by decide) (by decide) (by decide) (by decide) (by decide)
      ⟨'y', by decide, by decide⟩ ⟨'y', by decide, by decide⟩)
  have g_acc : dictGet (configDictInit B) ("accept".data) =
      some (.b false) := by
    rw [configDictInit_get B ("accept".data) ("accept".data) (by decide)]
    unfold configFieldVal
    rw [hf_acc]
    rfl
  have g_pre : dictGet (configDictInit B) ("preempt".data) =
      some (.b true) := by
    rw [configDictInit_get B ("preempt".data) ("preempt".data) (by decide)]
    unfold configFieldVal
    rw [hf_pre]
    rfl
  have g_tag : dictGet (configDictInit B) ("tagnode".data) =
      some (.n g.tagnode) := by
    rw [configDictInit_get B ("tagnode".data) ("virtual_router_id".data)
      (by decide)]
    unfold configFieldVal
    rw [hf_vrid]
    dsimp only
    rw [if_pos (isDigitS_natRepr g.tagnode), digitsToNat_natRepr]
  have g_ver : dictGet (configDictInit B) ("version".data) =
      some (.n 2) := by
    rw [configDictInit_get B ("version".data) ("version".data) (by decide)]
    unfold configFieldVal
    rw [hf_version]
    rfl
  have g_prio : dictGet (configDictInit B) ("priority".data) =
      some (.n P) := by
    rw [configDictInit_get B ("priority".data) ("priority".data) (by decide)]
    unfold configFieldVal
    rw [hf_priority]
    dsimp only
    rw [if_pos (isDigitS_natRepr P), digitsToNat_natRepr]
  have g_adv : dictGet (configDictInit B) ("advertise-interval".data) =
      some (.n A) := by
    rw [configDictInit_get B ("advertise-interval".data) ("advert_int".data)
      (by decide)]
    unfold configFieldVal
    rw [hf_advert]
    dsimp only
    rw [if_pos (isDigitS_natRepr A), digitsToNat_natRepr]
  have g_hs : dictGet (configDictInit B) ("hello-source-address".data) =
      some (.s ("NOTFOUND".data)) := by
    rw [configDictInit_get B ("hello-source-address".data)
      ("mcast_src_ip".data) (by decide)]
    unfold configFieldVal
    rw [hf_mcast]
    dsimp only
    rw [if_neg (by decide), if_neg (by decide)]
  have g_rfc : dictGet (configDictInit B) ("rfc-compatibility".data) =
      some (.s ("NOTFOUND".data)) := by
    rw [configDictInit_get B ("rfc-compatibility".data)
      ("vmac_xmit_base".data) (by decide)]
    unfold configFieldVal
    rw [hf_vmac]
    dsimp only
    rw [if_neg (by decide), if_neg (by decide)]
  have g_pd : dictGet (configDictInit B) ("preempt-delay".data) =
      some (.s ("NOTFOUND".data)) := by
    rw [configDictInit_get B ("preempt-delay".data)
      ("preempt_delay".data) (by decide)]
    unfold configFieldVal
    rw [hf_pd]
    dsimp only
    rw [if_neg (by decide), if_neg (by decide)]
  have g_sg : dictGet (configDictInit B) ("sync-group".data) =
      some (.s ("NOTFOUND".data)) := by
    rw [configDictInit_get B ("sync-group".data)
      ("sync_group".data) (by decide)]
    unfold configFieldVal
    rw [hf_sg]
    dsimp only
    rw [if_neg (by decide), if_neg (by decide)]
  have c_ne : ∀ k : Str, k ≠ ("advertise-interval".data) →
      k ≠ ("priority".data) → k ≠ ("virtual-address".data) →
      dictGet (dictSet (elidePriorityDefault (elideAdvertDefault
        (configDictInit B))) ("virtual-address".data)
        (.arr (vipsO.map YVal.s))) k = dictGet (configDictInit B) k := by
    intro k h1 h2 h3
    rw [dictGet_dictSet_ne _ _ _ _ h3, elidePriority_get_ne _ _ h2,
      elideAdvert_get_ne _ _ h1]
  have final_kept : ∀ (k : Str) (v : YVal),
      dictGet (dictSet (elidePriorityDefault (elideAdvertDefault
        (configDictInit B))) ("virtual-address".data)
        (.arr (vipsO.map YVal.s))) k = some v →
      isNotFoundVal v = false →
      dictGet (sortKeys ((dictSet (elidePriorityDefault (elideAdvertDefault
        (configDictInit B))) ("virtual-address".data)
        (.arr (vipsO.map YVal.s))).filter (fun p => !isNotFoundVal p.2))) k =
        some v := by
    intro k v hg hv
    rw [sortKeys_dictGet _ _ hnF]
    refine dictGet_filter_kept _ _ _ _ hn3 hg ?_
    show (!isNotFoundVal v) = true
    rw [hv]
    rfl
  have final_none : ∀ k : Str,
      dictGet (dictSet (elidePriorityDefault (elideAdvertDefault
        (configDictInit B))) ("virtual-address".data)
        (.arr (vipsO.map YVal.s))) k = none →
      dictGet (sortKeys ((dictSet (elidePriorityDefault (elideAdvertDefault
        (configDictInit B))) ("virtual-address".data)
        (.arr (vipsO.map YVal.s))).filter (fun p => !isNotFoundVal p.2))) k =
        none := by
    intro k hg
    rw [sortKeys_dictGet _ _ hnF]
    exact dictGet_filter_none _ _ _ hg
  have final_dropped : ∀ k : Str,
      dictGet (dictSet (elidePriorityDefault (elideAdvertDefault
        (configDictInit B))) ("virtual-address".data)
        (.arr (vipsO.map YVal.s))) k = some (.s ("NOTFOUND".data)) →
      dictGet (sortKeys ((dictSet (elidePriorityDefault (elideAdvertDefault
        (configDictInit B))) ("virtual-address".data)
        (.arr (vipsO.map YVal.s))).filter (fun p => !isNotFoundVal p.2))) k =
        none := by
    intro k hg
    rw [sortKeys_dictGet _ _ hnF]
    refine dictGet_filter_dropped _ _ _ hn3 ?_
    intro v hv
    obtain rfl := Option.some.inj (hg.symm.trans hv)
    rfl
  refine ⟨_, sortKeys ((dictSet (elidePriorityDefault (elideAdvertDefault
      (configDictInit B))) ("virtual-address".data)
      (.arr (vipsO.map YVal.s))).filter (fun p => !isNotFoundVal p.2)),
    hmk, ?_, ?_, ?_, ?_, ?_, ?_, ?_, ?_, ?_, ?_, ?_, ?_, ?_, ?_, ?_⟩
  · rw [htrim]
    exact hparse
  · exact final_kept _ _ ((c_ne _ (by decide) (by decide) (by decide)).trans
      g_tag) rfl
  · exact final_kept _ _ ((c_ne _ (by decide) (by decide) (by decide)).trans
      g_ver) rfl
  · exact final_kept _ _ ((c_ne _ (by decide) (by decide) (by decide)).trans
      g_acc) rfl
  · exact final_kept _ _ ((c_ne _ (by decide) (by decide) (by decide)).trans
      g_pre) rfl
  · rw [hvo]
    exact final_kept _ _ (dictGet_dictSet_same _ _ _) rfl
  · have hadA : dictGet (elideAdvertDefault (configDictInit B))
        ("priority".data) = some (.n P) := by
      rw [elideAdvert_get_ne _ _ (by decide)]
      exact g_prio
    rcases hgp : g.priority with _ | p
    · have hP100 : P = 100 := by rw [hP, hgp]
      rw [hP100] at hadA
      have hdel := elidePriority_del _ hadA
      refine final_none _ ?_
      rw [dictGet_dictSet_ne _ _ _ _ (by decide), hdel,
        dictGet_dictDel_same]
    · dsimp only
      by_cases hp100 : p = 100
      · have hP100 : P = 100 := by rw [hP, hgp, hp100]
        rw [hP100] at hadA
        have hdel := elidePriority_del _ hadA
        rw [if_pos hp100]
        refine final_none _ ?_
        rw [dictGet_dictSet_ne _ _ _ _ (by decide), hdel,
          dictGet_dictDel_same]
      · have hPp : P = p := by rw [hP, hgp]
        have hkeep := elidePriority_eq_self_of_ne _ P hadA
          (by rw [hPp]; exact hp100)
        rw [if_neg hp100, ← hPp]
        refine final_kept _ _ ?_ rfl
        rw [dictGet_dictSet_ne _ _ _ _ (by decide), hkeep]
        exact hadA
  · rcases hga : g.advertiseInterval with _ | a3
    · have hA1 : A = 1 := by
        rw [hA]
        unfold computeAdv
        rw [hga, hfast]
      rw [hA1] at g_adv
      have hdel := elideAdvert_del _ g_adv
      refine final_none _ ?_
      rw [dictGet_dictSet_ne _ _ _ _ (by decide),
        elidePriority_get_ne _ _ (by decide), hdel, dictGet_dictDel_same]
    · dsimp only
      have hAa : A = a3 := by
        rw [hA]
        unfold computeAdv
        rw [hga, hfast]
      by_cases ha1 : a3 = 1
      · rw [ha1] at hAa
        rw [hAa] at g_adv
        have hdel := elideAdvert_del _ g_adv
        rw [if_pos ha1]
        refine final_none _ ?_
        rw [dictGet_dictSet_ne _ _ _ _ (by decide),
          elidePriority_get_ne _ _ (by decide), hdel, dictGet_dictDel_same]
      · have hkeep := elideAdvert_eq_self_of_ne _ A g_adv
          (by rw [hAa]; exact ha1)
        rw [if_neg ha1, ← hAa]
        refine final_kept _ _ ?_ rfl
        rw [dictGet_dictSet_ne _ _ _ _ (by decide),
          elidePriority_get_ne _ _ (by decide), hkeep]
        exact g_adv
  · exact final_dropped _ ((c_ne _ (by decide) (by decide)
      (by decide)).trans g_hs)
  · exact final_dropped _ ((c_ne _ (by decide) (by decide)
      (by decide)).trans g_pd)
  · exact final_dropped _ ((c_ne _ (by decide) (by decide)
      (by decide)).trans g_sg)
  · exact final_dropped _ ((c_ne _ (by decide) (by decide)
      (by decide)).trans g_rfc)
  · exact final_none _ ((c_ne _ (by decide) (by decide)
      (by decide)).trans (configDictInit_get_none B _ (by decide)))
  · exact final_none _ ((c_ne _ (by decide) (by decide)
      (by decide)).trans (configDictInit_get_none B _ (by decide)))
  · exact final_none _ ((c_ne _ (by decide) (by decide)
      (by decide)).trans (configDictInit_get_none B _ (by decide)))

/-- A concrete restricted group for exercising the round trip. -/
def gW : GroupCfg :=
  { tagnode := 7, version := 2, accept := false, preempt := true,
    virtualAddress := [("10.1.1.1/24".data)],
    priority := some 50, advertiseInterval := some 3 }

set_option maxRecDepth 10000 in
theorem restricted_group_round_trip_witness :
    ∃ ls d,
      mkVrrpGroupLines ("dp0p1s1".data) 0 gW (-1) = .ok ls ∧
      convertKeepalivedConfigToYang (ls.map trimS) = .ok d ∧
      dictGet d ("tagnode".data) = some (.n gW.tagnode) ∧
      dictGet d ("version".data) = some (.n 2) ∧
      dictGet d ("accept".data) = some (.b false) ∧
      dictGet d ("preempt".data) = some (.b true) ∧
      dictGet d ("virtual-address".data) =
        some (.arr ((vipsOrdered gW.virtualAddress).map YVal.s)) ∧
      dictGet d ("priority".data) =
        (match gW.priority with
         | none => none
         | some p => if p = 100 then none else some (.n p)) ∧
      dictGet d ("advertise-interval".data) =
        (match gW.advertiseInterval with
         | none => none
         | some a => if a = 1 then none else some (.n a)) ∧
      dictGet d ("hello-source-address".data) = none ∧
      dictGet d ("preempt-delay".data) = none ∧
      dictGet d ("sync-group".data) = none ∧
      dictGet d ("rfc-compatibility".data) = none ∧
      dictGet d ("authentication".data) = none ∧
      dictGet d ("track".data) = none ∧
      dictGet d ("notify".data) = none :=
  restricted_group_round_trip ("dp0p1s1".data) 0 gW ("10.1.1.1/24".data) []
    rfl rfl rfl rfl rfl rfl rfl rfl rfl rfl rfl rfl (by decide) (by decide)
    (by decide) (by decide) (by decide)
